import Mathlib

/-!
# PointCloud: rolling-ball simulation on a triangulated surface

A shallow embedding of `Rollingballmainidea.cpp` (class `BallSimulation`) and of
`vector3d.h`, `trianglesurface.cpp` and `rollingball.cpp` (classes `Vector3d`,
`TriangleSurface` and `RollingBall`).

* `float` values are modelled by exact rationals (`ℚ`); the decimal literals of the
  source (`1e-8f`, `-0.001f`, `9.81f`, ...) are taken at their decimal value.
* `std::vector` indexing with an `int` index is modelled by a fallible lookup: an index
  outside `[0, size)` is the fault `Fault.indexOutOfRange`.
* `vec3::operator/` asserts a non-zero divisor; divisions go through `fdiv` or `Vec3.div`,
  which report `Fault.divisionByZero` on a zero divisor (the divisions of
  `Vector3d::normalize` are taken under its guard `len > 0`).
* `std::sqrt` is not a rational function; the functions that need it take it as the
  parameter `sqrtF`.
-/

namespace PointCloud

/-! ## Data model -/

/-- Faults a run of the program can hit. -/
inductive Fault where
  | indexOutOfRange
  | divisionByZero
  deriving DecidableEq, Repr

/-- The `glm::vec3` replacement of the source: three floats. -/
structure Vec3 where
  x : ℚ
  y : ℚ
  z : ℚ
  deriving DecidableEq, Repr

/-- The source's `struct Triangle`: `int vertices[3]` and `int neighbors[3]`
(`-1` marks a boundary edge). -/
structure Triangle where
  v0 : Int
  v1 : Int
  v2 : Int
  n0 : Int
  n1 : Int
  n2 : Int
  deriving DecidableEq, Repr

/-- Reading `tri.vertices[i]` for `i` in `0..2`. -/
def Triangle.vertices (t : Triangle) : Fin 3 → Int
  | 0 => t.v0
  | 1 => t.v1
  | 2 => t.v2

/-- Reading `tri.neighbors[i]` for `i` in `0..2`. -/
def Triangle.neighbors (t : Triangle) : Fin 3 → Int
  | 0 => t.n0
  | 1 => t.n1
  | 2 => t.n2

/-- The two vectors owned by `BallSimulation`: `vertices` (each `Vertex` holds just a
position) and `triangles`. -/
structure Mesh where
  vertices : List Vec3
  triangles : List Triangle
  deriving DecidableEq, Repr

/-- The source's `struct BallState`. -/
structure BallState where
  position : Vec3
  velocity : Vec3
  currentTriangle : Int
  deriving DecidableEq, Repr

/-- Equality of results is decidable, so that runs can be evaluated. -/
instance instDecidableEqExcept {ε α : Type} [DecidableEq ε] [DecidableEq α] :
    DecidableEq (Except ε α)
  | .ok a, .ok b =>
    if h : a = b then isTrue (by rw [h]) else isFalse (by intro h2; cases h2; exact h rfl)
  | .error a, .error b =>
    if h : a = b then isTrue (by rw [h]) else isFalse (by intro h2; cases h2; exact h rfl)
  | .ok _, .error _ => isFalse (by intro h; cases h)
  | .error _, .ok _ => isFalse (by intro h; cases h)

/-- Indexing a `std::vector` with an `int`: defined only for `0 ≤ i < size`. -/
def vecAt {α : Type} (l : List α) (i : Int) : Except Fault α :=
  if 0 ≤ i then
    match l.get? i.toNat with
    | some a => .ok a
    | none => .error Fault.indexOutOfRange
  else .error Fault.indexOutOfRange

/-- Reading `triangles[i]`. -/
def Mesh.triangleAt (m : Mesh) (i : Int) : Except Fault Triangle :=
  vecAt m.triangles i

/-- Reading `vertices[i].position`. -/
def Mesh.vertexAt (m : Mesh) (i : Int) : Except Fault Vec3 :=
  vecAt m.vertices i

/-- Float division with the divisor checked (`assert(s != 0)` in `vec3::operator/`). -/
def fdiv (a b : ℚ) : Except Fault ℚ :=
  if b = 0 then .error Fault.divisionByZero else .ok (a / b)

/-! ## The glm replacement -/

/-- Source: `vec3::operator+`. -/
def Vec3.add (a o : Vec3) : Vec3 := ⟨a.x + o.x, a.y + o.y, a.z + o.z⟩

/-- Source: `vec3::operator-`. -/
def Vec3.sub (a o : Vec3) : Vec3 := ⟨a.x - o.x, a.y - o.y, a.z - o.z⟩

/-- Source: `vec3::operator*(float)`. -/
def Vec3.smul (a : Vec3) (s : ℚ) : Vec3 := ⟨a.x * s, a.y * s, a.z * s⟩

/-- Source: `vec3::operator/(float)`, with its `assert(s != 0)`. -/
def Vec3.div (a : Vec3) (s : ℚ) : Except Fault Vec3 :=
  if s = 0 then .error Fault.divisionByZero else .ok ⟨a.x / s, a.y / s, a.z / s⟩

/-- Source: `glm::dot`. -/
def dot (a b : Vec3) : ℚ := a.x * b.x + a.y * b.y + a.z * b.z

/-- Source: `glm::cross`. -/
def cross (a b : Vec3) : Vec3 :=
  ⟨a.y * b.z - a.z * b.y, a.z * b.x - a.x * b.z, a.x * b.y - a.y * b.x⟩

/-- Source: `glm::length`, `std::sqrt(dot(v, v))`. -/
def length (sqrtF : ℚ → ℚ) (v : Vec3) : ℚ := sqrtF (dot v v)

/-- Source: `glm::normalize`: the zero vector when the length is zero, `v / L` otherwise. -/
def normalize (sqrtF : ℚ → ℚ) (v : Vec3) : Except Fault Vec3 :=
  let L := length sqrtF v
  if L = 0 then .ok ⟨0, 0, 0⟩ else v.div L

/-! ## Constants -/

/-- Source: `const float G = 9.81f`. -/
def G : ℚ := 981 / 100

/-- Source: `const float FRICTION = 0.5f`. -/
def FRICTION : ℚ := 1 / 2

/-- Source: `const float BALL_RADIUS = 0.1f`. -/
def BALL_RADIUS : ℚ := 1 / 10

/-- Source: `const float TIME_STEP = 0.01f`. -/
def TIME_STEP : ℚ := 1 / 100

/-- The degeneracy threshold `1e-8f` of `getBarycentricCoordinates`. -/
def DENOM_EPS : ℚ := 1 / 100000000

/-- The acceptance tolerance `-0.001f` of `findContainingTriangle`. -/
def BARY_TOL : ℚ := -(1 / 1000)

/-! ## The built-in mesh -/

/-- Source: `BallSimulation::initializeTriangulation` (12 vertices, 4 triangles). -/
def initializeTriangulation : Mesh where
  vertices :=
    [⟨0, 0, 0⟩, ⟨2, 0, 0⟩, ⟨4, 0, 0⟩,
     ⟨0, 2, 0⟩, ⟨2, 2, 0⟩, ⟨4, 2, 0⟩,
     ⟨0, 4, 0⟩, ⟨2, 4, 0⟩, ⟨4, 4, 0⟩,
     ⟨1, 1, 1 / 2⟩, ⟨3, 1, 1 / 2⟩, ⟨2, 3, 3 / 10⟩]
  triangles :=
    [⟨0, 1, 3, -1, 1, -1⟩,
     ⟨1, 4, 3, 0, 2, -1⟩,
     ⟨1, 2, 5, -1, 3, 1⟩,
     ⟨1, 5, 4, 2, -1, 1⟩]

/-- Source: `BallSimulation::initializeBall`. -/
def initializeBall : BallState where
  position := ⟨1, 1 / 2, 3 / 10⟩
  velocity := ⟨1 / 10, 0, 0⟩
  currentTriangle := 0

/-! ## Barycentric coordinates -/

/-- The determinant `denom = d00 * d11 - d01 * d01` that `getBarycentricCoordinates`
computes from the XY projections of the edges `v1 - v0` and `v2 - v0`. -/
def baryDenom (v0 v1 v2 : Vec3) : ℚ :=
  let e0 : Vec3 := ⟨v1.x - v0.x, v1.y - v0.y, 0⟩
  let e1 : Vec3 := ⟨v2.x - v0.x, v2.y - v0.y, 0⟩
  let d00 := dot e0 e0
  let d01 := dot e0 e1
  let d11 := dot e1 e1
  d00 * d11 - d01 * d01

/-- The body of `getBarycentricCoordinates` once the three vertex positions are read. -/
def baryOfVertices (P v0 v1 v2 : Vec3) : Except Fault Vec3 :=
  let e0 : Vec3 := ⟨v1.x - v0.x, v1.y - v0.y, 0⟩
  let e1 : Vec3 := ⟨v2.x - v0.x, v2.y - v0.y, 0⟩
  let e2 : Vec3 := ⟨P.x - v0.x, P.y - v0.y, 0⟩
  let d00 := dot e0 e0
  let d01 := dot e0 e1
  let d11 := dot e1 e1
  let d20 := dot e2 e0
  let d21 := dot e2 e1
  let denom := d00 * d11 - d01 * d01
  if |denom| < DENOM_EPS then
    .ok ⟨-1, -1, -1⟩
  else
    match fdiv (d11 * d20 - d01 * d21) denom with
    | .error f => .error f
    | .ok v =>
      match fdiv (d00 * d21 - d01 * d20) denom with
      | .error f => .error f
      | .ok w =>
        let u := 1 - v - w
        .ok ⟨u, v, w⟩

/-- Reading the three vertex positions of `triangles[triangleIdx]`, as the first four
lines of `getBarycentricCoordinates`, `getTriangleNormal` and `getSurfaceHeight` do. -/
def Mesh.triangleVertices (m : Mesh) (triangleIdx : Int) :
    Except Fault (Vec3 × Vec3 × Vec3) :=
  match m.triangleAt triangleIdx with
  | .error f => .error f
  | .ok tri =>
    match m.vertexAt (tri.vertices 0) with
    | .error f => .error f
    | .ok v0 =>
      match m.vertexAt (tri.vertices 1) with
      | .error f => .error f
      | .ok v1 =>
        match m.vertexAt (tri.vertices 2) with
        | .error f => .error f
        | .ok v2 => .ok (v0, v1, v2)

/-- Source: `BallSimulation::getBarycentricCoordinates`. -/
def getBarycentricCoordinates (m : Mesh) (P : Vec3) (triangleIdx : Int) :
    Except Fault Vec3 :=
  match m.triangleVertices triangleIdx with
  | .error f => .error f
  | .ok (v0, v1, v2) => baryOfVertices P v0 v1 v2

/-! ## Normal and surface height -/

/-- Source: `BallSimulation::getTriangleNormal`. -/
def getTriangleNormal (sqrtF : ℚ → ℚ) (m : Mesh) (triangleIdx : Int) : Except Fault Vec3 :=
  match m.triangleVertices triangleIdx with
  | .error f => .error f
  | .ok (v0, v1, v2) =>
    let e0 : Vec3 := ⟨v1.x - v0.x, v1.y - v0.y, v1.z - v0.z⟩
    let e1 : Vec3 := ⟨v2.x - v0.x, v2.y - v0.y, v2.z - v0.z⟩
    normalize sqrtF (cross e0 e1)

/-- Source: `BallSimulation::getSurfaceHeight`. -/
def getSurfaceHeight (m : Mesh) (pos : Vec3) (triangleIdx : Int) : Except Fault ℚ :=
  match m.triangleVertices triangleIdx with
  | .error f => .error f
  | .ok (v0, v1, v2) =>
    match getBarycentricCoordinates m ⟨pos.x, pos.y, 0⟩ triangleIdx with
    | .error f => .error f
    | .ok bary => .ok (bary.x * v0.z + bary.y * v1.z + bary.z * v2.z)

/-! ## The topological walk -/

/-- The acceptance test of the walk: `bary.x >= -0.001f && bary.y >= -0.001f &&
bary.z >= -0.001f`. -/
def baryAccepted (bary : Vec3) : Bool :=
  decide (bary.x ≥ BARY_TOL) && decide (bary.y ≥ BARY_TOL) && decide (bary.z ≥ BARY_TOL)

/-- The "find minimum barycentric coordinate" block of the walk: the value of `nextEdge`
after the two comparisons against the running minimum `minBary`. -/
def nextEdgeOf (bary : Vec3) : Fin 3 :=
  let minBary := bary.x
  let nextEdge : Fin 3 := 0
  let minBary1 := if bary.y < minBary then bary.y else minBary
  let nextEdge1 : Fin 3 := if bary.y < minBary then 1 else nextEdge
  let nextEdge2 : Fin 3 := if bary.z < minBary1 then 2 else nextEdge1
  nextEdge2

/-- What one execution of the loop body of `findContainingTriangle` does. -/
inductive WalkStep where
  /-- The current triangle is accepted (`found = true; break`). -/
  | found
  /-- The selected neighbour entry is `-1` (`break` at "Hit boundary"). -/
  | boundary
  /-- The walk moves on (`current = neighbor; iterations++`). -/
  | moveTo (neighbor : Int)
  deriving DecidableEq, Repr

/-- One execution of the loop body of `findContainingTriangle` at triangle `current`. -/
def walkBody (m : Mesh) (P : Vec3) (current : Int) : Except Fault WalkStep :=
  match getBarycentricCoordinates m P current with
  | .error f => .error f
  | .ok bary =>
    if baryAccepted bary then .ok WalkStep.found
    else
      match m.triangleAt current with
      | .error f => .error f
      | .ok tri =>
        let neighbor := tri.neighbors (nextEdgeOf bary)
        if neighbor = -1 then .ok WalkStep.boundary
        else .ok (WalkStep.moveTo neighbor)

/-- The local variables of `findContainingTriangle` when its loop is left. -/
structure WalkState where
  current : Int
  found : Bool
  iterations : Nat
  deriving DecidableEq, Repr

/-- The `while (!found && iterations < 100)` loop of `findContainingTriangle`;
`fuel` is the number of iterations still allowed, `100 - iterations` at the start. -/
def walkLoop (m : Mesh) (P : Vec3) : Nat → Int → Nat → Except Fault WalkState
  | 0, current, iterations => .ok ⟨current, false, iterations⟩
  | fuel + 1, current, iterations =>
    match walkBody m P current with
    | .error f => .error f
    | .ok WalkStep.found => .ok ⟨current, true, iterations⟩
    | .ok WalkStep.boundary => .ok ⟨current, false, iterations⟩
    | .ok (WalkStep.moveTo neighbor) => walkLoop m P fuel neighbor (iterations + 1)

/-- The walk seeded at triangle `seed`: the loop of `findContainingTriangle` run from
`current = seed`, `found = false`, `iterations = 0`. -/
def walkFrom (m : Mesh) (P : Vec3) (seed : Int) : Except Fault WalkState :=
  walkLoop m P 100 seed 0

/-- Source: `BallSimulation::findContainingTriangle`; the seed is `ball.currentTriangle`. -/
def findContainingTriangle (m : Mesh) (ball : BallState) (P : Vec3) : Except Fault Int :=
  match walkFrom m P ball.currentTriangle with
  | .error f => .error f
  | .ok st => .ok st.current

/-- The triangle that is `current` after `k` neighbour steps of the walk from `seed`
(`none` when the walk stops or faults before its `k`-th step). -/
def reachedAfter (m : Mesh) (P : Vec3) : Nat → Int → Option Int
  | 0, seed => some seed
  | k + 1, seed =>
    match walkBody m P seed with
    | .ok (WalkStep.moveTo neighbor) => reachedAfter m P k neighbor
    | _ => none

/-! ## The physics step -/

/-- Source: `BallSimulation::updatePhysics`. -/
def updatePhysics (sqrtF : ℚ → ℚ) (m : Mesh) (ball : BallState) : Except Fault BallState :=
  match findContainingTriangle m ball ball.position with
  | .error f => .error f
  | .ok currentTriangle =>
    match getTriangleNormal sqrtF m currentTriangle with
    | .error f => .error f
    | .ok normal =>
      let gravity : Vec3 := ⟨0, 0, -G⟩
      match normalize sqrtF normal with
      | .error f => .error f
      | .ok unitNormal =>
        let gravityComponent := gravity.sub (unitNormal.smul (dot gravity normal))
        let frictionForce : Vec3 :=
          ⟨-FRICTION * gravityComponent.x, -FRICTION * gravityComponent.y,
            -FRICTION * gravityComponent.z⟩
        let acceleration : Vec3 :=
          ⟨gravityComponent.x + frictionForce.x, gravityComponent.y + frictionForce.y,
            gravityComponent.z + frictionForce.z⟩
        let velocity := ball.velocity.add (acceleration.smul TIME_STEP)
        let position := ball.position.add (velocity.smul TIME_STEP)
        match getSurfaceHeight m position currentTriangle with
        | .error f => .error f
        | .ok surfaceHeight =>
          if position.z < surfaceHeight + BALL_RADIUS then
            let velComponent := unitNormal.smul (dot velocity normal)
            .ok ⟨⟨position.x, position.y, surfaceHeight + BALL_RADIUS⟩,
                 velocity.sub (velComponent.smul (1 / 2)), currentTriangle⟩
          else
            .ok ⟨position, velocity, currentTriangle⟩

/-- Consecutive calls of `updatePhysics`, `n` of them. -/
def updatePhysicsN (sqrtF : ℚ → ℚ) (m : Mesh) : Nat → BallState → Except Fault BallState
  | 0, ball => .ok ball
  | n + 1, ball =>
    match updatePhysics sqrtF m ball with
    | .error f => .error f
    | .ok ball1 => updatePhysicsN sqrtF m n ball1

/-- The local values of `updatePhysics` after the Euler update of velocity and position
(source lines 238-265), before the surface clamp. -/
structure Integrated where
  currentTriangle : Int
  normal : Vec3
  unitNormal : Vec3
  acceleration : Vec3
  velocity : Vec3
  position : Vec3
  deriving DecidableEq, Repr

/-- Source: `BallSimulation::updatePhysics`, lines 238-265: locate the triangle, take its
normal, project gravity, apply friction, and integrate velocity and position. -/
def integrate (sqrtF : ℚ → ℚ) (m : Mesh) (ball : BallState) : Except Fault Integrated :=
  match findContainingTriangle m ball ball.position with
  | .error f => .error f
  | .ok currentTriangle =>
    match getTriangleNormal sqrtF m currentTriangle with
    | .error f => .error f
    | .ok normal =>
      let gravity : Vec3 := ⟨0, 0, -G⟩
      match normalize sqrtF normal with
      | .error f => .error f
      | .ok unitNormal =>
        let gravityComponent := gravity.sub (unitNormal.smul (dot gravity normal))
        let frictionForce : Vec3 :=
          ⟨-FRICTION * gravityComponent.x, -FRICTION * gravityComponent.y,
            -FRICTION * gravityComponent.z⟩
        let acceleration : Vec3 :=
          ⟨gravityComponent.x + frictionForce.x, gravityComponent.y + frictionForce.y,
            gravityComponent.z + frictionForce.z⟩
        let velocity := ball.velocity.add (acceleration.smul TIME_STEP)
        let position := ball.position.add (velocity.smul TIME_STEP)
        .ok ⟨currentTriangle, normal, unitNormal, acceleration, velocity, position⟩

/-- Source: `BallSimulation::updatePhysics`, lines 267-275: the surface clamp applied to the
integrated values, for the surface height `surfaceHeight` at the integrated position. -/
def clampToSurface (s : Integrated) (surfaceHeight : ℚ) : BallState :=
  if s.position.z < surfaceHeight + BALL_RADIUS then
    let velComponent := s.unitNormal.smul (dot s.velocity s.normal)
    ⟨⟨s.position.x, s.position.y, surfaceHeight + BALL_RADIUS⟩,
      s.velocity.sub (velComponent.smul (1 / 2)), s.currentTriangle⟩
  else
    ⟨s.position, s.velocity, s.currentTriangle⟩

/-! ## `Vector3d` (vector3d.h)

`Vector3d` holds three doubles and is modelled by `Vec3`; its `operator+`, `operator-`,
`operator*`, `dot` and `cross` compute the same expressions as `Vec3.add`, `Vec3.sub`,
`Vec3.smul`, `dot` and `cross`. -/

/-- Source: `Vector3d::length`. -/
def Vector3d.length (sqrtF : ℚ → ℚ) (v : Vec3) : ℚ :=
  sqrtF (v.x * v.x + v.y * v.y + v.z * v.z)

/-- Source: `Vector3d::normalize`: divides by the length when it is positive and leaves
the vector as it is otherwise. -/
def Vector3d.normalize (sqrtF : ℚ → ℚ) (v : Vec3) : Vec3 :=
  let len := Vector3d.length sqrtF v
  if len > 0 then ⟨v.x / len, v.y / len, v.z / len⟩ else v

/-! ## `TriangleSurface` (trianglesurface.cpp)

`mVertices` and `mTriangles` are the two lists of a `Mesh`. -/

/-- The threshold `1e-6` of `TriangleSurface::findTriangle` (on `denom`) and of
`RollingBall::move` (on `nz`). -/
def SURFACE_EPS : ℚ := 1 / 1000000

/-- The acceptance tolerance `-0.01` of `TriangleSurface::findTriangle`. -/
def SURFACE_TOL : ℚ := -(1 / 100)

/-- Source: `TriangleSurface::getNormal`. -/
def TriangleSurface.getNormal (sqrtF : ℚ → ℚ) (m : Mesh) (triangleIndex : Int) :
    Except Fault Vec3 :=
  if triangleIndex < 0 ∨ triangleIndex ≥ (m.triangles.length : Int) then
    .ok ⟨0, 0, 1⟩
  else
    match m.triangleVertices triangleIndex with
    | .error f => .error f
    | .ok (v0, v1, v2) =>
      let edge1 := v1.sub v0
      let edge2 := v2.sub v0
      let normal := cross edge1 edge2
      .ok (Vector3d.normalize sqrtF normal)

/-- The body of the `for` loop of `TriangleSurface::findTriangle` for one triangle `tri`:
`some (u, v, w)` are the weights it computes, `none` stands for `continue` (taken when
`|denom| < 1e-6`). -/
def surfaceWeights (m : Mesh) (point : Vec3) (tri : Triangle) :
    Except Fault (Option (ℚ × ℚ × ℚ)) :=
  match m.vertexAt (tri.vertices 0) with
  | .error f => .error f
  | .ok v0 =>
    match m.vertexAt (tri.vertices 1) with
    | .error f => .error f
    | .ok v1 =>
      match m.vertexAt (tri.vertices 2) with
      | .error f => .error f
      | .ok v2 =>
        let x := point.x
        let y := point.y
        let x0 := v0.x
        let y0 := v0.y
        let x1 := v1.x
        let y1 := v1.y
        let x2 := v2.x
        let y2 := v2.y
        let denom := (y1 - y2) * (x0 - x2) + (x2 - x1) * (y0 - y2)
        if |denom| < SURFACE_EPS then .ok none
        else
          match fdiv ((y1 - y2) * (x - x2) + (x2 - x1) * (y - y2)) denom with
          | .error f => .error f
          | .ok u =>
            match fdiv ((y2 - y0) * (x - x2) + (x0 - x2) * (y - y2)) denom with
            | .error f => .error f
            | .ok v =>
              let w := 1 - u - v
              .ok (some (u, v, w))

/-- The `for` loop of `TriangleSurface::findTriangle` over the triangles still to visit,
`i` being the index of the first of them; `-1` when none is accepted. -/
def findTriangleLoop (m : Mesh) (point : Vec3) : List Triangle → Nat → Except Fault Int
  | [], _ => .ok (-1)
  | tri :: rest, i =>
    match surfaceWeights m point tri with
    | .error f => .error f
    | .ok none => findTriangleLoop m point rest (i + 1)
    | .ok (some (u, v, w)) =>
      if u ≥ SURFACE_TOL ∧ v ≥ SURFACE_TOL ∧ w ≥ SURFACE_TOL then .ok (i : Int)
      else findTriangleLoop m point rest (i + 1)

/-- Source: `TriangleSurface::findTriangle`. -/
def TriangleSurface.findTriangle (m : Mesh) (point : Vec3) : Except Fault Int :=
  findTriangleLoop m point m.triangles 0

/-! ## `RollingBall` (rollingball.cpp) -/

/-- The members of `RollingBall` that `move` reads or writes (the sphere vertices, used for
drawing only, are left out). `mSurface = none` stands for a null pointer. -/
structure RollingBall where
  mPosition : Vec3
  mVelocity : Vec3
  mAcceleration : Vec3
  mRadius : ℚ
  mMass : ℚ
  mSurface : Option Mesh
  oldNormal : Vec3
  oldTriangleIndex : Int
  deriving DecidableEq, Repr

/-- Source: `static constexpr double g = 9.81` of `RollingBall`. -/
def RollingBall.g : ℚ := 981 / 100

/-- Source: the constructor `RollingBall::RollingBall` (it does not set `mSurface`;
`mAcceleration` is default-constructed). -/
def RollingBall.construct (radius mass : ℚ) (startPos : Vec3) : RollingBall where
  mPosition := startPos
  mVelocity := ⟨0, 0, 0⟩
  mAcceleration := ⟨0, 0, 0⟩
  mRadius := radius
  mMass := mass
  mSurface := none
  oldNormal := ⟨0, 0, 1⟩
  oldTriangleIndex := 0

/-- Source: `RollingBall::setSurface`. -/
def RollingBall.setSurface (b : RollingBall) (surface : Mesh) : RollingBall :=
  { b with mSurface := some surface }

/-- How a call of `RollingBall::move` ends. -/
inductive MoveOutcome where
  /-- The early `return` of `if (!mSurface)`. -/
  | noSurface
  /-- The early `return` after printing "Ball not on surface!". -/
  | offSurface
  /-- The end of the function body. -/
  | moved
  deriving DecidableEq, Repr

/-- Source: `RollingBall::move`. -/
def RollingBall.move (sqrtF : ℚ → ℚ) (b : RollingBall) (dt : ℚ) :
    Except Fault (MoveOutcome × RollingBall) :=
  match b.mSurface with
  | none => .ok (MoveOutcome.noSurface, b)
  | some surface =>
    match TriangleSurface.findTriangle surface b.mPosition with
    | .error f => .error f
    | .ok currentTriangle =>
      if currentTriangle = -1 then .ok (MoveOutcome.offSurface, b)
      else
        match TriangleSurface.getNormal sqrtF surface currentTriangle with
        | .error f => .error f
        | .ok normal =>
          let nz := if |normal.z| < SURFACE_EPS then SURFACE_EPS else normal.z
          match fdiv (RollingBall.g * normal.x) nz with
          | .error f => .error f
          | .ok ax =>
            match fdiv (RollingBall.g * normal.y) nz with
            | .error f => .error f
            | .ok ay =>
              let az := RollingBall.g * (nz * nz - 1)
              let acceleration : Vec3 := ⟨ax, ay, az⟩
              let velocity : Vec3 :=
                ⟨b.mVelocity.x + acceleration.x * dt, b.mVelocity.y + acceleration.y * dt,
                  b.mVelocity.z + acceleration.z * dt⟩
              let position : Vec3 :=
                ⟨b.mPosition.x + velocity.x * dt, b.mPosition.y + velocity.y * dt,
                  b.mPosition.z + velocity.z * dt⟩
              if currentTriangle ≠ b.oldTriangleIndex then
                let collisionNormal := Vector3d.normalize sqrtF (cross b.oldNormal normal)
                let vn := dot velocity collisionNormal
                let velocity2 :=
                  if vn < 0 then velocity.sub ((collisionNormal.smul vn).smul (1 / 2))
                  else velocity
                .ok (MoveOutcome.moved,
                  { b with mPosition := position, mVelocity := velocity2,
                           mAcceleration := acceleration, oldNormal := normal,
                           oldTriangleIndex := currentTriangle })
              else
                .ok (MoveOutcome.moved,
                  { b with mPosition := position, mVelocity := velocity,
                           mAcceleration := acceleration, oldNormal := normal })

/-- Consecutive calls of `RollingBall::move` with the same `dt`, `n` of them (the render
loop calls `move` once per frame). -/
def moveN (sqrtF : ℚ → ℚ) (dt : ℚ) : Nat → RollingBall → Except Fault RollingBall
  | 0, b => .ok b
  | n + 1, b =>
    match RollingBall.move sqrtF b dt with
    | .error f => .error f
    | .ok (_, b1) => moveN sqrtF dt n b1

/-- Source: `TriangleSurface::getVertex`. -/
def TriangleSurface.getVertex (m : Mesh) (index : Int) : Except Fault Vec3 :=
  if index ≥ 0 ∧ index < (m.vertices.length : Int) then m.vertexAt index
  else .ok ⟨0, 0, 0⟩

/-! ## `BallSimulation::run` -/

/-- Source: `const int MAX_ITERATIONS = 10000`. -/
def MAX_ITERATIONS : Nat := 10000

/-- The `for` loop of `BallSimulation::run` (its printing left out): `remaining` is the
number of iterations still to do and `i` the loop counter. The result is the final ball,
with `some i` when the loop was left at iteration `i` by the `break` of
`if (glm::length(ball.velocity) < 0.001f)`, and `none` when it ran to its end. -/
def runLoop (sqrtF : ℚ → ℚ) (m : Mesh) :
    Nat → Nat → BallState → Except Fault (BallState × Option Nat)
  | 0, _, ball => .ok (ball, none)
  | remaining + 1, i, ball =>
    match updatePhysics sqrtF m ball with
    | .error f => .error f
    | .ok ball1 =>
      if length sqrtF ball1.velocity < 1 / 1000 then .ok (ball1, some i)
      else runLoop sqrtF m remaining (i + 1) ball1

/-- Source: `BallSimulation::run`. -/
def run (sqrtF : ℚ → ℚ) (m : Mesh) (ball : BallState) (iterations : Nat) :
    Except Fault (BallState × Option Nat) :=
  runLoop sqrtF m iterations 0 ball

/-! ## Rounded arithmetic

`float` is IEEE binary32. In the definitions above every operation is exact; in the
definitions of this section every `float` operation of the source is followed by a rounding
`fl : ℚ → ℚ` of its result (each `+`, `-`, `*`, `/` separately, in the order in which the
source evaluates them), and the `float` literals are rounded too. With `fl` the identity
these definitions are the exact ones; with `fl = float32` they compute what the source
computes on `float` inputs, as long as no result leaves the finite range. -/

/-- The power `2^k` for an integer exponent. -/
def pow2 (k : Int) : ℚ :=
  if 0 ≤ k then ((2 ^ k.toNat : Nat) : ℚ) else 1 / ((2 ^ (-k).toNat : Nat) : ℚ)

/-- The number of halvings that bring `n` below 2, at most `fuel` of them. -/
def halvings : Nat → Nat → Nat
  | 0, _ => 0
  | fuel + 1, n => if n < 2 then 0 else halvings fuel (n / 2) + 1

/-- The position of the leading binary digit of `n` (0 for `n < 2`). -/
def leadingBit (n : Nat) : Nat := halvings n n

/-- The exponent `e` of a positive rational `a`: `2^e ≤ a < 2^(e+1)`. -/
def binaryExponent (a : ℚ) : Int :=
  let e0 : Int := (leadingBit a.num.natAbs : Int) - (leadingBit a.den : Int)
  if pow2 e0 ≤ a then e0 else e0 - 1

/-- Rounding of a non-negative rational to the nearest integer, a tie going to the even
one. -/
def roundHalfEven (s : ℚ) : Int :=
  let f := Rat.floor s
  let r := s - f
  if r < 1 / 2 then f
  else if 1 / 2 < r then f + 1
  else if f % 2 = 0 then f else f + 1

/-- Rounding to the nearest IEEE binary32 value, ties to even: 24 significant bits, the
spacing never below `2^-149` (subnormal range). Overflow to infinity is not represented:
beyond the largest finite value the result keeps 24 significant bits. -/
def float32 (q : ℚ) : ℚ :=
  if q = 0 then 0
  else
    let a := |q|
    let k := max (binaryExponent a - 23) (-149)
    let r := (roundHalfEven (a / pow2 k) : ℚ) * pow2 k
    if q < 0 then -r else r

/-- Source: `glm::dot` on `float` components, `a.x*b.x + a.y*b.y + a.z*b.z` with every
product and every sum rounded. -/
def dotR (fl : ℚ → ℚ) (a b : Vec3) : ℚ :=
  fl (fl (fl (a.x * b.x) + fl (a.y * b.y)) + fl (a.z * b.z))

/-- The determinant `denom = d00 * d11 - d01 * d01` of `getBarycentricCoordinates`, with
every operation rounded. -/
def baryDenomR (fl : ℚ → ℚ) (v0 v1 v2 : Vec3) : ℚ :=
  let e0 : Vec3 := ⟨fl (v1.x - v0.x), fl (v1.y - v0.y), 0⟩
  let e1 : Vec3 := ⟨fl (v2.x - v0.x), fl (v2.y - v0.y), 0⟩
  let d00 := dotR fl e0 e0
  let d01 := dotR fl e0 e1
  let d11 := dotR fl e1 e1
  fl (fl (d00 * d11) - fl (d01 * d01))

/-- The body of `getBarycentricCoordinates` once the three vertex positions are read, with
every operation rounded; the threshold is the `float` literal `1e-8f`. -/
def baryOfVerticesR (fl : ℚ → ℚ) (P v0 v1 v2 : Vec3) : Except Fault Vec3 :=
  let e0 : Vec3 := ⟨fl (v1.x - v0.x), fl (v1.y - v0.y), 0⟩
  let e1 : Vec3 := ⟨fl (v2.x - v0.x), fl (v2.y - v0.y), 0⟩
  let e2 : Vec3 := ⟨fl (P.x - v0.x), fl (P.y - v0.y), 0⟩
  let d00 := dotR fl e0 e0
  let d01 := dotR fl e0 e1
  let d11 := dotR fl e1 e1
  let d20 := dotR fl e2 e0
  let d21 := dotR fl e2 e1
  let denom := fl (fl (d00 * d11) - fl (d01 * d01))
  if |denom| < fl DENOM_EPS then
    .ok ⟨-1, -1, -1⟩
  else
    match fdiv (fl (fl (d11 * d20) - fl (d01 * d21))) denom with
    | .error f => .error f
    | .ok v =>
      match fdiv (fl (fl (d00 * d21) - fl (d01 * d20))) denom with
      | .error f => .error f
      | .ok w =>
        let u := fl (fl (1 - fl v) - fl w)
        .ok ⟨u, fl v, fl w⟩

/-- Source: `BallSimulation::getBarycentricCoordinates`, with every operation rounded. -/
def getBarycentricCoordinatesR (fl : ℚ → ℚ) (m : Mesh) (P : Vec3) (triangleIdx : Int) :
    Except Fault Vec3 :=
  match m.triangleVertices triangleIdx with
  | .error f => .error f
  | .ok (v0, v1, v2) => baryOfVerticesR fl P v0 v1 v2

/-- Source: `BallSimulation::getSurfaceHeight`, with every operation rounded. -/
def getSurfaceHeightR (fl : ℚ → ℚ) (m : Mesh) (pos : Vec3) (triangleIdx : Int) :
    Except Fault ℚ :=
  match m.triangleVertices triangleIdx with
  | .error f => .error f
  | .ok (v0, v1, v2) =>
    match getBarycentricCoordinatesR fl m ⟨pos.x, pos.y, 0⟩ triangleIdx with
    | .error f => .error f
    | .ok bary =>
      .ok (fl (fl (fl (bary.x * v0.z) + fl (bary.y * v1.z)) + fl (bary.z * v2.z)))

/-- The acceptance test of the walk against the `float` literal `-0.001f`. -/
def baryAcceptedR (fl : ℚ → ℚ) (bary : Vec3) : Bool :=
  decide (bary.x ≥ fl BARY_TOL) && decide (bary.y ≥ fl BARY_TOL) &&
    decide (bary.z ≥ fl BARY_TOL)

/-- One execution of the loop body of `findContainingTriangle`, on rounded weights. -/
def walkBodyR (fl : ℚ → ℚ) (m : Mesh) (P : Vec3) (current : Int) : Except Fault WalkStep :=
  match getBarycentricCoordinatesR fl m P current with
  | .error f => .error f
  | .ok bary =>
    if baryAcceptedR fl bary then .ok WalkStep.found
    else
      match m.triangleAt current with
      | .error f => .error f
      | .ok tri =>
        let neighbor := tri.neighbors (nextEdgeOf bary)
        if neighbor = -1 then .ok WalkStep.boundary
        else .ok (WalkStep.moveTo neighbor)

/-- The loop of `findContainingTriangle`, on rounded weights. -/
def walkLoopR (fl : ℚ → ℚ) (m : Mesh) (P : Vec3) : Nat → Int → Nat → Except Fault WalkState
  | 0, current, iterations => .ok ⟨current, false, iterations⟩
  | fuel + 1, current, iterations =>
    match walkBodyR fl m P current with
    | .error f => .error f
    | .ok WalkStep.found => .ok ⟨current, true, iterations⟩
    | .ok WalkStep.boundary => .ok ⟨current, false, iterations⟩
    | .ok (WalkStep.moveTo neighbor) => walkLoopR fl m P fuel neighbor (iterations + 1)

/-- The walk seeded at triangle `seed`, on rounded weights. -/
def walkFromR (fl : ℚ → ℚ) (m : Mesh) (P : Vec3) (seed : Int) : Except Fault WalkState :=
  walkLoopR fl m P 100 seed 0

/-- Source: `BallSimulation::findContainingTriangle`, on rounded weights. -/
def findContainingTriangleR (fl : ℚ → ℚ) (m : Mesh) (ball : BallState) (P : Vec3) :
    Except Fault Int :=
  match walkFromR fl m P ball.currentTriangle with
  | .error f => .error f
  | .ok st => .ok st.current

/-! ## Vocabulary of the statements -/

/-- The numerator `d11 * d20 - d01 * d21` of the weight `v` in
`getBarycentricCoordinates`. -/
def baryNumV (P v0 v1 v2 : Vec3) : ℚ :=
  let e0 : Vec3 := ⟨v1.x - v0.x, v1.y - v0.y, 0⟩
  let e1 : Vec3 := ⟨v2.x - v0.x, v2.y - v0.y, 0⟩
  let e2 : Vec3 := ⟨P.x - v0.x, P.y - v0.y, 0⟩
  dot e1 e1 * dot e2 e0 - dot e0 e1 * dot e2 e1

/-- The numerator `d00 * d21 - d01 * d20` of the weight `w` in
`getBarycentricCoordinates`. -/
def baryNumW (P v0 v1 v2 : Vec3) : ℚ :=
  let e0 : Vec3 := ⟨v1.x - v0.x, v1.y - v0.y, 0⟩
  let e1 : Vec3 := ⟨v2.x - v0.x, v2.y - v0.y, 0⟩
  let e2 : Vec3 := ⟨P.x - v0.x, P.y - v0.y, 0⟩
  dot e0 e0 * dot e2 e1 - dot e0 e1 * dot e2 e0

/-- Twice the signed area of the XY projection of the triangle `a b c`. -/
def orientXY (a b c : Vec3) : ℚ :=
  (b.x - a.x) * (c.y - a.y) - (b.y - a.y) * (c.x - a.x)

/-- The point `P` lies strictly inside the XY projection of the triangle `v0 v1 v2`: for each
edge, `P` is strictly on the side of the edge's line on which the opposite vertex lies. -/
def StrictlyInsideXY (P v0 v1 v2 : Vec3) : Prop :=
  0 < orientXY v0 v1 v2 * orientXY v0 v1 P ∧
  0 < orientXY v0 v1 v2 * orientXY v1 v2 P ∧
  0 < orientXY v0 v1 v2 * orientXY v2 v0 P

instance (P v0 v1 v2 : Vec3) : Decidable (StrictlyInsideXY P v0 v1 v2) := by
  unfold StrictlyInsideXY; infer_instance

/-- A mesh of two small right triangles (legs of length `0.001`) that share the edge between
vertices 1 and 2; each lists the other across that edge. -/
def tinyMesh : Mesh where
  vertices := [⟨0, 0, 0⟩, ⟨1 / 1000, 0, 0⟩, ⟨0, 1 / 1000, 0⟩, ⟨1 / 1000, 1 / 1000, 0⟩]
  triangles := [⟨0, 1, 2, -1, 1, -1⟩, ⟨1, 3, 2, -1, -1, 0⟩]

/-- The point `P` lies strictly outside edge `i` of the triangle `v0 v1 v2`, the edge that
joins vertex `i` and vertex `(i+1) mod 3`: `P` and the vertex opposite to the edge are
strictly on different sides of the edge's line (XY projection). -/
def OutsideEdgeXY (P v0 v1 v2 : Vec3) : Fin 3 → Prop
  | 0 => orientXY v0 v1 v2 * orientXY v0 v1 P < 0
  | 1 => orientXY v1 v2 v0 * orientXY v1 v2 P < 0
  | 2 => orientXY v2 v0 v1 * orientXY v2 v0 P < 0

instance (P v0 v1 v2 : Vec3) (i : Fin 3) : Decidable (OutsideEdgeXY P v0 v1 v2 i) :=
  match i with
  | 0 => by unfold OutsideEdgeXY; infer_instance
  | 1 => by unfold OutsideEdgeXY; infer_instance
  | 2 => by unfold OutsideEdgeXY; infer_instance

/-- The point `P` lies on the segment from `a` to `b` (XY projection). -/
def OnEdgeXY (P a b : Vec3) : Prop :=
  ∃ s : ℚ, 0 ≤ s ∧ s ≤ 1 ∧ P.x = a.x + s * (b.x - a.x) ∧ P.y = a.y + s * (b.y - a.y)

/-- The index `i` is a valid index into `triangles`. -/
def Mesh.validTriangle (m : Mesh) (i : Int) : Prop :=
  0 ≤ i ∧ i < (m.triangles.length : Int)

/-- The index `i` is a valid index into `vertices`. -/
def Mesh.validVertex (m : Mesh) (i : Int) : Prop :=
  0 ≤ i ∧ i < (m.vertices.length : Int)

instance (m : Mesh) (i : Int) : Decidable (m.validTriangle i) := by
  unfold Mesh.validTriangle; infer_instance

instance (m : Mesh) (i : Int) : Decidable (m.validVertex i) := by
  unfold Mesh.validVertex; infer_instance

/-- Every vertex index of every triangle is a valid vertex index, and every neighbour
entry is `-1` or a valid triangle index. -/
def Mesh.WellFormed (m : Mesh) : Prop :=
  ∀ t ∈ m.triangles,
    (∀ k : Fin 3, m.validVertex (t.vertices k)) ∧
    (∀ k : Fin 3, t.neighbors k = -1 ∨ m.validTriangle (t.neighbors k))

instance (m : Mesh) : Decidable m.WellFormed := by
  unfold Mesh.WellFormed; infer_instance

/-- Three copies of one triangle whose neighbour entries all lead to the next copy:
the neighbour links form the cycle `0 → 1 → 2 → 0`. -/
def cycleMesh : Mesh where
  vertices := [⟨0, 0, 0⟩, ⟨1, 0, 0⟩, ⟨0, 1, 0⟩]
  triangles := [⟨0, 1, 2, 1, 1, 1⟩, ⟨0, 1, 2, 2, 2, 2⟩, ⟨0, 1, 2, 0, 0, 0⟩]

/-- The walk for the point `P` seeded at triangle `seed` returns a triangle in which the
weights of `P` are all at least `-0.001`. -/
def WalkConverges (m : Mesh) (P : Vec3) (seed : Int) : Prop :=
  ∃ (r : Int) (bary : Vec3),
    (∀ ball : BallState, ball.currentTriangle = seed →
      findContainingTriangle m ball P = .ok r) ∧
    getBarycentricCoordinates m P r = .ok bary ∧
    BARY_TOL ≤ bary.x ∧ BARY_TOL ≤ bary.y ∧ BARY_TOL ≤ bary.z

/-- The value `s` is a non-negative square root of `x`: what `std::sqrt` returns in exact
arithmetic wherever `x` has a rational square root. -/
def SqrtExactAt (sqrtF : ℚ → ℚ) (x : ℚ) : Prop :=
  0 ≤ sqrtF x ∧ sqrtF x * sqrtF x = x

instance (sqrtF : ℚ → ℚ) (x : ℚ) : Decidable (SqrtExactAt sqrtF x) := by
  unfold SqrtExactAt; infer_instance

/-- Edge `j` of the triangle `t` joins the vertices `p` and `q` (in either direction). -/
def Triangle.hasEdge (t : Triangle) (p q : Int) (j : Fin 3) : Prop :=
  (t.vertices j = p ∧ t.vertices (j + 1) = q) ∨ (t.vertices j = q ∧ t.vertices (j + 1) = p)

instance (t : Triangle) (p q : Int) (j : Fin 3) : Decidable (t.hasEdge p q j) := by
  unfold Triangle.hasEdge; infer_instance

/-- The neighbour link of triangle `a` across its edge `i` is consistent: it is `-1`, or
it names a triangle `b` that has the edge joining vertex `i` and vertex `(i+1) mod 3` of
`a` as one of its own edges `j` and lists `a` as its neighbour across that edge. -/
def LinkConsistent (m : Mesh) (a : Int) (i : Fin 3) : Prop :=
  match m.triangleAt a with
  | .error _ => False
  | .ok ta =>
    ta.neighbors i = -1 ∨
    match m.triangleAt (ta.neighbors i) with
    | .error _ => False
    | .ok tb =>
      ∃ j : Fin 3, tb.hasEdge (ta.vertices i) (ta.vertices (i + 1)) j ∧ tb.neighbors j = a

instance (m : Mesh) (a : Int) (i : Fin 3) : Decidable (LinkConsistent m a i) := by
  unfold LinkConsistent
  split
  · infer_instance
  · split <;> infer_instance

/-- The neighbour-consistency invariant of the data model: every link of every triangle
is consistent. -/
def NeighbourConsistent (m : Mesh) : Prop :=
  ∀ a ∈ List.range m.triangles.length, ∀ i : Fin 3, LinkConsistent m (a : Int) i

instance (m : Mesh) : Decidable (NeighbourConsistent m) := by
  unfold NeighbourConsistent; infer_instance

/-- Two unit right triangles, flat at `z = 0`, that share the edge between vertices 1
and 2. -/
def flatPairMesh : Mesh where
  vertices := [⟨0, 0, 0⟩, ⟨1, 0, 0⟩, ⟨0, 1, 0⟩, ⟨1, 1, 0⟩]
  triangles := [⟨0, 1, 2, -1, 1, -1⟩, ⟨1, 3, 2, -1, -1, 0⟩]

/-- One triangle with normal `(0, 3/5, 4/5)`, that is `(0, sin θ, cos θ)` for
`sin θ = 3/5`: the plane `z = -(3/4) y`. -/
def tiltedMesh : Mesh where
  vertices := [⟨0, 0, 0⟩, ⟨1, 0, 0⟩, ⟨0, 4, -3⟩]
  triangles := [⟨0, 1, 2, -1, -1, -1⟩]

/-- Four separate triangles: triangle 0 with normal `(0, 3/5, 4/5)`, triangle 1 flat,
triangle 2 with normal `(3/5, 0, 4/5)`, triangle 3 flat. -/
def rampsMesh : Mesh where
  vertices :=
    [⟨0, 0, 0⟩, ⟨4, 0, 0⟩, ⟨0, 4, -3⟩,
     ⟨0, 6, 0⟩, ⟨4, 6, 0⟩, ⟨0, 10, 0⟩,
     ⟨0, 14, 0⟩, ⟨4, 14, -3⟩, ⟨0, 18, 0⟩,
     ⟨8, 22, 0⟩, ⟨12, 22, 0⟩, ⟨8, 26, 0⟩]
  triangles :=
    [⟨0, 1, 2, -1, -1, -1⟩, ⟨3, 4, 5, -1, -1, -1⟩,
     ⟨6, 7, 8, -1, -1, -1⟩, ⟨9, 10, 11, -1, -1, -1⟩]

/-- A square root that is exact on the squared lengths met on `rampsMesh`:
400, 256, 9/25 and 1. -/
def rampsSqrt (x : ℚ) : ℚ :=
  if x = 400 then 20 else if x = 256 then 16 else if x = 9 / 25 then 3 / 5 else x

/-- The cross product `cross(e0, e1)` of the edge vectors `e0 = v1 - v0` and `e1 = v2 - v0`
that `getTriangleNormal` normalises. -/
def triangleCross (v0 v1 v2 : Vec3) : Vec3 :=
  cross ⟨v1.x - v0.x, v1.y - v0.y, v1.z - v0.z⟩ ⟨v2.x - v0.x, v2.y - v0.y, v2.z - v0.z⟩

/-- The tangential gravity `g - n * dot(g, n)` for `g = (0, 0, -9.81)`. -/
def tangentAccel (n : Vec3) : Vec3 :=
  Vec3.sub ⟨0, 0, -(981 / 100)⟩ (n.smul (dot ⟨0, 0, -(981 / 100)⟩ n))

/-- The divisor `nz` of `RollingBall::move`: the z component of the normal, replaced by
`1e-6` when its magnitude is below `1e-6`. -/
def slopeNz (normal : Vec3) : ℚ :=
  if |normal.z| < SURFACE_EPS then SURFACE_EPS else normal.z

/-- The slope-ratio acceleration `(g*nx/nz, g*ny/nz, g*(nz*nz - 1))` of
`RollingBall::move`. -/
def slopeAccel (normal : Vec3) : Vec3 :=
  ⟨RollingBall.g * normal.x / slopeNz normal, RollingBall.g * normal.y / slopeNz normal,
    RollingBall.g * (slopeNz normal * slopeNz normal - 1)⟩

/-- The transition response of `RollingBall::move` (the body of
`if (currentTriangle != oldTriangleIndex)`) applied to the integrated velocity. -/
def transitionResponse (sqrtF : ℚ → ℚ) (oldNormal normal velocity : Vec3) : Vec3 :=
  let collisionNormal := Vector3d.normalize sqrtF (cross oldNormal normal)
  let vn := dot velocity collisionNormal
  if vn < 0 then velocity.sub ((collisionNormal.smul vn).smul (1 / 2)) else velocity

/-- The determinant `(y1 - y2)*(x0 - x2) + (x2 - x1)*(y0 - y2)` of
`TriangleSurface::findTriangle`. -/
def surfaceDenom (v0 v1 v2 : Vec3) : ℚ :=
  (v1.y - v2.y) * (v0.x - v2.x) + (v2.x - v1.x) * (v0.y - v2.y)

/-- The numerator of the weight `u` of `TriangleSurface::findTriangle`. -/
def surfaceNumU (point v1 v2 : Vec3) : ℚ :=
  (v1.y - v2.y) * (point.x - v2.x) + (v2.x - v1.x) * (point.y - v2.y)

/-- The numerator of the weight `v` of `TriangleSurface::findTriangle`. -/
def surfaceNumV (point v0 v2 : Vec3) : ℚ :=
  (v2.y - v0.y) * (point.x - v2.x) + (v0.x - v2.x) * (point.y - v2.y)

/-- Triangle `k` of the surface contains the point for `TriangleSurface::findTriangle`:
its determinant has magnitude at least `1e-6` and the three XY weights of the point are
all at least `-0.01`. -/
def SurfaceContains (m : Mesh) (point : Vec3) (k : Int) : Prop :=
  match m.triangleVertices k with
  | .error _ => False
  | .ok (v0, v1, v2) =>
    SURFACE_EPS ≤ |surfaceDenom v0 v1 v2| ∧
    SURFACE_TOL ≤ surfaceNumU point v1 v2 / surfaceDenom v0 v1 v2 ∧
    SURFACE_TOL ≤ surfaceNumV point v0 v2 / surfaceDenom v0 v1 v2 ∧
    SURFACE_TOL ≤ 1 - surfaceNumU point v1 v2 / surfaceDenom v0 v1 v2
      - surfaceNumV point v0 v2 / surfaceDenom v0 v1 v2

instance (m : Mesh) (point : Vec3) (k : Int) : Decidable (SurfaceContains m point k) := by
  unfold SurfaceContains
  split <;> infer_instance

/-- Two positions with the same x and y coordinates. -/
def XYEq (a b : Vec3) : Prop := a.x = b.x ∧ a.y = b.y

instance (a b : Vec3) : Decidable (XYEq a b) := by
  unfold XYEq; infer_instance

/-- Two meshes with the same triangles whose vertices differ at most in their z
coordinates. -/
def Mesh.SameXY (m m1 : Mesh) : Prop :=
  m.triangles = m1.triangles ∧ List.Forall₂ XYEq m.vertices m1.vertices

/-- A mesh whose only triangle has its three vertices on a line. -/
def collinearMesh : Mesh where
  vertices := [⟨0, 0, 0⟩, ⟨1, 0, 0⟩, ⟨2, 0, 0⟩]
  triangles := [⟨0, 1, 2, -1, -1, -1⟩]

/-- The loop body of `TriangleSurface::findTriangle` computes weights for `tri` (its
determinant has magnitude at least `1e-6`) and they pass the test
`u >= -0.01 && v >= -0.01 && w >= -0.01`. -/
def SurfaceAccepts (m : Mesh) (point : Vec3) (tri : Triangle) : Prop :=
  ∃ u v w : ℚ, surfaceWeights m point tri = .ok (some (u, v, w)) ∧
    SURFACE_TOL ≤ u ∧ SURFACE_TOL ≤ v ∧ SURFACE_TOL ≤ w

/-- Every vertex index of every triangle is a valid index into `vertices`. -/
def Mesh.VerticesInRange (m : Mesh) : Prop :=
  ∀ tri ∈ m.triangles, ∀ j : Fin 3, m.validVertex (tri.vertices j)

instance (m : Mesh) : Decidable m.VerticesInRange := by
  unfold Mesh.VerticesInRange; infer_instance

/-- The barycentric weight with index `i` (`bary.x`, `bary.y`, `bary.z` for 0, 1, 2). -/
def Vec3.weight (b : Vec3) : Fin 3 → ℚ
  | 0 => b.x
  | 1 => b.y
  | 2 => b.z

/-- Two copies of one triangle whose three vertices are on a line (heights 1, 2 and 3);
in triangle 0 `neighbors[0]` is triangle 1, in triangle 1 `neighbors[0]` is `-1`, and all
their other neighbour entries are triangle 0. -/
def sliverMesh : Mesh where
  vertices := [⟨0, 0, 1⟩, ⟨1, 0, 2⟩, ⟨2, 0, 3⟩]
  triangles := [⟨0, 1, 2, 1, 0, 0⟩, ⟨0, 1, 2, -1, 0, 0⟩]

/-- A mesh of two thin triangles that share the edge between vertices 1 and 2 and list each
other across it; all coordinates are `float` values. -/
def thinMesh : Mesh where
  vertices := [⟨0, 0, 0⟩, ⟨23, 29, 8⟩, ⟨27, 34, 0⟩, ⟨50, 63, 0⟩]
  triangles := [⟨0, 1, 2, -1, 1, -1⟩, ⟨1, 3, 2, -1, -1, 0⟩]

/-- A mesh whose only triangle has its three vertices on the line through the origin and
`(19.7216796875, 16.1015625)`; all coordinates are `float` values. -/
def slantedLineMesh : Mesh where
  vertices := [⟨0, 0, 0⟩, ⟨20195 / 1024, 2061 / 128, 0⟩, ⟨60585 / 2048, 6183 / 256, 0⟩]
  triangles := [⟨0, 1, 2, -1, -1, -1⟩]

/-- A mesh whose only triangle has the edge vectors `(1, 0, 0)` and `(0, 1, 1)`: their
cross product `(0, -1, 1)` has squared length 2. -/
def skewMesh : Mesh where
  vertices := [⟨0, 0, 0⟩, ⟨1, 0, 0⟩, ⟨0, 1, 1⟩]
  triangles := [⟨0, 1, 2, -1, -1, -1⟩]

/-- Two tilted triangles: triangle 0 descends towards `+x` (normal `(3/5, 0, 4/5)`),
triangle 1 descends towards `+y` (normal `(0, 3/5, 4/5)`); both cross products have squared
length 400. -/
def ridgeMesh : Mesh where
  vertices := [⟨0, 0, 0⟩, ⟨4, 0, -3⟩, ⟨0, 4, 0⟩, ⟨8, 0, 0⟩, ⟨12, 0, 0⟩, ⟨8, 4, -3⟩]
  triangles := [⟨0, 1, 2, -1, -1, -1⟩, ⟨3, 4, 5, -1, -1, -1⟩]

/-- The numerator `d11 * d20 - d01 * d21` of the weight `v`, with every operation
rounded. -/
def baryNumVR (fl : ℚ → ℚ) (P v0 v1 v2 : Vec3) : ℚ :=
  let e0 : Vec3 := ⟨fl (v1.x - v0.x), fl (v1.y - v0.y), 0⟩
  let e1 : Vec3 := ⟨fl (v2.x - v0.x), fl (v2.y - v0.y), 0⟩
  let e2 : Vec3 := ⟨fl (P.x - v0.x), fl (P.y - v0.y), 0⟩
  fl (fl (dotR fl e1 e1 * dotR fl e2 e0) - fl (dotR fl e0 e1 * dotR fl e2 e1))

/-- The numerator `d00 * d21 - d01 * d20` of the weight `w`, with every operation
rounded. -/
def baryNumWR (fl : ℚ → ℚ) (P v0 v1 v2 : Vec3) : ℚ :=
  let e0 : Vec3 := ⟨fl (v1.x - v0.x), fl (v1.y - v0.y), 0⟩
  let e1 : Vec3 := ⟨fl (v2.x - v0.x), fl (v2.y - v0.y), 0⟩
  let e2 : Vec3 := ⟨fl (P.x - v0.x), fl (P.y - v0.y), 0⟩
  fl (fl (dotR fl e0 e0 * dotR fl e2 e1) - fl (dotR fl e0 e1 * dotR fl e2 e0))

/-- A square root as a `float` computes it on `skewMesh`: for 2 it returns the binary32
value `11863283 / 2^23` of `sqrt 2`, and for the squared length of the resulting normal
`(0, -1, 1) / sqrt 2`, which differs from 1 by less than `4e-8`, it returns 1. -/
def skewSqrt (x : ℚ) : ℚ :=
  if x = 2 then 11863283 / 8388608
  else if x = 140737488355328 / 140737483538089 then 1 else x

/-! ## Barycentric coordinates: lemmas -/

theorem baryOfVertices_degenerate (P v0 v1 v2 : Vec3)
    (h : |baryDenom v0 v1 v2| < DENOM_EPS) :
    baryOfVertices P v0 v1 v2 = .ok ⟨-1, -1, -1⟩ := by
  unfold baryDenom at h
  unfold baryOfVertices
  simp only [h, if_true]

theorem baryDenom_ne_zero (v0 v1 v2 : Vec3) (h : DENOM_EPS ≤ |baryDenom v0 v1 v2|) :
    baryDenom v0 v1 v2 ≠ 0 := by
  intro h0
  rw [h0] at h
  unfold DENOM_EPS at h
  norm_num at h

theorem baryOfVertices_regular (P v0 v1 v2 : Vec3)
    (h : DENOM_EPS ≤ |baryDenom v0 v1 v2|) :
    baryOfVertices P v0 v1 v2 =
      .ok ⟨1 - baryNumV P v0 v1 v2 / baryDenom v0 v1 v2
              - baryNumW P v0 v1 v2 / baryDenom v0 v1 v2,
            baryNumV P v0 v1 v2 / baryDenom v0 v1 v2,
            baryNumW P v0 v1 v2 / baryDenom v0 v1 v2⟩ := by
  have hne := baryDenom_ne_zero v0 v1 v2 h
  have hlt : ¬ |baryDenom v0 v1 v2| < DENOM_EPS := not_lt.mpr h
  unfold baryDenom at hne hlt
  unfold baryOfVertices fdiv baryNumV baryNumW baryDenom
  simp only [hlt, hne, if_false]

theorem vecAt_error {α : Type} (l : List α) (i : Int) (f : Fault)
    (h : vecAt l i = .error f) : f = Fault.indexOutOfRange := by
  unfold vecAt at h
  split at h
  · split at h
    · cases h
    · cases h; rfl
  · cases h; rfl

theorem triangleVertices_error (m : Mesh) (t : Int) (f : Fault)
    (h : m.triangleVertices t = .error f) : f = Fault.indexOutOfRange := by
  unfold Mesh.triangleVertices at h
  split at h
  · next f1 h1 => cases h; exact vecAt_error _ _ _ h1
  · split at h
    · next f1 h1 => cases h; exact vecAt_error _ _ _ h1
    · split at h
      · next f1 h1 => cases h; exact vecAt_error _ _ _ h1
      · split at h
        · next f1 h1 => cases h; exact vecAt_error _ _ _ h1
        · cases h

theorem getBarycentricCoordinates_eq (m : Mesh) (P : Vec3) (t : Int) (v0 v1 v2 : Vec3)
    (hv : m.triangleVertices t = .ok (v0, v1, v2)) :
    getBarycentricCoordinates m P t = baryOfVertices P v0 v1 v2 := by
  unfold getBarycentricCoordinates
  rw [hv]

/-- The determinant is the square of twice the signed XY area. -/
theorem baryDenom_eq_sq (v0 v1 v2 : Vec3) :
    baryDenom v0 v1 v2 = orientXY v0 v1 v2 * orientXY v0 v1 v2 := by
  unfold baryDenom orientXY dot
  ring

theorem baryNumV_eq (P v0 v1 v2 : Vec3) :
    baryNumV P v0 v1 v2 = orientXY v0 v1 v2 * orientXY v2 v0 P := by
  unfold baryNumV orientXY dot
  ring

theorem baryNumW_eq (P v0 v1 v2 : Vec3) :
    baryNumW P v0 v1 v2 = orientXY v0 v1 v2 * orientXY v0 v1 P := by
  unfold baryNumW orientXY dot
  ring

theorem orientXY_sum (P v0 v1 v2 : Vec3) :
    orientXY v1 v2 P + orientXY v2 v0 P + orientXY v0 v1 P = orientXY v0 v1 v2 := by
  unfold orientXY
  ring

/-! ## The walk: lemmas -/

theorem baryAccepted_iff (b : Vec3) :
    baryAccepted b = true ↔ BARY_TOL ≤ b.x ∧ BARY_TOL ≤ b.y ∧ BARY_TOL ≤ b.z := by
  unfold baryAccepted
  simp only [Bool.and_eq_true, decide_eq_true_eq, ge_iff_le, and_assoc]

theorem walkBody_found (m : Mesh) (P : Vec3) (c : Int) (b : Vec3)
    (hb : getBarycentricCoordinates m P c = .ok b) (hacc : baryAccepted b = true) :
    walkBody m P c = .ok WalkStep.found := by
  unfold walkBody
  rw [hb]
  simp only [hacc, if_true]

theorem walkBody_boundary (m : Mesh) (P : Vec3) (c : Int) (b : Vec3) (tri : Triangle)
    (hb : getBarycentricCoordinates m P c = .ok b) (hacc : baryAccepted b = false)
    (ht : m.triangleAt c = .ok tri) (hn : tri.neighbors (nextEdgeOf b) = -1) :
    walkBody m P c = .ok WalkStep.boundary := by
  unfold walkBody
  rw [hb]
  simp only [hacc, ht, hn, if_true]
  rfl

theorem walkBody_moveTo (m : Mesh) (P : Vec3) (c : Int) (b : Vec3) (tri : Triangle)
    (hb : getBarycentricCoordinates m P c = .ok b) (hacc : baryAccepted b = false)
    (ht : m.triangleAt c = .ok tri) (hn : tri.neighbors (nextEdgeOf b) ≠ -1) :
    walkBody m P c = .ok (WalkStep.moveTo (tri.neighbors (nextEdgeOf b))) := by
  unfold walkBody
  rw [hb]
  simp only [hacc, ht, hn, if_false]
  rfl

theorem walkLoop_found (m : Mesh) (P : Vec3) (fuel : Nat) (c : Int) (it : Nat)
    (h : walkBody m P c = .ok WalkStep.found) :
    walkLoop m P (fuel + 1) c it = .ok ⟨c, true, it⟩ := by
  rw [walkLoop, h]

theorem walkLoop_boundary (m : Mesh) (P : Vec3) (fuel : Nat) (c : Int) (it : Nat)
    (h : walkBody m P c = .ok WalkStep.boundary) :
    walkLoop m P (fuel + 1) c it = .ok ⟨c, false, it⟩ := by
  rw [walkLoop, h]

theorem walkLoop_moveTo (m : Mesh) (P : Vec3) (fuel : Nat) (c n : Int) (it : Nat)
    (h : walkBody m P c = .ok (WalkStep.moveTo n)) :
    walkLoop m P (fuel + 1) c it = walkLoop m P fuel n (it + 1) := by
  rw [walkLoop, h]

theorem findContainingTriangle_of_walkFrom (m : Mesh) (ball : BallState) (P : Vec3)
    (st : WalkState) (h : walkFrom m P ball.currentTriangle = .ok st) :
    findContainingTriangle m ball P = .ok st.current := by
  unfold findContainingTriangle
  rw [h]

theorem vecAt_ok_iff {α : Type} (l : List α) (i : Int) (a : α) :
    vecAt l i = .ok a ↔ 0 ≤ i ∧ l.get? i.toNat = some a := by
  unfold vecAt
  constructor
  · intro h
    split at h
    · next h0 =>
      split at h
      · next b hb => cases h; exact ⟨h0, hb⟩
      · cases h
    · cases h
  · rintro ⟨h0, h1⟩
    simp only [h0, if_true, h1]

theorem vecAt_ok_valid {α : Type} (l : List α) (i : Int) (a : α) (h : vecAt l i = .ok a) :
    (0 ≤ i ∧ i < (l.length : Int)) ∧ a ∈ l := by
  obtain ⟨h0, h1⟩ := (vecAt_ok_iff l i a).mp h
  rw [List.get?_eq_some] at h1
  obtain ⟨hlt, hget⟩ := h1
  refine ⟨⟨h0, ?_⟩, ?_⟩
  · omega
  · rw [← hget]
    exact List.get_mem l _ _

theorem vecAt_ok_of_valid {α : Type} (l : List α) (i : Int)
    (h : 0 ≤ i ∧ i < (l.length : Int)) : ∃ a, vecAt l i = .ok a := by
  have hlt : i.toNat < l.length := by omega
  refine ⟨l.get ⟨i.toNat, hlt⟩, ?_⟩
  rw [vecAt_ok_iff]
  exact ⟨h.1, List.get?_eq_get hlt⟩

theorem triangleVertices_ok_iff (m : Mesh) (t : Int) (v0 v1 v2 : Vec3) :
    m.triangleVertices t = .ok (v0, v1, v2) ↔
      ∃ tri, m.triangleAt t = .ok tri ∧ m.vertexAt (tri.vertices 0) = .ok v0 ∧
        m.vertexAt (tri.vertices 1) = .ok v1 ∧ m.vertexAt (tri.vertices 2) = .ok v2 := by
  unfold Mesh.triangleVertices
  constructor
  · intro h
    split at h
    · cases h
    · next tri ht =>
      split at h
      · cases h
      · next w0 h0 =>
        split at h
        · cases h
        · next w1 h1 =>
          split at h
          · cases h
          · next w2 h2 =>
            cases h
            exact ⟨tri, ht, h0, h1, h2⟩
  · rintro ⟨tri, ht, h0, h1, h2⟩
    simp only [ht, h0, h1, h2]

theorem baryOfVertices_ok (P v0 v1 v2 : Vec3) : ∃ b, baryOfVertices P v0 v1 v2 = .ok b := by
  rcases lt_or_le (|baryDenom v0 v1 v2|) DENOM_EPS with h | h
  · exact ⟨_, baryOfVertices_degenerate P v0 v1 v2 h⟩
  · exact ⟨_, baryOfVertices_regular P v0 v1 v2 h⟩

theorem triangleVertices_ok_of_valid (m : Mesh) (hwf : m.WellFormed) (t : Int)
    (ht : m.validTriangle t) :
    ∃ tri v0 v1 v2, m.triangleAt t = .ok tri ∧ tri ∈ m.triangles ∧
      m.triangleVertices t = .ok (v0, v1, v2) := by
  obtain ⟨tri, htri⟩ := vecAt_ok_of_valid m.triangles t ht
  have hmem := (vecAt_ok_valid m.triangles t tri htri).2
  obtain ⟨hv, -⟩ := hwf tri hmem
  obtain ⟨v0, h0⟩ := vecAt_ok_of_valid m.vertices _ (hv 0)
  obtain ⟨v1, h1⟩ := vecAt_ok_of_valid m.vertices _ (hv 1)
  obtain ⟨v2, h2⟩ := vecAt_ok_of_valid m.vertices _ (hv 2)
  exact ⟨tri, v0, v1, v2, htri, hmem,
    (triangleVertices_ok_iff m t v0 v1 v2).mpr ⟨tri, htri, h0, h1, h2⟩⟩

theorem getBarycentricCoordinates_ok_valid (m : Mesh) (P : Vec3) (t : Int) (b : Vec3)
    (h : getBarycentricCoordinates m P t = .ok b) : m.validTriangle t := by
  unfold getBarycentricCoordinates at h
  split at h
  · cases h
  · next v0 v1 v2 hv =>
    obtain ⟨tri, ht, -⟩ := (triangleVertices_ok_iff m t v0 v1 v2).mp hv
    exact (vecAt_ok_valid m.triangles t tri ht).1

theorem getBarycentricCoordinates_ok_of_valid (m : Mesh) (hwf : m.WellFormed) (P : Vec3)
    (t : Int) (ht : m.validTriangle t) : ∃ b, getBarycentricCoordinates m P t = .ok b := by
  obtain ⟨tri, v0, v1, v2, -, -, hv⟩ := triangleVertices_ok_of_valid m hwf t ht
  obtain ⟨b, hb⟩ := baryOfVertices_ok P v0 v1 v2
  exact ⟨b, (getBarycentricCoordinates_eq m P t v0 v1 v2 hv).trans hb⟩

/-- What a successful execution of the loop body says about its triangle. -/
theorem walkBody_ok_cases (m : Mesh) (P : Vec3) (c : Int) (w : WalkStep)
    (h : walkBody m P c = .ok w) :
    ∃ b tri, getBarycentricCoordinates m P c = .ok b ∧ m.triangleAt c = .ok tri ∧
      ((w = WalkStep.found ∧ baryAccepted b = true) ∨
       (w = WalkStep.boundary ∧ baryAccepted b = false ∧
          tri.neighbors (nextEdgeOf b) = -1) ∨
       (w = WalkStep.moveTo (tri.neighbors (nextEdgeOf b)) ∧ baryAccepted b = false ∧
          tri.neighbors (nextEdgeOf b) ≠ -1)) := by
  cases hb : getBarycentricCoordinates m P c with
  | error f =>
    unfold walkBody at h
    rw [hb] at h
    cases h
  | ok b =>
    obtain ⟨tri, htri⟩ := vecAt_ok_of_valid m.triangles c
      (getBarycentricCoordinates_ok_valid m P c b hb)
    refine ⟨b, tri, rfl, htri, ?_⟩
    cases hacc : baryAccepted b with
    | true =>
      rw [walkBody_found m P c b hb hacc] at h
      cases h
      exact Or.inl ⟨rfl, rfl⟩
    | false =>
      by_cases hn : tri.neighbors (nextEdgeOf b) = -1
      · rw [walkBody_boundary m P c b tri hb hacc htri hn] at h
        cases h
        exact Or.inr (Or.inl ⟨rfl, rfl, hn⟩)
      · rw [walkBody_moveTo m P c b tri hb hacc htri hn] at h
        cases h
        exact Or.inr (Or.inr ⟨rfl, rfl, hn⟩)

theorem walkBody_ok_valid (m : Mesh) (P : Vec3) (c : Int) (w : WalkStep)
    (h : walkBody m P c = .ok w) : m.validTriangle c := by
  obtain ⟨b, -, hb, -⟩ := walkBody_ok_cases m P c w h
  exact getBarycentricCoordinates_ok_valid m P c b hb

theorem walkBody_moveTo_ne (m : Mesh) (P : Vec3) (c n : Int)
    (h : walkBody m P c = .ok (WalkStep.moveTo n)) : n ≠ -1 := by
  obtain ⟨b, tri, -, -, h1 | h1 | h1⟩ := walkBody_ok_cases m P c _ h
  · cases h1.1
  · cases h1.1
  · have := h1.1
    cases this
    exact h1.2.2

/-- In a well-formed mesh the loop body succeeds at every valid triangle, and a step it
takes leads to a valid triangle. -/
theorem walkBody_ok_of_valid (m : Mesh) (hwf : m.WellFormed) (P : Vec3) (c : Int)
    (hc : m.validTriangle c) :
    ∃ w, walkBody m P c = .ok w ∧ ∀ n, w = WalkStep.moveTo n → m.validTriangle n := by
  obtain ⟨b, hb⟩ := getBarycentricCoordinates_ok_of_valid m hwf P c hc
  obtain ⟨tri, -, -, -, htri, hmem, -⟩ := triangleVertices_ok_of_valid m hwf c hc
  cases hacc : baryAccepted b with
  | true =>
    exact ⟨_, walkBody_found m P c b hb hacc, fun n hn => by cases hn⟩
  | false =>
    by_cases hn : tri.neighbors (nextEdgeOf b) = -1
    · exact ⟨_, walkBody_boundary m P c b tri hb hacc htri hn, fun n h => by cases h⟩
    · refine ⟨_, walkBody_moveTo m P c b tri hb hacc htri hn, ?_⟩
      intro n h
      cases h
      rcases (hwf tri hmem).2 (nextEdgeOf b) with h1 | h1
      · exact absurd h1 hn
      · exact h1

/-- What the loop's final state says about the walk: the number of steps taken is within
the fuel, the final triangle is the one reached by that many steps, and the loop was left
by acceptance, at a boundary edge, or because the fuel ran out. -/
theorem walkLoop_ok_spec (m : Mesh) (P : Vec3) :
    ∀ (fuel : Nat) (cur : Int) (it : Nat) (st : WalkState),
      walkLoop m P fuel cur it = .ok st →
      ∃ k, k ≤ fuel ∧ st.iterations = it + k ∧
        reachedAfter m P k cur = some st.current ∧
        ((st.found = true ∧ walkBody m P st.current = .ok WalkStep.found) ∨
         (st.found = false ∧ walkBody m P st.current = .ok WalkStep.boundary) ∨
         (st.found = false ∧ k = fuel)) := by
  intro fuel
  induction fuel with
  | zero =>
    intro cur it st h
    rw [walkLoop] at h
    cases h
    exact ⟨0, le_refl _, rfl, rfl, Or.inr (Or.inr ⟨rfl, rfl⟩)⟩
  | succ fuel ih =>
    intro cur it st h
    cases hw : walkBody m P cur with
    | error f =>
      rw [walkLoop, hw] at h
      cases h
    | ok w =>
      cases w with
      | found =>
        rw [walkLoop_found m P fuel cur it hw] at h
        cases h
        exact ⟨0, Nat.zero_le _, rfl, rfl, Or.inl ⟨rfl, hw⟩⟩
      | boundary =>
        rw [walkLoop_boundary m P fuel cur it hw] at h
        cases h
        exact ⟨0, Nat.zero_le _, rfl, rfl, Or.inr (Or.inl ⟨rfl, hw⟩)⟩
      | moveTo n =>
        rw [walkLoop_moveTo m P fuel cur n it hw] at h
        obtain ⟨k, hk, hit, hreach, hend⟩ := ih n (it + 1) st h
        refine ⟨k + 1, Nat.succ_le_succ hk, by omega, ?_, ?_⟩
        · rw [reachedAfter, hw]
          exact hreach
        · rcases hend with h1 | h1 | h1
          · exact Or.inl h1
          · exact Or.inr (Or.inl h1)
          · exact Or.inr (Or.inr ⟨h1.1, by omega⟩)

/-- A loop that was left by acceptance did not use up its fuel. -/
theorem walkLoop_found_lt (m : Mesh) (P : Vec3) :
    ∀ (fuel : Nat) (cur : Int) (it : Nat) (st : WalkState),
      walkLoop m P fuel cur it = .ok st → st.found = true → st.iterations < it + fuel := by
  intro fuel
  induction fuel with
  | zero =>
    intro cur it st h hf
    rw [walkLoop] at h
    cases h
    cases hf
  | succ fuel ih =>
    intro cur it st h hf
    cases hw : walkBody m P cur with
    | error f =>
      rw [walkLoop, hw] at h
      cases h
    | ok w =>
      cases w with
      | found =>
        rw [walkLoop_found m P fuel cur it hw] at h
        cases h
        simp only
        omega
      | boundary =>
        rw [walkLoop_boundary m P fuel cur it hw] at h
        cases h
        cases hf
      | moveTo n =>
        rw [walkLoop_moveTo m P fuel cur n it hw] at h
        have := ih n (it + 1) st h hf
        omega

theorem getBarycentricCoordinates_error (m : Mesh) (P : Vec3) (t : Int) (f : Fault)
    (h : getBarycentricCoordinates m P t = .error f) : f = Fault.indexOutOfRange := by
  cases hv : m.triangleVertices t with
  | error f1 =>
    unfold getBarycentricCoordinates at h
    rw [hv] at h
    cases h
    exact triangleVertices_error m t _ hv
  | ok vs =>
    obtain ⟨v0, v1, v2⟩ := vs
    obtain ⟨b, hb⟩ := baryOfVertices_ok P v0 v1 v2
    rw [getBarycentricCoordinates_eq m P t v0 v1 v2 hv, hb] at h
    cases h

theorem walkBody_error (m : Mesh) (P : Vec3) (c : Int) (f : Fault)
    (h : walkBody m P c = .error f) : f = Fault.indexOutOfRange := by
  cases hb : getBarycentricCoordinates m P c with
  | error f1 =>
    unfold walkBody at h
    rw [hb] at h
    cases h
    exact getBarycentricCoordinates_error m P c _ hb
  | ok b =>
    obtain ⟨tri, htri⟩ := vecAt_ok_of_valid m.triangles c
      (getBarycentricCoordinates_ok_valid m P c b hb)
    cases hacc : baryAccepted b with
    | true =>
      rw [walkBody_found m P c b hb hacc] at h
      cases h
    | false =>
      by_cases hn : tri.neighbors (nextEdgeOf b) = -1
      · rw [walkBody_boundary m P c b tri hb hacc htri hn] at h
        cases h
      · rw [walkBody_moveTo m P c b tri hb hacc htri hn] at h
        cases h

/-- The only fault the loop can end in is an out-of-range index. -/
theorem walkLoop_error (m : Mesh) (P : Vec3) :
    ∀ (fuel : Nat) (cur : Int) (it : Nat) (f : Fault),
      walkLoop m P fuel cur it = .error f → f = Fault.indexOutOfRange := by
  intro fuel
  induction fuel with
  | zero =>
    intro cur it f h
    rw [walkLoop] at h
    cases h
  | succ fuel ih =>
    intro cur it f h
    cases hw : walkBody m P cur with
    | error f1 =>
      rw [walkLoop, hw] at h
      cases h
      exact walkBody_error m P cur _ hw
    | ok w =>
      cases w with
      | found =>
        rw [walkLoop_found m P fuel cur it hw] at h
        cases h
      | boundary =>
        rw [walkLoop_boundary m P fuel cur it hw] at h
        cases h
      | moveTo n =>
        rw [walkLoop_moveTo m P fuel cur n it hw] at h
        exact ih n (it + 1) f h

/-- The weight that selects `nextEdge` in a rejected triangle is negative. -/
theorem nextEdgeOf_weight_neg (b : Vec3) (hrej : baryAccepted b = false) :
    (nextEdgeOf b = 0 ∧ b.x < 0) ∨ (nextEdgeOf b = 1 ∧ b.y < 0) ∨
      (nextEdgeOf b = 2 ∧ b.z < 0) := by
  have hsome : b.x < BARY_TOL ∨ b.y < BARY_TOL ∨ b.z < BARY_TOL := by
    by_contra hcon
    push_neg at hcon
    have := (baryAccepted_iff b).mpr hcon
    rw [hrej] at this
    cases this
  have htol : BARY_TOL < 0 := by unfold BARY_TOL; norm_num
  by_cases h1 : b.y < b.x
  · by_cases h2 : b.z < b.y
    · have he : nextEdgeOf b = 2 := by
        unfold nextEdgeOf
        simp only [h1, h2, if_true]
      refine Or.inr (Or.inr ⟨he, ?_⟩)
      rcases hsome with h | h | h <;> linarith
    · have he : nextEdgeOf b = 1 := by
        unfold nextEdgeOf
        simp only [h1, h2, if_true, if_false]
      refine Or.inr (Or.inl ⟨he, ?_⟩)
      rcases hsome with h | h | h <;> linarith
  · by_cases h2 : b.z < b.x
    · have he : nextEdgeOf b = 2 := by
        unfold nextEdgeOf
        simp only [h1, h2, if_true, if_false]
      refine Or.inr (Or.inr ⟨he, ?_⟩)
      rcases hsome with h | h | h <;> linarith
    · have he : nextEdgeOf b = 0 := by
        unfold nextEdgeOf
        simp only [h1, h2, if_false]
      refine Or.inl ⟨he, ?_⟩
      rcases hsome with h | h | h <;> linarith

/-- In a triangle that passes the degeneracy test and rejects the point, the point lies
strictly outside the edge opposite to the vertex of the selected weight, which is edge
`nextEdge + 1` (mod 3), not edge `nextEdge`. -/
theorem rejected_point_outside_opposite_edge (P v0 v1 v2 b : Vec3)
    (hden : DENOM_EPS ≤ |baryDenom v0 v1 v2|)
    (hb : baryOfVertices P v0 v1 v2 = .ok b) (hrej : baryAccepted b = false) :
    OutsideEdgeXY P v0 v1 v2 (nextEdgeOf b + 1) := by
  have hne := baryDenom_ne_zero v0 v1 v2 hden
  have hD : 0 < baryDenom v0 v1 v2 := by
    rw [baryDenom_eq_sq] at hne ⊢
    exact lt_of_le_of_ne (mul_self_nonneg _) (Ne.symm hne)
  rw [baryOfVertices_regular P v0 v1 v2 hden] at hb
  cases hb
  have hneg : ∀ x : ℚ, x / baryDenom v0 v1 v2 < 0 → x < 0 := by
    intro x hx
    have := mul_neg_of_neg_of_pos hx hD
    rwa [div_mul_cancel₀ x hne] at this
  have hU : 1 - baryNumV P v0 v1 v2 / baryDenom v0 v1 v2
      - baryNumW P v0 v1 v2 / baryDenom v0 v1 v2 =
      orientXY v0 v1 v2 * orientXY v1 v2 P / baryDenom v0 v1 v2 := by
    rw [baryNumV_eq, baryNumW_eq]
    field_simp
    rw [baryDenom_eq_sq, ← orientXY_sum P v0 v1 v2]
    ring
  have hc1 : orientXY v1 v2 v0 = orientXY v0 v1 v2 := by unfold orientXY; ring
  have hc2 : orientXY v2 v0 v1 = orientXY v0 v1 v2 := by unfold orientXY; ring
  rcases nextEdgeOf_weight_neg _ hrej with ⟨he, hw⟩ | ⟨he, hw⟩ | ⟨he, hw⟩
  · rw [he]
    simp only at hw
    rw [hU] at hw
    show orientXY v1 v2 v0 * orientXY v1 v2 P < 0
    rw [hc1]
    exact hneg _ hw
  · rw [he]
    simp only at hw
    rw [baryNumV_eq] at hw
    show orientXY v2 v0 v1 * orientXY v2 v0 P < 0
    rw [hc2]
    exact hneg _ hw
  · rw [he]
    simp only at hw
    rw [baryNumW_eq] at hw
    show orientXY v0 v1 v2 * orientXY v0 v1 P < 0
    exact hneg _ hw

/-- A walk that reaches `c` in `k` steps continues from `c` with `k` iterations counted. -/
theorem walkLoop_reached (m : Mesh) (P : Vec3) :
    ∀ (k : Nat) (seed c : Int) (f it : Nat), reachedAfter m P k seed = some c →
      walkLoop m P (k + f) seed it = walkLoop m P f c (it + k) := by
  intro k
  induction k with
  | zero =>
    intro seed c f it h
    rw [reachedAfter] at h
    cases h
    simp only [Nat.zero_add, Nat.add_zero]
  | succ k ih =>
    intro seed c f it h
    rw [reachedAfter] at h
    split at h
    · next n hw =>
      have : k + 1 + f = (k + f) + 1 := by omega
      rw [this, walkLoop_moveTo m P (k + f) seed n it hw, ih n c f (it + 1) h]
      congr 1
      omega
    · cases h

/-- Every triangle reached by at least one step is different from `-1`. -/
theorem reachedAfter_succ_ne (m : Mesh) (P : Vec3) :
    ∀ (k : Nat) (seed r : Int), reachedAfter m P (k + 1) seed = some r → r ≠ -1 := by
  intro k
  induction k with
  | zero =>
    intro seed r h
    rw [reachedAfter] at h
    split at h
    · next n hw =>
      rw [reachedAfter] at h
      cases h
      exact walkBody_moveTo_ne m P seed _ hw
    · cases h
  | succ k ih =>
    intro seed r h
    rw [reachedAfter] at h
    split at h
    · next n hw => exact ih n r h
    · cases h

/-- In a well-formed mesh the loop started at a valid triangle ends without a fault, at a
valid triangle. -/
theorem walkLoop_total (m : Mesh) (hwf : m.WellFormed) (P : Vec3) :
    ∀ (fuel : Nat) (cur : Int) (it : Nat), m.validTriangle cur →
      ∃ st, walkLoop m P fuel cur it = .ok st ∧ m.validTriangle st.current := by
  intro fuel
  induction fuel with
  | zero =>
    intro cur it hc
    exact ⟨⟨cur, false, it⟩, by rw [walkLoop], hc⟩
  | succ fuel ih =>
    intro cur it hc
    obtain ⟨w, hw, hstep⟩ := walkBody_ok_of_valid m hwf P cur hc
    cases w with
    | found => exact ⟨_, walkLoop_found m P fuel cur it hw, hc⟩
    | boundary => exact ⟨_, walkLoop_boundary m P fuel cur it hw, hc⟩
    | moveTo n =>
      obtain ⟨st, hst, hv⟩ := ih n (it + 1) (hstep n rfl)
      exact ⟨st, (walkLoop_moveTo m P fuel cur n it hw).trans hst, hv⟩

/-- Weights of a point on an edge of a triangle that passes the degeneracy test. -/
theorem baryOfVertices_on_edge (P v0 v1 v2 : Vec3)
    (hden : DENOM_EPS ≤ |baryDenom v0 v1 v2|)
    (hP : OnEdgeXY P v0 v1 ∨ OnEdgeXY P v1 v2 ∨ OnEdgeXY P v2 v0) :
    ∃ b, baryOfVertices P v0 v1 v2 = .ok b ∧ 0 ≤ b.x ∧ 0 ≤ b.y ∧ 0 ≤ b.z := by
  have hne := baryDenom_ne_zero v0 v1 v2 hden
  refine ⟨_, baryOfVertices_regular P v0 v1 v2 hden, ?_⟩
  simp only
  rcases hP with ⟨s, hs0, hs1, hx, hy⟩ | ⟨s, hs0, hs1, hx, hy⟩ | ⟨s, hs0, hs1, hx, hy⟩
  · have hV : baryNumV P v0 v1 v2 = s * baryDenom v0 v1 v2 := by
      unfold baryNumV baryDenom dot
      simp only [hx, hy]
      ring
    have hW : baryNumW P v0 v1 v2 = 0 * baryDenom v0 v1 v2 := by
      unfold baryNumW baryDenom dot
      simp only [hx, hy]
      ring
    rw [hV, hW, mul_div_assoc, mul_div_assoc, div_self hne]
    refine ⟨?_, ?_, ?_⟩ <;> linarith
  · have hV : baryNumV P v0 v1 v2 = (1 - s) * baryDenom v0 v1 v2 := by
      unfold baryNumV baryDenom dot
      simp only [hx, hy]
      ring
    have hW : baryNumW P v0 v1 v2 = s * baryDenom v0 v1 v2 := by
      unfold baryNumW baryDenom dot
      simp only [hx, hy]
      ring
    rw [hV, hW, mul_div_assoc, mul_div_assoc, div_self hne]
    refine ⟨?_, ?_, ?_⟩ <;> linarith
  · have hV : baryNumV P v0 v1 v2 = 0 * baryDenom v0 v1 v2 := by
      unfold baryNumV baryDenom dot
      simp only [hx, hy]
      ring
    have hW : baryNumW P v0 v1 v2 = (1 - s) * baryDenom v0 v1 v2 := by
      unfold baryNumW baryDenom dot
      simp only [hx, hy]
      ring
    rw [hV, hW, mul_div_assoc, mul_div_assoc, div_self hne]
    refine ⟨?_, ?_, ?_⟩ <;> linarith

theorem OnEdgeXY.symm {P a b : Vec3} (h : OnEdgeXY P a b) : OnEdgeXY P b a := by
  obtain ⟨s, hs0, hs1, hx, hy⟩ := h
  refine ⟨1 - s, by linarith, by linarith, ?_, ?_⟩
  · rw [hx]; ring
  · rw [hy]; ring

theorem normalize_ok (sqrtF : ℚ → ℚ) (v : Vec3) : ∃ n, normalize sqrtF v = .ok n := by
  unfold normalize Vec3.div
  by_cases h : length sqrtF v = 0
  · exact ⟨⟨0, 0, 0⟩, by simp only [h, if_true]⟩
  · exact ⟨⟨v.x / length sqrtF v, v.y / length sqrtF v, v.z / length sqrtF v⟩,
      by simp only [h, if_false]⟩

theorem walkFrom_accepts (m : Mesh) (P : Vec3) (s : Int) (b : Vec3)
    (hb : getBarycentricCoordinates m P s = .ok b)
    (hacc : BARY_TOL ≤ b.x ∧ BARY_TOL ≤ b.y ∧ BARY_TOL ≤ b.z) :
    walkFrom m P s = .ok ⟨s, true, 0⟩ :=
  walkLoop_found m P 99 s 0 (walkBody_found m P s b hb ((baryAccepted_iff b).mpr hacc))

theorem BARY_TOL_le_of_nonneg (x : ℚ) (h : 0 ≤ x) : BARY_TOL ≤ x := by
  unfold BARY_TOL
  linarith

/-- The walk seeded at a triangle that passes the degeneracy test, for a point on one of
its edges, accepts the seed. -/
theorem walkConverges_on_edge (m : Mesh) (P : Vec3) (t : Int) (v0 v1 v2 : Vec3)
    (hv : m.triangleVertices t = .ok (v0, v1, v2))
    (hden : DENOM_EPS ≤ |baryDenom v0 v1 v2|)
    (hP : OnEdgeXY P v0 v1 ∨ OnEdgeXY P v1 v2 ∨ OnEdgeXY P v2 v0) :
    WalkConverges m P t := by
  obtain ⟨b, hb, hx, hy, hz⟩ := baryOfVertices_on_edge P v0 v1 v2 hden hP
  have hb2 : getBarycentricCoordinates m P t = .ok b :=
    (getBarycentricCoordinates_eq m P t v0 v1 v2 hv).trans hb
  have hacc : BARY_TOL ≤ b.x ∧ BARY_TOL ≤ b.y ∧ BARY_TOL ≤ b.z :=
    ⟨BARY_TOL_le_of_nonneg _ hx, BARY_TOL_le_of_nonneg _ hy, BARY_TOL_le_of_nonneg _ hz⟩
  refine ⟨t, b, ?_, hb2, hacc⟩
  intro ball hs
  exact findContainingTriangle_of_walkFrom m ball P ⟨t, true, 0⟩
    (by rw [hs]; exact walkFrom_accepts m P t b hb2 hacc)

/-- A point on the segment between the two ends of edge `k` of a triangle lies on one of
the three edges of its vertex triple. -/
theorem onEdge_of_edge_index (m : Mesh) (P : Vec3) (t : Int) (tri : Triangle)
    (v0 v1 v2 : Vec3) (hv : m.triangleVertices t = .ok (v0, v1, v2))
    (ht : m.triangleAt t = .ok tri) (k : Fin 3) (p q : Vec3)
    (hp : m.vertexAt (tri.vertices k) = .ok p)
    (hq : m.vertexAt (tri.vertices (k + 1)) = .ok q)
    (hP : OnEdgeXY P p q) :
    OnEdgeXY P v0 v1 ∨ OnEdgeXY P v1 v2 ∨ OnEdgeXY P v2 v0 := by
  obtain ⟨tri2, ht2, h0, h1, h2⟩ := (triangleVertices_ok_iff m t v0 v1 v2).mp hv
  rw [ht] at ht2
  cases ht2
  fin_cases k
  · have e0 : m.vertexAt (tri.vertices 0) = .ok p := hp
    have e1 : m.vertexAt (tri.vertices 1) = .ok q := hq
    rw [h0] at e0
    rw [h1] at e1
    cases e0
    cases e1
    exact Or.inl hP
  · have e0 : m.vertexAt (tri.vertices 1) = .ok p := hp
    have e1 : m.vertexAt (tri.vertices 2) = .ok q := hq
    rw [h1] at e0
    rw [h2] at e1
    cases e0
    cases e1
    exact Or.inr (Or.inl hP)
  · have e0 : m.vertexAt (tri.vertices 2) = .ok p := hp
    have e1 : m.vertexAt (tri.vertices 0) = .ok q := hq
    rw [h2] at e0
    rw [h0] at e1
    cases e0
    cases e1
    exact Or.inr (Or.inr hP)

theorem getTriangleNormal_ok_of_valid (sqrtF : ℚ → ℚ) (m : Mesh) (hwf : m.WellFormed)
    (t : Int) (ht : m.validTriangle t) : ∃ n, getTriangleNormal sqrtF m t = .ok n := by
  obtain ⟨tri, v0, v1, v2, -, -, hv⟩ := triangleVertices_ok_of_valid m hwf t ht
  unfold getTriangleNormal
  rw [hv]
  exact normalize_ok sqrtF _

theorem getSurfaceHeight_ok_of_valid (m : Mesh) (hwf : m.WellFormed) (pos : Vec3)
    (t : Int) (ht : m.validTriangle t) : ∃ h, getSurfaceHeight m pos t = .ok h := by
  obtain ⟨tri, v0, v1, v2, -, -, hv⟩ := triangleVertices_ok_of_valid m hwf t ht
  obtain ⟨b, hb⟩ := getBarycentricCoordinates_ok_of_valid m hwf ⟨pos.x, pos.y, 0⟩ t ht
  unfold getSurfaceHeight
  rw [hv]
  simp only [hb]
  exact ⟨_, rfl⟩

theorem findContainingTriangle_ok_of_valid (m : Mesh) (hwf : m.WellFormed)
    (ball : BallState) (P : Vec3) (hcur : m.validTriangle ball.currentTriangle) :
    ∃ r, findContainingTriangle m ball P = .ok r ∧ m.validTriangle r := by
  obtain ⟨st, hst, hv⟩ := walkLoop_total m hwf P 100 ball.currentTriangle 0 hcur
  exact ⟨st.current, findContainingTriangle_of_walkFrom m ball P st hst, hv⟩

/-- In a well-formed mesh a physics step from a state with a valid `currentTriangle` ends
without a fault, in a state whose `currentTriangle` is valid. -/
theorem updatePhysics_ok_of_valid (sqrtF : ℚ → ℚ) (m : Mesh) (hwf : m.WellFormed)
    (ball : BallState) (hcur : m.validTriangle ball.currentTriangle) :
    ∃ ball1, updatePhysics sqrtF m ball = .ok ball1 ∧
      m.validTriangle ball1.currentTriangle := by
  obtain ⟨r, hr, hv⟩ := findContainingTriangle_ok_of_valid m hwf ball ball.position hcur
  obtain ⟨n, hn⟩ := getTriangleNormal_ok_of_valid sqrtF m hwf r hv
  obtain ⟨u, hu⟩ := normalize_ok sqrtF n
  unfold updatePhysics
  rw [hr]
  simp only [hn, hu]
  obtain ⟨h, hh⟩ := getSurfaceHeight_ok_of_valid m hwf
    (ball.position.add ((ball.velocity.add
      ((⟨(Vec3.sub ⟨0, 0, -G⟩ (u.smul (dot ⟨0, 0, -G⟩ n))).x +
          -FRICTION * (Vec3.sub ⟨0, 0, -G⟩ (u.smul (dot ⟨0, 0, -G⟩ n))).x,
        (Vec3.sub ⟨0, 0, -G⟩ (u.smul (dot ⟨0, 0, -G⟩ n))).y +
          -FRICTION * (Vec3.sub ⟨0, 0, -G⟩ (u.smul (dot ⟨0, 0, -G⟩ n))).y,
        (Vec3.sub ⟨0, 0, -G⟩ (u.smul (dot ⟨0, 0, -G⟩ n))).z +
          -FRICTION * (Vec3.sub ⟨0, 0, -G⟩ (u.smul (dot ⟨0, 0, -G⟩ n))).z⟩ : Vec3).smul
        TIME_STEP)).smul TIME_STEP)) r hv
  rw [hh]
  simp only
  split
  · exact ⟨_, rfl, hv⟩
  · exact ⟨_, rfl, hv⟩

theorem updatePhysicsN_ok_of_valid (sqrtF : ℚ → ℚ) (m : Mesh) (hwf : m.WellFormed) :
    ∀ (n : Nat) (ball : BallState), m.validTriangle ball.currentTriangle →
      ∃ ball1, updatePhysicsN sqrtF m n ball = .ok ball1 ∧
        m.validTriangle ball1.currentTriangle := by
  intro n
  induction n with
  | zero =>
    intro ball hcur
    exact ⟨ball, by rw [updatePhysicsN], hcur⟩
  | succ n ih =>
    intro ball hcur
    obtain ⟨b1, hb1, hv1⟩ := updatePhysics_ok_of_valid sqrtF m hwf ball hcur
    obtain ⟨b2, hb2, hv2⟩ := ih b1 hv1
    refine ⟨b2, ?_, hv2⟩
    rw [updatePhysicsN, hb1]
    exact hb2

/-! ## The physics step: lemmas -/

/-- The physics step is the integration followed by the surface clamp. -/
theorem updatePhysics_eq_clamp (sqrtF : ℚ → ℚ) (m : Mesh) (ball : BallState) :
    updatePhysics sqrtF m ball =
      match integrate sqrtF m ball with
      | .error f => .error f
      | .ok s =>
        match getSurfaceHeight m s.position s.currentTriangle with
        | .error f => .error f
        | .ok surfaceHeight => .ok (clampToSurface s surfaceHeight) := by
  unfold updatePhysics integrate
  cases findContainingTriangle m ball ball.position with
  | error f => rfl
  | ok ct =>
    simp only
    cases getTriangleNormal sqrtF m ct with
    | error f => rfl
    | ok n =>
      simp only
      cases normalize sqrtF n with
      | error f => rfl
      | ok u =>
        simp only
        split
        · rfl
        · unfold clampToSurface
          simp only
          split <;> rfl

/-- What the integrated values are, in terms of the state before the step. -/
theorem integrate_spec (sqrtF : ℚ → ℚ) (m : Mesh) (ball : BallState) (s : Integrated)
    (h : integrate sqrtF m ball = .ok s) :
    findContainingTriangle m ball ball.position = .ok s.currentTriangle ∧
    getTriangleNormal sqrtF m s.currentTriangle = .ok s.normal ∧
    normalize sqrtF s.normal = .ok s.unitNormal ∧
    s.acceleration =
      (Vec3.sub ⟨0, 0, -G⟩ (s.unitNormal.smul (dot ⟨0, 0, -G⟩ s.normal))).add
        ((Vec3.sub ⟨0, 0, -G⟩ (s.unitNormal.smul (dot ⟨0, 0, -G⟩ s.normal))).smul
          (-FRICTION)) ∧
    s.velocity = ball.velocity.add (s.acceleration.smul TIME_STEP) ∧
    s.position = ball.position.add (s.velocity.smul TIME_STEP) := by
  unfold integrate at h
  cases h1 : findContainingTriangle m ball ball.position with
  | error f => rw [h1] at h; cases h
  | ok ct =>
    rw [h1] at h
    simp only at h
    cases h2 : getTriangleNormal sqrtF m ct with
    | error f => rw [h2] at h; cases h
    | ok n =>
      rw [h2] at h
      simp only at h
      cases h3 : normalize sqrtF n with
      | error f => rw [h3] at h; cases h
      | ok u =>
        rw [h3] at h
        simp only at h
        cases h
        refine ⟨rfl, h2, h3, ?_, rfl, rfl⟩
        simp only [Vec3.add, Vec3.sub, Vec3.smul, Vec3.mk.injEq]
        refine ⟨?_, ?_, ?_⟩ <;> ring

/-- The surface height does not depend on the z coordinate of the position. -/
theorem getSurfaceHeight_xy (m : Mesh) (x y z1 z2 : ℚ) (t : Int) :
    getSurfaceHeight m ⟨x, y, z1⟩ t = getSurfaceHeight m ⟨x, y, z2⟩ t := by
  unfold getSurfaceHeight
  rfl

theorem getTriangleNormal_ok_vertices (sqrtF : ℚ → ℚ) (m : Mesh) (t : Int) (n : Vec3)
    (h : getTriangleNormal sqrtF m t = .ok n) :
    ∃ v0 v1 v2, m.triangleVertices t = .ok (v0, v1, v2) := by
  unfold getTriangleNormal at h
  split at h
  · cases h
  · next v0 v1 v2 hv => exact ⟨v0, v1, v2, hv⟩

theorem getSurfaceHeight_ok_of_vertices (m : Mesh) (pos : Vec3) (t : Int) (v0 v1 v2 : Vec3)
    (hv : m.triangleVertices t = .ok (v0, v1, v2)) :
    ∃ h, getSurfaceHeight m pos t = .ok h := by
  obtain ⟨b, hb⟩ := baryOfVertices_ok ⟨pos.x, pos.y, 0⟩ v0 v1 v2
  have hb2 := (getBarycentricCoordinates_eq m ⟨pos.x, pos.y, 0⟩ t v0 v1 v2 hv).trans hb
  unfold getSurfaceHeight
  rw [hv]
  simp only [hb2]
  exact ⟨_, rfl⟩

/-- A step whose integration succeeds ends without a fault, in the clamped state. -/
theorem updatePhysics_of_integrate (sqrtF : ℚ → ℚ) (m : Mesh) (ball : BallState)
    (s : Integrated) (h : integrate sqrtF m ball = .ok s) :
    ∃ surfaceHeight, getSurfaceHeight m s.position s.currentTriangle = .ok surfaceHeight ∧
      updatePhysics sqrtF m ball = .ok (clampToSurface s surfaceHeight) := by
  obtain ⟨-, hn, -⟩ := integrate_spec sqrtF m ball s h
  obtain ⟨v0, v1, v2, hv⟩ := getTriangleNormal_ok_vertices sqrtF m _ _ hn
  obtain ⟨sh, hsh⟩ := getSurfaceHeight_ok_of_vertices m s.position _ v0 v1 v2 hv
  refine ⟨sh, hsh, ?_⟩
  rw [updatePhysics_eq_clamp, h]
  simp only [hsh]

/-- A step that ends without a fault went through a successful integration. -/
theorem integrate_of_updatePhysics (sqrtF : ℚ → ℚ) (m : Mesh) (ball ball1 : BallState)
    (h : updatePhysics sqrtF m ball = .ok ball1) :
    ∃ s surfaceHeight, integrate sqrtF m ball = .ok s ∧
      getSurfaceHeight m s.position s.currentTriangle = .ok surfaceHeight ∧
      ball1 = clampToSurface s surfaceHeight := by
  rw [updatePhysics_eq_clamp] at h
  cases hi : integrate sqrtF m ball with
  | error f => rw [hi] at h; cases h
  | ok s =>
    rw [hi] at h
    simp only at h
    cases hs : getSurfaceHeight m s.position s.currentTriangle with
    | error f => rw [hs] at h; cases h
    | ok sh =>
      rw [hs] at h
      cases h
      exact ⟨s, sh, rfl, hs, rfl⟩

theorem clampToSurface_currentTriangle (s : Integrated) (sh : ℚ) :
    (clampToSurface s sh).currentTriangle = s.currentTriangle := by
  unfold clampToSurface
  split <;> rfl

theorem clampToSurface_xy (s : Integrated) (sh : ℚ) :
    (clampToSurface s sh).position.x = s.position.x ∧
    (clampToSurface s sh).position.y = s.position.y := by
  unfold clampToSurface
  split <;> exact ⟨rfl, rfl⟩

/-- The `glm` normalisation of a vector of squared length 1 is the vector itself, when
the square root of 1 is computed as 1. -/
theorem normalize_of_unit (sqrtF : ℚ → ℚ) (n : Vec3) (hunit : dot n n = 1)
    (hsqrt : sqrtF 1 = 1) : normalize sqrtF n = .ok n := by
  unfold normalize length Vec3.div
  rw [hunit, hsqrt]
  simp only [one_ne_zero, if_false, div_one]

theorem getTriangleNormal_eq (sqrtF : ℚ → ℚ) (m : Mesh) (t : Int) (v0 v1 v2 : Vec3)
    (hv : m.triangleVertices t = .ok (v0, v1, v2)) :
    getTriangleNormal sqrtF m t = normalize sqrtF (triangleCross v0 v1 v2) := by
  unfold getTriangleNormal
  rw [hv]
  rfl

theorem sqrtExactAt_zero (sqrtF : ℚ → ℚ) (h : SqrtExactAt sqrtF 0) : sqrtF 0 = 0 := by
  obtain ⟨-, h2⟩ := h
  exact mul_self_eq_zero.mp h2

theorem sqrtExactAt_one (sqrtF : ℚ → ℚ) (h : SqrtExactAt sqrtF 1) : sqrtF 1 = 1 := by
  obtain ⟨h1, h2⟩ := h
  have h3 : (sqrtF 1 - 1) * (sqrtF 1 + 1) = 0 := by linear_combination h2
  rcases mul_eq_zero.mp h3 with h4 | h4
  · linarith
  · linarith

/-- With the square root exact on the two squared lengths it is applied to, the computed
normal is a fixed point of the `glm` normalisation: it has squared length 1, or it is the
zero vector (for a triangle whose edge vectors are parallel). -/
theorem normalize_computed_normal (sqrtF : ℚ → ℚ) (c n : Vec3)
    (hn : normalize sqrtF c = .ok n)
    (hc : SqrtExactAt sqrtF (dot c c)) (h1 : SqrtExactAt sqrtF (dot n n)) :
    normalize sqrtF n = .ok n := by
  unfold normalize length Vec3.div at hn
  by_cases hL : sqrtF (dot c c) = 0
  · simp only [hL, if_true] at hn
    cases hn
    have h0 : dot (⟨0, 0, 0⟩ : Vec3) ⟨0, 0, 0⟩ = 0 := by unfold dot; ring
    rw [h0] at h1
    unfold normalize length
    rw [h0, sqrtExactAt_zero sqrtF h1]
    simp only [if_true]
  · simp only [hL, if_false] at hn
    cases hn
    have hunit : dot (⟨c.x / sqrtF (dot c c), c.y / sqrtF (dot c c),
        c.z / sqrtF (dot c c)⟩ : Vec3) ⟨c.x / sqrtF (dot c c), c.y / sqrtF (dot c c),
        c.z / sqrtF (dot c c)⟩ = 1 := by
      have hsq := hc.2
      have hd : dot c c = c.x * c.x + c.y * c.y + c.z * c.z := rfl
      show c.x / sqrtF (dot c c) * (c.x / sqrtF (dot c c)) +
        c.y / sqrtF (dot c c) * (c.y / sqrtF (dot c c)) +
        c.z / sqrtF (dot c c) * (c.z / sqrtF (dot c c)) = 1
      field_simp
      rw [hsq, hd]
    rw [hunit] at h1
    exact normalize_of_unit sqrtF _ hunit (sqrtExactAt_one sqrtF h1)

/-! ## `RollingBall::move`: lemmas -/

theorem slopeNz_ne_zero (normal : Vec3) : slopeNz normal ≠ 0 := by
  unfold slopeNz
  split
  · unfold SURFACE_EPS
    norm_num
  · next h =>
    intro h0
    rw [h0] at h
    unfold SURFACE_EPS at h
    norm_num at h

theorem slopeNz_of_ge (normal : Vec3) (h : SURFACE_EPS ≤ |normal.z|) :
    slopeNz normal = normal.z := by
  unfold slopeNz
  simp only [not_lt.mpr h, if_false]

/-- What `move` does when a triangle is found: the slope-ratio acceleration, one Euler
step, and the transition response when the triangle differs from the recorded one. -/
theorem move_moved (sqrtF : ℚ → ℚ) (b : RollingBall) (surface : Mesh) (dt : ℚ) (i : Int)
    (normal : Vec3)
    (hs : b.mSurface = some surface)
    (hf : TriangleSurface.findTriangle surface b.mPosition = .ok i) (hi : i ≠ -1)
    (hn : TriangleSurface.getNormal sqrtF surface i = .ok normal) :
    RollingBall.move sqrtF b dt = .ok (MoveOutcome.moved,
      { b with
        mPosition := b.mPosition.add ((b.mVelocity.add ((slopeAccel normal).smul dt)).smul dt)
        mVelocity :=
          if i ≠ b.oldTriangleIndex then
            transitionResponse sqrtF b.oldNormal normal
              (b.mVelocity.add ((slopeAccel normal).smul dt))
          else b.mVelocity.add ((slopeAccel normal).smul dt)
        mAcceleration := slopeAccel normal
        oldNormal := normal
        oldTriangleIndex := i }) := by
  have hnz := slopeNz_ne_zero normal
  unfold slopeNz at hnz
  unfold RollingBall.move
  rw [hs]
  simp only [hf, hi, if_false, hn, fdiv, hnz]
  by_cases hold : i = b.oldTriangleIndex
  · simp only [hold, ne_eq, not_true_eq_false, if_false]
    rfl
  · simp only [hold, ne_eq, not_false_eq_true, if_true]
    rfl

/-- The off-surface exit of `move`. -/
theorem move_offSurface (sqrtF : ℚ → ℚ) (b : RollingBall) (surface : Mesh) (dt : ℚ)
    (hs : b.mSurface = some surface)
    (hf : TriangleSurface.findTriangle surface b.mPosition = .ok (-1)) :
    RollingBall.move sqrtF b dt = .ok (MoveOutcome.offSurface, b) := by
  unfold RollingBall.move
  rw [hs]
  simp only [hf, if_true]

/-- What it means that the loop body of `findTriangle` computed weights for a triangle. -/
theorem surfaceWeights_some (m : Mesh) (point : Vec3) (tri : Triangle) (u v w : ℚ)
    (h : surfaceWeights m point tri = .ok (some (u, v, w))) :
    ∃ v0 v1 v2 : Vec3, m.vertexAt (tri.vertices 0) = .ok v0 ∧
      m.vertexAt (tri.vertices 1) = .ok v1 ∧ m.vertexAt (tri.vertices 2) = .ok v2 ∧
      SURFACE_EPS ≤ |surfaceDenom v0 v1 v2| ∧
      u = surfaceNumU point v1 v2 / surfaceDenom v0 v1 v2 ∧
      v = surfaceNumV point v0 v2 / surfaceDenom v0 v1 v2 ∧
      w = 1 - u - v := by
  unfold surfaceWeights at h
  cases h0 : m.vertexAt (tri.vertices 0) with
  | error f => rw [h0] at h; cases h
  | ok v0 =>
    cases h1 : m.vertexAt (tri.vertices 1) with
    | error f => rw [h0, h1] at h; cases h
    | ok v1 =>
      cases h2 : m.vertexAt (tri.vertices 2) with
      | error f => rw [h0, h1, h2] at h; cases h
      | ok v2 =>
        rw [h0, h1, h2] at h
        simp only at h
        by_cases hd : |surfaceDenom v0 v1 v2| < SURFACE_EPS
        · unfold surfaceDenom at hd
          simp only [hd, if_true] at h
          cases h
        · have hne : surfaceDenom v0 v1 v2 ≠ 0 := by
            intro h0
            rw [h0] at hd
            unfold SURFACE_EPS at hd
            norm_num at hd
          unfold surfaceDenom at hd hne
          simp only [hd, if_false, fdiv, hne] at h
          have h3 := Except.ok.inj h
          have h4 := Option.some.inj h3
          simp only [Prod.mk.injEq] at h4
          obtain ⟨hu, hv, hw⟩ := h4
          refine ⟨v0, v1, v2, rfl, rfl, rfl, ?_, ?_, ?_, ?_⟩
          · exact not_lt.mp hd
          · rw [← hu]; rfl
          · rw [← hv]; rfl
          · rw [← hw, ← hu, ← hv]

/-- When the loop of `findTriangle` returns an index other than `-1`, that index is the
position of a triangle for which the loop body computed weights, all at least `-0.01`. -/
theorem findTriangleLoop_found (m : Mesh) (point : Vec3) :
    ∀ (l : List Triangle) (start : Nat) (i : Int),
      findTriangleLoop m point l start = .ok i → i ≠ -1 →
      ∃ (k : Nat) (tri : Triangle) (u v w : ℚ), l.get? k = some tri ∧
        i = ((start + k : Nat) : Int) ∧
        surfaceWeights m point tri = .ok (some (u, v, w)) ∧
        SURFACE_TOL ≤ u ∧ SURFACE_TOL ≤ v ∧ SURFACE_TOL ≤ w := by
  intro l
  induction l with
  | nil =>
    intro start i h hi
    rw [findTriangleLoop] at h
    cases h
    exact absurd rfl hi
  | cons tri rest ih =>
    intro start i h hi
    rw [findTriangleLoop] at h
    have next : findTriangleLoop m point rest (start + 1) = .ok i →
        ∃ (k : Nat) (tri1 : Triangle) (u v w : ℚ), (tri :: rest).get? k = some tri1 ∧
          i = ((start + k : Nat) : Int) ∧
          surfaceWeights m point tri1 = .ok (some (u, v, w)) ∧
          SURFACE_TOL ≤ u ∧ SURFACE_TOL ≤ v ∧ SURFACE_TOL ≤ w := by
      intro h2
      obtain ⟨k, tri1, u, v, w, hk, hik, hw, hacc⟩ := ih (start + 1) i h2 hi
      refine ⟨k + 1, tri1, u, v, w, ?_, ?_, hw, hacc⟩
      · simpa using hk
      · rw [hik]
        congr 1
        omega
    cases hw : surfaceWeights m point tri with
    | error f => rw [hw] at h; cases h
    | ok o =>
      cases o with
      | none =>
        rw [hw] at h
        exact next h
      | some uvw =>
        obtain ⟨u, v, w⟩ := uvw
        rw [hw] at h
        simp only at h
        by_cases hacc : u ≥ SURFACE_TOL ∧ v ≥ SURFACE_TOL ∧ w ≥ SURFACE_TOL
        · simp only [hacc, and_self, if_true] at h
          cases h
          exact ⟨0, tri, u, v, w, rfl, rfl, hw, hacc.1, hacc.2.1, hacc.2.2⟩
        · simp only [hacc, if_false] at h
          exact next h

/-- A triangle found by `findTriangle` is in range, its vertices are in range, and its
determinant has magnitude at least `1e-6`. -/
theorem findTriangle_found (m : Mesh) (point : Vec3) (i : Int)
    (h : TriangleSurface.findTriangle m point = .ok i) (hi : i ≠ -1) :
    m.validTriangle i ∧
    ∃ v0 v1 v2 : Vec3, m.triangleVertices i = .ok (v0, v1, v2) ∧
      SURFACE_EPS ≤ |surfaceDenom v0 v1 v2| := by
  obtain ⟨k, tri, u, v, w, hk, hik, hw, -⟩ :=
    findTriangleLoop_found m point m.triangles 0 i h hi
  obtain ⟨v0, v1, v2, h0, h1, h2, hd, -⟩ := surfaceWeights_some m point tri u v w hw
  rw [Nat.zero_add] at hik
  have hat : m.triangleAt i = .ok tri := by
    unfold Mesh.triangleAt
    rw [vecAt_ok_iff, hik]
    exact ⟨Int.natCast_nonneg k, by simpa using hk⟩
  exact ⟨(vecAt_ok_valid m.triangles i tri hat).1, v0, v1, v2,
    (triangleVertices_ok_iff m i v0 v1 v2).mpr ⟨tri, hat, h0, h1, h2⟩, hd⟩

theorem getNormal_of_vertices (sqrtF : ℚ → ℚ) (m : Mesh) (i : Int) (v0 v1 v2 : Vec3)
    (hi : m.validTriangle i) (hv : m.triangleVertices i = .ok (v0, v1, v2)) :
    TriangleSurface.getNormal sqrtF m i =
      .ok (Vector3d.normalize sqrtF (cross (v1.sub v0) (v2.sub v0))) := by
  unfold TriangleSurface.getNormal
  have h1 : ¬ (i < 0 ∨ i ≥ (m.triangles.length : Int)) := by
    unfold Mesh.validTriangle at hi
    omega
  simp only [h1, if_false, hv]

/-- The normal `getNormal` computes for a triangle that is flat at `z = 0` and not
collinear, with the square root exact on the squared length of the cross product: it is
`(0, 0, 1)` or `(0, 0, -1)`. -/
theorem getNormal_flat (sqrtF : ℚ → ℚ) (m : Mesh) (i : Int) (v0 v1 v2 : Vec3)
    (hi : m.validTriangle i) (hv : m.triangleVertices i = .ok (v0, v1, v2))
    (hz : v0.z = 0 ∧ v1.z = 0 ∧ v2.z = 0) (hd : surfaceDenom v0 v1 v2 ≠ 0)
    (hsq : SqrtExactAt sqrtF
      (dot (cross (v1.sub v0) (v2.sub v0)) (cross (v1.sub v0) (v2.sub v0)))) :
    ∃ n : Vec3, TriangleSurface.getNormal sqrtF m i = .ok n ∧
      n.x = 0 ∧ n.y = 0 ∧ n.z * n.z = 1 := by
  refine ⟨_, getNormal_of_vertices sqrtF m i v0 v1 v2 hi hv, ?_⟩
  obtain ⟨hz0, hz1, hz2⟩ := hz
  obtain ⟨hnn, hsq2⟩ := hsq
  have hlen : Vector3d.length sqrtF (cross (v1.sub v0) (v2.sub v0)) =
      sqrtF (dot (cross (v1.sub v0) (v2.sub v0)) (cross (v1.sub v0) (v2.sub v0))) := rfl
  have hcx : (cross (v1.sub v0) (v2.sub v0)).x = 0 := by
    simp only [cross, Vec3.sub, hz0, hz1, hz2]
    ring
  have hcy : (cross (v1.sub v0) (v2.sub v0)).y = 0 := by
    simp only [cross, Vec3.sub, hz0, hz1, hz2]
    ring
  have hcz : (cross (v1.sub v0) (v2.sub v0)).z = surfaceDenom v0 v1 v2 := by
    simp only [cross, Vec3.sub, surfaceDenom]
    ring
  have hdot : dot (cross (v1.sub v0) (v2.sub v0)) (cross (v1.sub v0) (v2.sub v0)) =
      surfaceDenom v0 v1 v2 * surfaceDenom v0 v1 v2 := by
    unfold dot
    rw [hcx, hcy, hcz]
    ring
  have hLne : sqrtF (dot (cross (v1.sub v0) (v2.sub v0)) (cross (v1.sub v0) (v2.sub v0)))
      ≠ 0 := by
    intro h0
    rw [h0, hdot, zero_mul] at hsq2
    exact hd (mul_self_eq_zero.mp hsq2.symm)
  have hLpos : 0 < sqrtF (dot (cross (v1.sub v0) (v2.sub v0))
      (cross (v1.sub v0) (v2.sub v0))) := lt_of_le_of_ne hnn (Ne.symm hLne)
  unfold Vector3d.normalize
  rw [hlen]
  simp only [gt_iff_lt, hLpos, if_true, hcx, hcy, hcz, zero_div, true_and]
  rw [div_mul_div_comm, hsq2, hdot]
  exact div_self (mul_ne_zero hd hd)

theorem slopeAccel_flat (n : Vec3) (hx : n.x = 0) (hy : n.y = 0) (hz : n.z * n.z = 1) :
    slopeAccel n = ⟨0, 0, 0⟩ := by
  have habs : |n.z| = 1 := by
    have h3 : (n.z - 1) * (n.z + 1) = 0 := by linear_combination hz
    rcases mul_eq_zero.mp h3 with h4 | h4
    · have : n.z = 1 := by linarith
      rw [this]
      norm_num
    · have : n.z = -1 := by linarith
      rw [this]
      norm_num
  have hnz : slopeNz n = n.z := by
    apply slopeNz_of_ge
    rw [habs]
    unfold SURFACE_EPS
    norm_num
  unfold slopeAccel
  rw [hnz, hx, hy, hz]
  simp only [mul_zero, zero_div, sub_self]

/-- The `glm` normalisation of a vertical vector is vertical. -/
theorem normalize_vertical (sqrtF : ℚ → ℚ) (z : ℚ) (u : Vec3)
    (h : normalize sqrtF ⟨0, 0, z⟩ = .ok u) : u.x = 0 ∧ u.y = 0 := by
  unfold normalize Vec3.div at h
  by_cases hL : length sqrtF ⟨0, 0, z⟩ = 0
  · simp only [hL, if_true] at h
    rw [← Except.ok.inj h]
    exact ⟨rfl, rfl⟩
  · simp only [hL, if_false] at h
    rw [← Except.ok.inj h]
    simp only [zero_div, and_self]

theorem add_zero_smul (v : Vec3) (dt : ℚ) : v.add ((⟨0, 0, 0⟩ : Vec3).smul dt) = v := by
  simp only [Vec3.add, Vec3.smul, zero_mul, add_zero]

/-- The transition response leaves a zero velocity as it is. -/
theorem transitionResponse_zero (sqrtF : ℚ → ℚ) (oldNormal normal : Vec3) :
    transitionResponse sqrtF oldNormal normal ⟨0, 0, 0⟩ = ⟨0, 0, 0⟩ := by
  unfold transitionResponse
  have h : ¬ dot (⟨0, 0, 0⟩ : Vec3)
      (Vector3d.normalize sqrtF (cross oldNormal normal)) < 0 := by
    simp only [dot, zero_mul, add_zero, lt_self_iff_false, not_false_eq_true]
  simp only [h, if_false]

/-- From the recorded normal `(0, 0, 1)` of a freshly constructed ball, the transition
response onto a triangle with normal `(0, sn, cs)` leaves a velocity without x component
as it is: the collision axis is along x. -/
theorem transitionResponse_from_up (sqrtF : ℚ → ℚ) (sn cs : ℚ) (vel : Vec3)
    (hx : vel.x = 0) :
    transitionResponse sqrtF ⟨0, 0, 1⟩ ⟨0, sn, cs⟩ vel = vel := by
  unfold transitionResponse
  have h : ¬ dot vel (Vector3d.normalize sqrtF (cross ⟨0, 0, 1⟩ ⟨0, sn, cs⟩)) < 0 := by
    unfold Vector3d.normalize
    simp only [cross, dot]
    split
    · simp only [hx, mul_zero, zero_mul, sub_zero, sub_self, zero_div, add_zero,
        lt_self_iff_false, not_false_eq_true]
    · simp only [hx, mul_zero, zero_mul, sub_zero, sub_self, add_zero,
        lt_self_iff_false, not_false_eq_true]
  simp only [h, if_false]

/-! ## `TriangleSurface` and the divisions of `move`: lemmas -/

theorem slopeNz_ge (normal : Vec3) : SURFACE_EPS ≤ |slopeNz normal| := by
  unfold slopeNz
  split
  · exact le_abs_self _
  · next h => exact not_lt.mp h

theorem slopeNz_of_lt (normal : Vec3) (h : |normal.z| < SURFACE_EPS) :
    slopeNz normal = SURFACE_EPS := by
  unfold slopeNz
  simp only [h, if_true]

theorem surfaceWeights_error (m : Mesh) (point : Vec3) (tri : Triangle) (f : Fault)
    (h : surfaceWeights m point tri = .error f) : f = Fault.indexOutOfRange := by
  unfold surfaceWeights at h
  cases h0 : m.vertexAt (tri.vertices 0) with
  | error f0 =>
    rw [h0] at h
    cases h
    exact vecAt_error _ _ _ h0
  | ok v0 =>
    cases h1 : m.vertexAt (tri.vertices 1) with
    | error f1 =>
      rw [h0, h1] at h
      cases h
      exact vecAt_error _ _ _ h1
    | ok v1 =>
      cases h2 : m.vertexAt (tri.vertices 2) with
      | error f2 =>
        rw [h0, h1, h2] at h
        cases h
        exact vecAt_error _ _ _ h2
      | ok v2 =>
        rw [h0, h1, h2] at h
        simp only at h
        by_cases hd : |surfaceDenom v0 v1 v2| < SURFACE_EPS
        · unfold surfaceDenom at hd
          simp only [hd, if_true] at h
          cases h
        · have hne : surfaceDenom v0 v1 v2 ≠ 0 := by
            intro h0
            rw [h0] at hd
            unfold SURFACE_EPS at hd
            norm_num at hd
          unfold surfaceDenom at hd hne
          simp only [hd, if_false, fdiv, hne] at h
          cases h

theorem findTriangleLoop_error (m : Mesh) (point : Vec3) :
    ∀ (l : List Triangle) (start : Nat) (f : Fault),
      findTriangleLoop m point l start = .error f → f = Fault.indexOutOfRange := by
  intro l
  induction l with
  | nil =>
    intro start f h
    rw [findTriangleLoop] at h
    cases h
  | cons tri rest ih =>
    intro start f h
    rw [findTriangleLoop] at h
    cases hw : surfaceWeights m point tri with
    | error f1 =>
      rw [hw] at h
      cases h
      exact surfaceWeights_error m point tri _ hw
    | ok o =>
      cases o with
      | none =>
        rw [hw] at h
        exact ih (start + 1) f h
      | some uvw =>
        obtain ⟨u, v, w⟩ := uvw
        rw [hw] at h
        simp only at h
        split at h
        · cases h
        · exact ih (start + 1) f h

theorem getNormal_error (sqrtF : ℚ → ℚ) (m : Mesh) (i : Int) (f : Fault)
    (h : TriangleSurface.getNormal sqrtF m i = .error f) : f = Fault.indexOutOfRange := by
  unfold TriangleSurface.getNormal at h
  split at h
  · cases h
  · cases hv : m.triangleVertices i with
    | error f1 =>
      rw [hv] at h
      cases h
      exact triangleVertices_error m i _ hv
    | ok vs =>
      obtain ⟨v0, v1, v2⟩ := vs
      rw [hv] at h
      cases h

/-- The only fault `move` can end in is an out-of-range index. -/
theorem move_error (sqrtF : ℚ → ℚ) (b : RollingBall) (dt : ℚ) (f : Fault)
    (h : RollingBall.move sqrtF b dt = .error f) : f = Fault.indexOutOfRange := by
  cases hs : b.mSurface with
  | none =>
    unfold RollingBall.move at h
    rw [hs] at h
    cases h
  | some surface =>
    cases hf : TriangleSurface.findTriangle surface b.mPosition with
    | error f1 =>
      unfold RollingBall.move at h
      rw [hs] at h
      simp only [hf] at h
      cases h
      exact findTriangleLoop_error surface b.mPosition _ 0 _ hf
    | ok i =>
      by_cases hi : i = -1
      · rw [hi] at hf
        rw [move_offSurface sqrtF b surface dt hs hf] at h
        cases h
      · cases hn : TriangleSurface.getNormal sqrtF surface i with
        | error f1 =>
          unfold RollingBall.move at h
          rw [hs] at h
          simp only [hf, hi, if_false, hn] at h
          cases h
          exact getNormal_error sqrtF surface i _ hn
        | ok n =>
          rw [move_moved sqrtF b surface dt i n hs hf hi hn] at h
          cases h

/-! ## Surface height and the two weight formulas: lemmas -/

theorem getSurfaceHeight_eq (m : Mesh) (pos : Vec3) (t : Int) (v0 v1 v2 b : Vec3)
    (hv : m.triangleVertices t = .ok (v0, v1, v2))
    (hb : getBarycentricCoordinates m ⟨pos.x, pos.y, 0⟩ t = .ok b) :
    getSurfaceHeight m pos t = .ok (b.x * v0.z + b.y * v1.z + b.z * v2.z) := by
  unfold getSurfaceHeight
  rw [hv]
  simp only [hb]

/-- The weights do not depend on the z coordinate of the point. -/
theorem baryOfVertices_point_xy (P Q v0 v1 v2 : Vec3) (h : XYEq P Q) :
    baryOfVertices P v0 v1 v2 = baryOfVertices Q v0 v1 v2 := by
  obtain ⟨hx, hy⟩ := h
  unfold baryOfVertices
  simp only [hx, hy]

/-- The weights do not depend on the z coordinates of the vertices. -/
theorem baryOfVertices_vertices_xy (P v0 v1 v2 w0 w1 w2 : Vec3)
    (h0 : XYEq v0 w0) (h1 : XYEq v1 w1) (h2 : XYEq v2 w2) :
    baryOfVertices P v0 v1 v2 = baryOfVertices P w0 w1 w2 := by
  obtain ⟨h0x, h0y⟩ := h0
  obtain ⟨h1x, h1y⟩ := h1
  obtain ⟨h2x, h2y⟩ := h2
  unfold baryOfVertices
  simp only [h0x, h0y, h1x, h1y, h2x, h2y]

/-- The determinant of `findTriangle` is twice the signed XY area. -/
theorem surfaceDenom_eq (v0 v1 v2 : Vec3) : surfaceDenom v0 v1 v2 = orientXY v0 v1 v2 := by
  unfold surfaceDenom orientXY
  ring

theorem surfaceNumU_eq (P v1 v2 : Vec3) : surfaceNumU P v1 v2 = orientXY v1 v2 P := by
  unfold surfaceNumU orientXY
  ring

theorem surfaceNumV_eq (P v0 v2 : Vec3) : surfaceNumV P v0 v2 = orientXY v2 v0 P := by
  unfold surfaceNumV orientXY
  ring

/-- The three quotients of `findTriangle` are the three weights of
`getBarycentricCoordinates`, for a triangle whose XY projection is not collinear. -/
theorem surface_weights_eq_bary (P v0 v1 v2 : Vec3) (h : orientXY v0 v1 v2 ≠ 0) :
    surfaceNumU P v1 v2 / surfaceDenom v0 v1 v2 =
      1 - baryNumV P v0 v1 v2 / baryDenom v0 v1 v2
        - baryNumW P v0 v1 v2 / baryDenom v0 v1 v2 ∧
    surfaceNumV P v0 v2 / surfaceDenom v0 v1 v2 =
      baryNumV P v0 v1 v2 / baryDenom v0 v1 v2 ∧
    1 - surfaceNumU P v1 v2 / surfaceDenom v0 v1 v2
      - surfaceNumV P v0 v2 / surfaceDenom v0 v1 v2 =
      baryNumW P v0 v1 v2 / baryDenom v0 v1 v2 := by
  rw [surfaceDenom_eq, surfaceNumU_eq, surfaceNumV_eq, baryNumV_eq, baryNumW_eq,
    baryDenom_eq_sq, mul_div_mul_left _ _ h, mul_div_mul_left _ _ h]
  have hsum : orientXY v1 v2 P / orientXY v0 v1 v2 + orientXY v2 v0 P / orientXY v0 v1 v2 +
      orientXY v0 v1 P / orientXY v0 v1 v2 = 1 := by
    rw [← add_div, ← add_div, orientXY_sum P v0 v1 v2, div_self h]
  refine ⟨?_, rfl, ?_⟩
  · linarith
  · linarith

theorem surfaceWeights_of_vertices (m : Mesh) (point : Vec3) (tri : Triangle)
    (v0 v1 v2 : Vec3)
    (h0 : m.vertexAt (tri.vertices 0) = .ok v0) (h1 : m.vertexAt (tri.vertices 1) = .ok v1)
    (h2 : m.vertexAt (tri.vertices 2) = .ok v2) :
    surfaceWeights m point tri =
      if |surfaceDenom v0 v1 v2| < SURFACE_EPS then .ok none
      else .ok (some (surfaceNumU point v1 v2 / surfaceDenom v0 v1 v2,
        surfaceNumV point v0 v2 / surfaceDenom v0 v1 v2,
        1 - surfaceNumU point v1 v2 / surfaceDenom v0 v1 v2
          - surfaceNumV point v0 v2 / surfaceDenom v0 v1 v2)) := by
  unfold surfaceWeights
  rw [h0, h1, h2]
  simp only
  by_cases hd : |surfaceDenom v0 v1 v2| < SURFACE_EPS
  · rw [if_pos hd]
    unfold surfaceDenom at hd
    simp only [hd, if_true]
  · rw [if_neg hd]
    have hne : surfaceDenom v0 v1 v2 ≠ 0 := by
      intro h0
      rw [h0] at hd
      unfold SURFACE_EPS at hd
      norm_num at hd
    unfold surfaceDenom at hd hne
    simp only [hd, if_false, fdiv, hne]
    rfl

/-! ## Normalisation: lemmas -/

theorem dot_self_ne_zero (c : Vec3) (h : c ≠ ⟨0, 0, 0⟩) : dot c c ≠ 0 := by
  intro h0
  apply h
  have hx : c.x = 0 := by
    have : c.x * c.x + c.y * c.y + c.z * c.z = 0 := h0
    nlinarith [mul_self_nonneg c.x, mul_self_nonneg c.y, mul_self_nonneg c.z]
  have hy : c.y = 0 := by
    have : c.x * c.x + c.y * c.y + c.z * c.z = 0 := h0
    nlinarith [mul_self_nonneg c.x, mul_self_nonneg c.y, mul_self_nonneg c.z]
  have hz : c.z = 0 := by
    have : c.x * c.x + c.y * c.y + c.z * c.z = 0 := h0
    nlinarith [mul_self_nonneg c.x, mul_self_nonneg c.y, mul_self_nonneg c.z]
  cases c
  simp only at hx hy hz
  rw [hx, hy, hz]

/-- With the square root exact on its squared length, a non-zero vector has a positive
computed length. -/
theorem sqrt_pos_of_exact (sqrtF : ℚ → ℚ) (c : Vec3) (h : dot c c ≠ 0)
    (hsq : SqrtExactAt sqrtF (dot c c)) : 0 < sqrtF (dot c c) := by
  obtain ⟨h0, h1⟩ := hsq
  refine lt_of_le_of_ne h0 ?_
  intro hz
  rw [← hz, zero_mul] at h1
  exact h h1.symm

/-- The quotient of a non-zero vector by its exact length has squared length 1. -/
theorem dot_div_length (sqrtF : ℚ → ℚ) (c : Vec3) (h : dot c c ≠ 0)
    (hsq : SqrtExactAt sqrtF (dot c c)) :
    dot (⟨c.x / sqrtF (dot c c), c.y / sqrtF (dot c c), c.z / sqrtF (dot c c)⟩ : Vec3)
      ⟨c.x / sqrtF (dot c c), c.y / sqrtF (dot c c), c.z / sqrtF (dot c c)⟩ = 1 := by
  have hpos := sqrt_pos_of_exact sqrtF c h hsq
  have hne : sqrtF (dot c c) ≠ 0 := ne_of_gt hpos
  have hsq2 := hsq.2
  have hd : dot c c = c.x * c.x + c.y * c.y + c.z * c.z := rfl
  show c.x / sqrtF (dot c c) * (c.x / sqrtF (dot c c)) +
    c.y / sqrtF (dot c c) * (c.y / sqrtF (dot c c)) +
    c.z / sqrtF (dot c c) * (c.z / sqrtF (dot c c)) = 1
  field_simp
  rw [hsq2, hd]

/-- `Vector3d::normalize` of a non-zero vector, with the square root exact on its squared
length, is the quotient by the length. -/
theorem vector3d_normalize_eq (sqrtF : ℚ → ℚ) (c : Vec3) (h : dot c c ≠ 0)
    (hsq : SqrtExactAt sqrtF (dot c c)) :
    Vector3d.normalize sqrtF c =
      ⟨c.x / sqrtF (dot c c), c.y / sqrtF (dot c c), c.z / sqrtF (dot c c)⟩ := by
  have hpos := sqrt_pos_of_exact sqrtF c h hsq
  have hlen : Vector3d.length sqrtF c = sqrtF (dot c c) := rfl
  unfold Vector3d.normalize
  rw [hlen]
  simp only [gt_iff_lt, hpos, if_true]

/-- The `glm` normalisation of a non-zero vector, with the square root exact on its squared
length, is the quotient by the length. -/
theorem glm_normalize_eq (sqrtF : ℚ → ℚ) (c : Vec3) (h : dot c c ≠ 0)
    (hsq : SqrtExactAt sqrtF (dot c c)) :
    normalize sqrtF c =
      .ok ⟨c.x / sqrtF (dot c c), c.y / sqrtF (dot c c), c.z / sqrtF (dot c c)⟩ := by
  have hne : sqrtF (dot c c) ≠ 0 := ne_of_gt (sqrt_pos_of_exact sqrtF c h hsq)
  unfold normalize length Vec3.div
  simp only [hne, if_false]

/-- Halving the component of `v` along a unit vector `c`. -/
theorem damp_along_unit (v c : Vec3) (hc : dot c c = 1) :
    dot (v.sub ((c.smul (dot v c)).smul (1 / 2))) c = 1 / 2 * dot v c ∧
    ∀ t : Vec3, dot t c = 0 →
      dot (v.sub ((c.smul (dot v c)).smul (1 / 2))) t = dot v t := by
  have hn : c.x * c.x + c.y * c.y + c.z * c.z = 1 := hc
  refine ⟨?_, ?_⟩
  · simp only [dot, Vec3.sub, Vec3.smul]
    linear_combination (-(1 / 2) * (v.x * c.x + v.y * c.y + v.z * c.z)) * hn
  · intro t ht
    have ht2 : t.x * c.x + t.y * c.y + t.z * c.z = 0 := ht
    simp only [dot, Vec3.sub, Vec3.smul]
    linear_combination (-(1 / 2) * (v.x * c.x + v.y * c.y + v.z * c.z)) * ht2

/-! ## The built-in simulation: lemmas -/

theorem sqrtExactAt_sq (sqrtF : ℚ → ℚ) (a : ℚ) (ha : 0 ≤ a)
    (h : SqrtExactAt sqrtF (a * a)) : sqrtF (a * a) = a := by
  obtain ⟨h1, h2⟩ := h
  have h3 : (sqrtF (a * a) - a) * (sqrtF (a * a) + a) = 0 := by linear_combination h2
  rcases mul_eq_zero.mp h3 with h4 | h4
  · linarith
  · linarith

theorem builtin_vertices_zero :
    initializeTriangulation.triangleVertices 0 = .ok (⟨0, 0, 0⟩, ⟨2, 0, 0⟩, ⟨0, 2, 0⟩) := by
  decide!

/-- The weights in triangle 0 of the built-in mesh of a point on the line `y = 0.5`. -/
theorem builtin_bary (x z : ℚ) :
    getBarycentricCoordinates initializeTriangulation ⟨x, 1 / 2, z⟩ 0
      = .ok ⟨3 / 4 - x / 2, x / 2, 1 / 4⟩ := by
  rw [getBarycentricCoordinates_eq _ _ _ _ _ _ builtin_vertices_zero,
    baryOfVertices_regular _ _ _ _ (by decide!)]
  have hd : baryDenom ⟨0, 0, 0⟩ ⟨2, 0, 0⟩ ⟨0, 2, 0⟩ = 16 := by decide!
  have hv : baryNumV ⟨x, 1 / 2, z⟩ ⟨0, 0, 0⟩ ⟨2, 0, 0⟩ ⟨0, 2, 0⟩ = 8 * x := by
    simp only [baryNumV, dot]
    ring
  have hw : baryNumW ⟨x, 1 / 2, z⟩ ⟨0, 0, 0⟩ ⟨2, 0, 0⟩ ⟨0, 2, 0⟩ = 4 := by
    simp only [baryNumW, dot]
    ring
  rw [hd, hv, hw]
  simp only [Except.ok.injEq, Vec3.mk.injEq]
  refine ⟨by ring, by ring, by norm_num⟩

/-- On the line `y = 0.5` at `x >= 1` the walk seeded at triangle 0 of the built-in mesh
stops in its first iteration and returns triangle 0: the point is accepted, or the
smallest weight is `u` and `neighbors[0]` is `-1`. -/
theorem builtin_walk (x z : ℚ) (hx : 1 ≤ x) :
    walkFrom initializeTriangulation ⟨x, 1 / 2, z⟩ 0
      = .ok ⟨0, baryAccepted ⟨3 / 4 - x / 2, x / 2, 1 / 4⟩, 0⟩ := by
  unfold walkFrom
  cases hacc : baryAccepted ⟨3 / 4 - x / 2, x / 2, 1 / 4⟩ with
  | true =>
    exact walkLoop_found _ _ 99 0 0 (walkBody_found _ _ 0 _ (builtin_bary x z) hacc)
  | false =>
    have hedge : nextEdgeOf ⟨3 / 4 - x / 2, x / 2, 1 / 4⟩ = 0 := by
      have h1 : ¬ (x / 2 < 3 / 4 - x / 2) := by
        intro h
        linarith
      have h2 : ¬ ((1 : ℚ) / 4 < 3 / 4 - x / 2) := by
        intro h
        linarith
      unfold nextEdgeOf
      simp only [h1, h2, if_false]
    refine walkLoop_boundary _ _ 99 0 0
      (walkBody_boundary _ _ 0 _ ⟨0, 1, 3, -1, 1, -1⟩ (builtin_bary x z) hacc (by decide!) ?_)
    rw [hedge]
    rfl

theorem builtin_normal (sqrtF : ℚ → ℚ) (h16 : SqrtExactAt sqrtF 16) :
    getTriangleNormal sqrtF initializeTriangulation 0 = .ok ⟨0, 0, 1⟩ := by
  have hs : sqrtF 16 = 4 := by
    have h := sqrtExactAt_sq sqrtF 4 (by norm_num) (by norm_num; exact h16)
    norm_num at h
    exact h
  have hc : triangleCross ⟨0, 0, 0⟩ ⟨2, 0, 0⟩ ⟨0, 2, 0⟩ = ⟨0, 0, 4⟩ := by decide!
  have hd : dot (⟨0, 0, 4⟩ : Vec3) ⟨0, 0, 4⟩ = 16 := by decide!
  rw [getTriangleNormal_eq sqrtF _ 0 _ _ _ builtin_vertices_zero, hc]
  unfold normalize length Vec3.div
  rw [hd, hs]
  norm_num

/-- The surface height over triangle 0 of the built-in mesh is 0 everywhere. -/
theorem builtin_height (pos : Vec3) :
    getSurfaceHeight initializeTriangulation pos 0 = .ok 0 := by
  obtain ⟨b, hb⟩ := baryOfVertices_ok ⟨pos.x, pos.y, 0⟩ ⟨0, 0, 0⟩ ⟨2, 0, 0⟩ ⟨0, 2, 0⟩
  rw [getSurfaceHeight_eq _ pos 0 _ _ _ b builtin_vertices_zero
    ((getBarycentricCoordinates_eq _ _ 0 _ _ _ builtin_vertices_zero).trans hb)]
  simp only [mul_zero, add_zero]

/-- The integration of one step of the built-in simulation at `(x, 0.5, 0.3)`, `x >= 1`,
with velocity `(0.1, 0, 0)`. -/
theorem builtin_integrate (sqrtF : ℚ → ℚ) (h16 : SqrtExactAt sqrtF 16)
    (h1 : SqrtExactAt sqrtF 1) (x : ℚ) (hx : 1 ≤ x) :
    integrate sqrtF initializeTriangulation ⟨⟨x, 1 / 2, 3 / 10⟩, ⟨1 / 10, 0, 0⟩, 0⟩
      = .ok ⟨0, ⟨0, 0, 1⟩, ⟨0, 0, 1⟩, ⟨0, 0, 0⟩, ⟨1 / 10, 0, 0⟩,
          ⟨x + 1 / 1000, 1 / 2, 3 / 10⟩⟩ := by
  have hw := findContainingTriangle_of_walkFrom initializeTriangulation
    ⟨⟨x, 1 / 2, 3 / 10⟩, ⟨1 / 10, 0, 0⟩, 0⟩ ⟨x, 1 / 2, 3 / 10⟩ _
    (builtin_walk x (3 / 10) hx)
  have hn := builtin_normal sqrtF h16
  have hu : normalize sqrtF ⟨0, 0, 1⟩ = .ok ⟨0, 0, 1⟩ :=
    normalize_of_unit sqrtF _ (by decide!) (sqrtExactAt_one sqrtF h1)
  unfold integrate
  simp only [hw, hn, hu]
  simp only [Except.ok.injEq, Integrated.mk.injEq, Vec3.mk.injEq, Vec3.add, Vec3.sub,
    Vec3.smul, dot, G, FRICTION, TIME_STEP, true_and]
  norm_num

/-- One step of the built-in simulation at `(x, 0.5, 0.3)`, `x >= 1`. -/
theorem builtin_updatePhysics (sqrtF : ℚ → ℚ) (h16 : SqrtExactAt sqrtF 16)
    (h1 : SqrtExactAt sqrtF 1) (x : ℚ) (hx : 1 ≤ x) :
    updatePhysics sqrtF initializeTriangulation ⟨⟨x, 1 / 2, 3 / 10⟩, ⟨1 / 10, 0, 0⟩, 0⟩
      = .ok ⟨⟨x + 1 / 1000, 1 / 2, 3 / 10⟩, ⟨1 / 10, 0, 0⟩, 0⟩ := by
  rw [updatePhysics_eq_clamp, builtin_integrate sqrtF h16 h1 x hx]
  simp only [builtin_height]
  unfold clampToSurface BALL_RADIUS
  norm_num

theorem builtin_updatePhysicsN (sqrtF : ℚ → ℚ) (h16 : SqrtExactAt sqrtF 16)
    (h1 : SqrtExactAt sqrtF 1) :
    ∀ (n : Nat) (x : ℚ), 1 ≤ x →
      updatePhysicsN sqrtF initializeTriangulation n
          ⟨⟨x, 1 / 2, 3 / 10⟩, ⟨1 / 10, 0, 0⟩, 0⟩
        = .ok ⟨⟨x + n / 1000, 1 / 2, 3 / 10⟩, ⟨1 / 10, 0, 0⟩, 0⟩ := by
  intro n
  induction n with
  | zero =>
    intro x _
    rw [updatePhysicsN]
    simp only [Nat.cast_zero, zero_div, add_zero]
  | succ n ih =>
    intro x hx
    rw [updatePhysicsN, builtin_updatePhysics sqrtF h16 h1 x hx]
    simp only
    rw [ih (x + 1 / 1000) (by linarith)]
    simp only [Except.ok.injEq, BallState.mk.injEq, Vec3.mk.injEq, and_true, true_and]
    push_cast
    ring

theorem builtin_speed (sqrtF : ℚ → ℚ) (h100 : SqrtExactAt sqrtF (1 / 100)) :
    length sqrtF ⟨1 / 10, 0, 0⟩ = 1 / 10 := by
  have hd : dot (⟨1 / 10, 0, 0⟩ : Vec3) ⟨1 / 10, 0, 0⟩ = 1 / 100 := by decide!
  have h := sqrtExactAt_sq sqrtF (1 / 10) (by norm_num) (by norm_num; exact h100)
  unfold length
  rw [hd]
  norm_num at h
  exact h

theorem builtin_runLoop (sqrtF : ℚ → ℚ) (h16 : SqrtExactAt sqrtF 16)
    (h1 : SqrtExactAt sqrtF 1) (h100 : SqrtExactAt sqrtF (1 / 100)) :
    ∀ (remaining i : Nat) (x : ℚ), 1 ≤ x →
      runLoop sqrtF initializeTriangulation remaining i
          ⟨⟨x, 1 / 2, 3 / 10⟩, ⟨1 / 10, 0, 0⟩, 0⟩
        = .ok (⟨⟨x + remaining / 1000, 1 / 2, 3 / 10⟩, ⟨1 / 10, 0, 0⟩, 0⟩, none) := by
  intro remaining
  induction remaining with
  | zero =>
    intro i x _
    rw [runLoop]
    simp only [Nat.cast_zero, zero_div, add_zero]
  | succ n ih =>
    intro i x hx
    have hsp : ¬ (length sqrtF ⟨1 / 10, 0, 0⟩ < 1 / 1000) := by
      rw [builtin_speed sqrtF h100]
      norm_num
    rw [runLoop, builtin_updatePhysics sqrtF h16 h1 x hx]
    simp only [hsp, if_false]
    rw [ih (i + 1) (x + 1 / 1000) (by linarith)]
    simp only [Except.ok.injEq, Prod.mk.injEq, BallState.mk.injEq, Vec3.mk.injEq, and_true,
      true_and]
    push_cast
    ring

/-! ## `TriangleSurface::findTriangle`: lemmas -/

theorem surfaceWeights_ok_of_valid (m : Mesh) (point : Vec3) (tri : Triangle)
    (h : ∀ j : Fin 3, m.validVertex (tri.vertices j)) :
    ∃ o, surfaceWeights m point tri = .ok o := by
  obtain ⟨v0, h0⟩ := vecAt_ok_of_valid m.vertices _ (h 0)
  obtain ⟨v1, h1⟩ := vecAt_ok_of_valid m.vertices _ (h 1)
  obtain ⟨v2, h2⟩ := vecAt_ok_of_valid m.vertices _ (h 2)
  rw [surfaceWeights_of_vertices m point tri v0 v1 v2 h0 h1 h2]
  split
  · exact ⟨_, rfl⟩
  · exact ⟨_, rfl⟩

/-- A triangle index passes the containment test exactly when the loop body accepts the
triangle stored there. -/
theorem surfaceContains_iff (m : Mesh) (point : Vec3) (k : Int) (tri : Triangle)
    (ht : m.triangleAt k = .ok tri) :
    SurfaceContains m point k ↔ SurfaceAccepts m point tri := by
  constructor
  · intro h
    unfold SurfaceContains at h
    cases hv : m.triangleVertices k with
    | error f => rw [hv] at h; exact absurd h id
    | ok vs =>
      obtain ⟨v0, v1, v2⟩ := vs
      rw [hv] at h
      simp only at h
      obtain ⟨hd, hu, hvv, hw⟩ := h
      obtain ⟨tri2, ht2, h0, h1, h2⟩ := (triangleVertices_ok_iff m k v0 v1 v2).mp hv
      rw [ht] at ht2
      have htri : tri = tri2 := Except.ok.inj ht2
      rw [← htri] at h0 h1 h2
      refine ⟨_, _, _, ?_, hu, hvv, hw⟩
      rw [surfaceWeights_of_vertices m point tri v0 v1 v2 h0 h1 h2, if_neg (not_lt.mpr hd)]
  · rintro ⟨u, v, w, hsw, hu, hv, hw⟩
    obtain ⟨v0, v1, v2, h0, h1, h2, hd, eu, ev, ew⟩ :=
      surfaceWeights_some m point tri u v w hsw
    have hvs : m.triangleVertices k = .ok (v0, v1, v2) :=
      (triangleVertices_ok_iff m k v0 v1 v2).mpr ⟨tri, ht, h0, h1, h2⟩
    unfold SurfaceContains
    rw [hvs]
    simp only
    rw [← eu, ← ev, ← ew]
    exact ⟨hd, hu, hv, hw⟩

/-- The weights computed by the loop body reconstruct the XY position of the point and
sum to 1. -/
theorem surfaceWeights_reconstruct (m : Mesh) (point : Vec3) (tri : Triangle) (u v w : ℚ)
    (h : surfaceWeights m point tri = .ok (some (u, v, w))) :
    ∃ v0 v1 v2 : Vec3, m.vertexAt (tri.vertices 0) = .ok v0 ∧
      m.vertexAt (tri.vertices 1) = .ok v1 ∧ m.vertexAt (tri.vertices 2) = .ok v2 ∧
      u * v0.x + v * v1.x + w * v2.x = point.x ∧
      u * v0.y + v * v1.y + w * v2.y = point.y ∧
      u + v + w = 1 := by
  obtain ⟨v0, v1, v2, h0, h1, h2, hd, eu, ev, ew⟩ := surfaceWeights_some m point tri u v w h
  have hne : surfaceDenom v0 v1 v2 ≠ 0 := by
    intro h0
    rw [h0] at hd
    unfold SURFACE_EPS at hd
    norm_num at hd
  refine ⟨v0, v1, v2, h0, h1, h2, ?_, ?_, ?_⟩
  · rw [ew, eu, ev]
    unfold surfaceNumU surfaceNumV
    unfold surfaceDenom at hne ⊢
    field_simp
    ring
  · rw [ew, eu, ev]
    unfold surfaceNumU surfaceNumV
    unfold surfaceDenom at hne ⊢
    field_simp
    ring
  · rw [ew]
    ring

/-- The loop of `findTriangle` over a list of triangles whose vertex indices are in range
ends without a fault: with `-1` when the loop body accepts none of them, and otherwise
with the position of the first one it accepts. -/
theorem findTriangleLoop_spec (m : Mesh) (point : Vec3) :
    ∀ (l : List Triangle) (start : Nat),
      (∀ tri ∈ l, ∀ j : Fin 3, m.validVertex (tri.vertices j)) →
      ∃ r : Int, findTriangleLoop m point l start = .ok r ∧
        ((r = -1 ∧ ∀ tri ∈ l, ¬ SurfaceAccepts m point tri) ∨
         (∃ (k : Nat) (tri : Triangle), l.get? k = some tri ∧
            r = ((start + k : Nat) : Int) ∧ SurfaceAccepts m point tri ∧
            ∀ (j : Nat) (tri2 : Triangle), j < k → l.get? j = some tri2 →
              ¬ SurfaceAccepts m point tri2)) := by
  intro l
  induction l with
  | nil =>
    intro start _
    exact ⟨-1, by rw [findTriangleLoop],
      Or.inl ⟨rfl, fun tri h => absurd h (List.not_mem_nil tri)⟩⟩
  | cons tri rest ih =>
    intro start hvalid
    have hrest : ∀ t ∈ rest, ∀ j : Fin 3, m.validVertex (t.vertices j) :=
      fun t ht => hvalid t (List.mem_cons_of_mem tri ht)
    obtain ⟨r, hr, hspec⟩ := ih (start + 1) hrest
    have next : findTriangleLoop m point (tri :: rest) start =
          findTriangleLoop m point rest (start + 1) →
        ¬ SurfaceAccepts m point tri →
        ∃ r : Int, findTriangleLoop m point (tri :: rest) start = .ok r ∧
          ((r = -1 ∧ ∀ t ∈ tri :: rest, ¬ SurfaceAccepts m point t) ∨
           (∃ (k : Nat) (t : Triangle), (tri :: rest).get? k = some t ∧
              r = ((start + k : Nat) : Int) ∧ SurfaceAccepts m point t ∧
              ∀ (j : Nat) (tri2 : Triangle), j < k → (tri :: rest).get? j = some tri2 →
                ¬ SurfaceAccepts m point tri2)) := by
      intro heq hnot
      refine ⟨r, heq.trans hr, ?_⟩
      rcases hspec with ⟨hm1, hall⟩ | ⟨k, tri1, hk, hrk, hacc, hlow⟩
      · left
        refine ⟨hm1, ?_⟩
        intro t ht
        rcases List.mem_cons.mp ht with h | h
        · rw [h]
          exact hnot
        · exact hall t h
      · right
        refine ⟨k + 1, tri1, by simpa using hk, ?_, hacc, ?_⟩
        · rw [hrk]
          congr 1
          omega
        · intro j tri2 hj hget
          cases j with
          | zero =>
            have h2 : tri = tri2 := by simpa using hget
            rw [← h2]
            exact hnot
          | succ j => exact hlow j tri2 (by omega) (by simpa using hget)
    obtain ⟨o, ho⟩ := surfaceWeights_ok_of_valid m point tri
      (hvalid tri (List.mem_cons_self tri rest))
    cases o with
    | none =>
      refine next ?_ ?_
      · rw [findTriangleLoop, ho]
      · rintro ⟨u, v, w, hsw, -⟩
        rw [ho] at hsw
        cases hsw
    | some uvw =>
      obtain ⟨u, v, w⟩ := uvw
      by_cases hacc : u ≥ SURFACE_TOL ∧ v ≥ SURFACE_TOL ∧ w ≥ SURFACE_TOL
      · refine ⟨(start : Int), ?_, Or.inr ⟨0, tri, rfl, rfl, ⟨u, v, w, ho, hacc⟩, ?_⟩⟩
        · rw [findTriangleLoop, ho]
          simp only [hacc, and_self, if_true]
        · intro j tri2 hj
          exact absurd hj (Nat.not_lt_zero j)
      · refine next ?_ ?_
        · rw [findTriangleLoop, ho]
          simp only [hacc, if_false]
        · rintro ⟨u1, v1, w1, hsw, hacc1⟩
          rw [ho] at hsw
          have h3 := Option.some.inj (Except.ok.inj hsw)
          simp only [Prod.mk.injEq] at h3
          obtain ⟨e1, e2, e3⟩ := h3
          rw [← e1, ← e2, ← e3] at hacc1
          exact hacc hacc1

/-- `TriangleSurface::findTriangle` on a mesh whose vertex indices are in range returns
`-1` when no index passes the containment test, and otherwise the lowest index that
passes it, together with the triangle stored there. -/
theorem findTriangle_spec (m : Mesh) (point : Vec3) (hvalid : m.VerticesInRange) :
    ∃ r : Int, TriangleSurface.findTriangle m point = .ok r ∧
      ((r = -1 ∧ ∀ k : Int, ¬ SurfaceContains m point k) ∨
       (∃ tri : Triangle, m.validTriangle r ∧ m.triangleAt r = .ok tri ∧
          SurfaceAccepts m point tri ∧ SurfaceContains m point r ∧
          ∀ k : Int, k < r → ¬ SurfaceContains m point k)) := by
  obtain ⟨r, hr, hspec⟩ := findTriangleLoop_spec m point m.triangles 0 hvalid
  refine ⟨r, hr, ?_⟩
  have hcontains : ∀ k : Int, SurfaceContains m point k →
      ∃ tri, m.triangleAt k = .ok tri ∧ SurfaceAccepts m point tri := by
    intro k hk
    cases hv : m.triangleVertices k with
    | error f =>
      unfold SurfaceContains at hk
      rw [hv] at hk
      exact absurd hk id
    | ok vs =>
      obtain ⟨v0, v1, v2⟩ := vs
      obtain ⟨tri, ht, -⟩ := (triangleVertices_ok_iff m k v0 v1 v2).mp hv
      exact ⟨tri, ht, (surfaceContains_iff m point k tri ht).mp hk⟩
  rcases hspec with ⟨hm1, hall⟩ | ⟨k, tri, hk, hrk, hacc, hlow⟩
  · left
    refine ⟨hm1, ?_⟩
    intro k hk
    obtain ⟨tri, ht, hacc⟩ := hcontains k hk
    exact hall tri (vecAt_ok_valid m.triangles k tri ht).2 hacc
  · right
    rw [Nat.zero_add] at hrk
    have hat : m.triangleAt r = .ok tri := by
      unfold Mesh.triangleAt
      rw [vecAt_ok_iff, hrk]
      exact ⟨Int.natCast_nonneg k, by simpa using hk⟩
    refine ⟨tri, (vecAt_ok_valid m.triangles r tri hat).1, hat, hacc,
      (surfaceContains_iff m point r tri hat).mpr hacc, ?_⟩
    intro k1 hlt hk1
    obtain ⟨tri1, ht1, hacc1⟩ := hcontains k1 hk1
    have h1 := (vecAt_ok_iff m.triangles k1 tri1).mp ht1
    exact hlow k1.toNat tri1 (by omega) h1.2 hacc1

/-! ## Point location and the z coordinates: lemmas -/

theorem get?_forall₂ {α : Type} (R : α → α → Prop) (l l1 : List α)
    (h : List.Forall₂ R l l1) :
    ∀ n : Nat, (l.get? n = none ∧ l1.get? n = none) ∨
      ∃ a b, l.get? n = some a ∧ l1.get? n = some b ∧ R a b := by
  induction h with
  | nil =>
    intro n
    exact Or.inl ⟨rfl, rfl⟩
  | cons hab _ ih =>
    intro n
    cases n with
    | zero => exact Or.inr ⟨_, _, rfl, rfl, hab⟩
    | succ n => simpa using ih n

theorem vertexAt_sameXY (m m1 : Mesh) (hm : m.SameXY m1) (i : Int) :
    (∃ f, m.vertexAt i = .error f ∧ m1.vertexAt i = .error f) ∨
    ∃ a b, m.vertexAt i = .ok a ∧ m1.vertexAt i = .ok b ∧ XYEq a b := by
  unfold Mesh.vertexAt vecAt
  by_cases h0 : 0 ≤ i
  · simp only [h0, if_true]
    rcases get?_forall₂ XYEq _ _ hm.2 i.toNat with ⟨h1, h2⟩ | ⟨a, b, h1, h2, hab⟩
    · rw [h1, h2]
      exact Or.inl ⟨_, rfl, rfl⟩
    · rw [h1, h2]
      exact Or.inr ⟨a, b, rfl, rfl, hab⟩
  · simp only [h0, if_false]
    exact Or.inl ⟨_, rfl, rfl⟩

theorem triangleAt_sameXY (m m1 : Mesh) (hm : m.SameXY m1) (t : Int) :
    m.triangleAt t = m1.triangleAt t := by
  unfold Mesh.triangleAt
  rw [hm.1]

theorem triangleVertices_sameXY (m m1 : Mesh) (hm : m.SameXY m1) (t : Int) :
    (∃ f, m.triangleVertices t = .error f ∧ m1.triangleVertices t = .error f) ∨
    ∃ v0 v1 v2 w0 w1 w2 : Vec3, m.triangleVertices t = .ok (v0, v1, v2) ∧
      m1.triangleVertices t = .ok (w0, w1, w2) ∧ XYEq v0 w0 ∧ XYEq v1 w1 ∧ XYEq v2 w2 := by
  unfold Mesh.triangleVertices
  rw [triangleAt_sameXY m m1 hm t]
  cases m1.triangleAt t with
  | error f => exact Or.inl ⟨f, rfl, rfl⟩
  | ok tri =>
    simp only
    rcases vertexAt_sameXY m m1 hm (tri.vertices 0) with ⟨f, ha, hb⟩ | ⟨v0, w0, ha, hb, h0⟩
    · rw [ha, hb]
      exact Or.inl ⟨f, rfl, rfl⟩
    · rw [ha, hb]
      simp only
      rcases vertexAt_sameXY m m1 hm (tri.vertices 1) with ⟨f, ha, hb⟩ | ⟨v1, w1, ha, hb, h1⟩
      · rw [ha, hb]
        exact Or.inl ⟨f, rfl, rfl⟩
      · rw [ha, hb]
        simp only
        rcases vertexAt_sameXY m m1 hm (tri.vertices 2) with
          ⟨f, ha, hb⟩ | ⟨v2, w2, ha, hb, h2⟩
        · rw [ha, hb]
          exact Or.inl ⟨f, rfl, rfl⟩
        · rw [ha, hb]
          exact Or.inr ⟨v0, v1, v2, w0, w1, w2, rfl, rfl, h0, h1, h2⟩

theorem getBarycentricCoordinates_sameXY (m m1 : Mesh) (hm : m.SameXY m1) (P Q : Vec3)
    (hp : XYEq P Q) (t : Int) :
    getBarycentricCoordinates m P t = getBarycentricCoordinates m1 Q t := by
  rcases triangleVertices_sameXY m m1 hm t with
    ⟨f, ha, hb⟩ | ⟨v0, v1, v2, w0, w1, w2, ha, hb, h0, h1, h2⟩
  · unfold getBarycentricCoordinates
    rw [ha, hb]
  · rw [getBarycentricCoordinates_eq m P t v0 v1 v2 ha,
      getBarycentricCoordinates_eq m1 Q t w0 w1 w2 hb,
      baryOfVertices_point_xy P Q v0 v1 v2 hp,
      baryOfVertices_vertices_xy Q v0 v1 v2 w0 w1 w2 h0 h1 h2]

theorem walkBody_sameXY (m m1 : Mesh) (hm : m.SameXY m1) (P Q : Vec3) (hp : XYEq P Q)
    (c : Int) : walkBody m P c = walkBody m1 Q c := by
  unfold walkBody
  rw [getBarycentricCoordinates_sameXY m m1 hm P Q hp c, triangleAt_sameXY m m1 hm c]

theorem walkLoop_sameXY (m m1 : Mesh) (hm : m.SameXY m1) (P Q : Vec3) (hp : XYEq P Q) :
    ∀ (fuel : Nat) (c : Int) (it : Nat),
      walkLoop m P fuel c it = walkLoop m1 Q fuel c it := by
  intro fuel
  induction fuel with
  | zero =>
    intro c it
    rw [walkLoop, walkLoop]
  | succ fuel ih =>
    intro c it
    rw [walkLoop, walkLoop, walkBody_sameXY m m1 hm P Q hp c]
    cases walkBody m1 Q c with
    | error f => rfl
    | ok step =>
      cases step with
      | found => rfl
      | boundary => rfl
      | moveTo n => exact ih n (it + 1)

theorem surfaceWeights_sameXY (m m1 : Mesh) (hm : m.SameXY m1) (P Q : Vec3) (hp : XYEq P Q)
    (tri : Triangle) : surfaceWeights m P tri = surfaceWeights m1 Q tri := by
  obtain ⟨hx, hy⟩ := hp
  unfold surfaceWeights
  rcases vertexAt_sameXY m m1 hm (tri.vertices 0) with ⟨f, ha, hb⟩ | ⟨v0, w0, ha, hb, h0⟩
  · rw [ha, hb]
  · rw [ha, hb]
    simp only
    rcases vertexAt_sameXY m m1 hm (tri.vertices 1) with ⟨f, ha, hb⟩ | ⟨v1, w1, ha, hb, h1⟩
    · rw [ha, hb]
    · rw [ha, hb]
      simp only
      rcases vertexAt_sameXY m m1 hm (tri.vertices 2) with
        ⟨f, ha, hb⟩ | ⟨v2, w2, ha, hb, h2⟩
      · rw [ha, hb]
      · rw [ha, hb]
        simp only [hx, hy, h0.1, h0.2, h1.1, h1.2, h2.1, h2.2]

theorem findTriangleLoop_sameXY (m m1 : Mesh) (hm : m.SameXY m1) (P Q : Vec3)
    (hp : XYEq P Q) :
    ∀ (l : List Triangle) (i : Nat),
      findTriangleLoop m P l i = findTriangleLoop m1 Q l i := by
  intro l
  induction l with
  | nil =>
    intro i
    rw [findTriangleLoop, findTriangleLoop]
  | cons tri rest ih =>
    intro i
    rw [findTriangleLoop, findTriangleLoop, surfaceWeights_sameXY m m1 hm P Q hp tri]
    cases surfaceWeights m1 Q tri with
    | error f => rfl
    | ok o =>
      cases o with
      | none => exact ih (i + 1)
      | some uvw =>
        obtain ⟨u, v, w⟩ := uvw
        simp only [ih (i + 1)]

/-! ## The determinant, the sentinel and the damping: lemmas -/

theorem triangleCross_z (v0 v1 v2 : Vec3) :
    (triangleCross v0 v1 v2).z = orientXY v0 v1 v2 := by
  unfold triangleCross cross orientXY
  ring

/-- The degeneracy test on `denom` is a test on twice the XY area. -/
theorem baryDenom_small_iff (v0 v1 v2 : Vec3) :
    |baryDenom v0 v1 v2| < DENOM_EPS ↔ |orientXY v0 v1 v2| < 1 / 10000 := by
  have hd : baryDenom v0 v1 v2 = orientXY v0 v1 v2 ^ 2 := by
    rw [baryDenom_eq_sq, sq]
  have h : DENOM_EPS = (1 / 10000 : ℚ) ^ 2 := by
    unfold DENOM_EPS
    norm_num
  rw [hd, abs_of_nonneg (sq_nonneg (orientXY v0 v1 v2)), h, sq_lt_sq,
    abs_of_pos (by norm_num : (0 : ℚ) < 1 / 10000)]

/-- The surface height over a triangle that fails the degeneracy test. -/
theorem getSurfaceHeight_degenerate (m : Mesh) (pos : Vec3) (t : Int) (v0 v1 v2 : Vec3)
    (hv : m.triangleVertices t = .ok (v0, v1, v2))
    (hdeg : |baryDenom v0 v1 v2| < DENOM_EPS) :
    getSurfaceHeight m pos t = .ok (-(v0.z + v1.z + v2.z)) := by
  rw [getSurfaceHeight_eq m pos t v0 v1 v2 ⟨-1, -1, -1⟩ hv
    ((getBarycentricCoordinates_eq m _ t v0 v1 v2 hv).trans
      (baryOfVertices_degenerate _ v0 v1 v2 hdeg))]
  simp only [Except.ok.injEq]
  ring

/-- The squared length after halving the component along a unit vector. -/
theorem damp_speed (v n : Vec3) (hn : dot n n = 1) :
    dot (v.sub ((n.smul (dot v n)).smul (1 / 2))) (v.sub ((n.smul (dot v n)).smul (1 / 2)))
      = dot v v - 3 / 4 * dot v n ^ 2 := by
  have h : n.x * n.x + n.y * n.y + n.z * n.z = 1 := hn
  simp only [dot, Vec3.sub, Vec3.smul]
  linear_combination (1 / 4 * (v.x * n.x + v.y * n.y + v.z * n.z) ^ 2) * h

theorem damp_speed_le (v n : Vec3) (hn : dot n n = 1) :
    dot (v.sub ((n.smul (dot v n)).smul (1 / 2))) (v.sub ((n.smul (dot v n)).smul (1 / 2)))
      ≤ dot v v := by
  rw [damp_speed v n hn]
  have := sq_nonneg (dot v n)
  linarith

/-- The edge index chosen by the walk carries a smallest weight, and every weight with a
lower index is strictly larger. -/
theorem nextEdgeOf_min (b : Vec3) :
    (∀ j : Fin 3, b.weight (nextEdgeOf b) ≤ b.weight j) ∧
    (∀ j : Fin 3, j < nextEdgeOf b → b.weight (nextEdgeOf b) < b.weight j) := by
  by_cases h1 : b.y < b.x
  · by_cases h2 : b.z < b.y
    · have he : nextEdgeOf b = 2 := by
        unfold nextEdgeOf
        simp only [h1, h2, if_true]
      rw [he]
      refine ⟨?_, ?_⟩
      · intro j
        fin_cases j
        · show b.z ≤ b.x
          linarith
        · show b.z ≤ b.y
          linarith
        · exact le_refl _
      · intro j hj
        fin_cases j
        · show b.z < b.x
          linarith
        · show b.z < b.y
          exact h2
        · exact absurd hj (lt_irrefl _)
    · have he : nextEdgeOf b = 1 := by
        unfold nextEdgeOf
        simp only [h1, h2, if_true, if_false]
      rw [he]
      refine ⟨?_, ?_⟩
      · intro j
        fin_cases j
        · show b.y ≤ b.x
          linarith
        · exact le_refl _
        · show b.y ≤ b.z
          linarith
      · intro j hj
        fin_cases j
        · show b.y < b.x
          exact h1
        · exact absurd hj (lt_irrefl _)
        · exact absurd hj (by decide)
  · by_cases h2 : b.z < b.x
    · have he : nextEdgeOf b = 2 := by
        unfold nextEdgeOf
        simp only [h1, h2, if_true, if_false]
      rw [he]
      refine ⟨?_, ?_⟩
      · intro j
        fin_cases j
        · show b.z ≤ b.x
          linarith
        · show b.z ≤ b.y
          linarith
        · exact le_refl _
      · intro j hj
        fin_cases j
        · show b.z < b.x
          exact h2
        · show b.z < b.y
          linarith
        · exact absurd hj (lt_irrefl _)
    · have he : nextEdgeOf b = 0 := by
        unfold nextEdgeOf
        simp only [h1, h2, if_false]
      rw [he]
      refine ⟨?_, ?_⟩
      · intro j
        fin_cases j
        · exact le_refl _
        · show b.x ≤ b.y
          linarith
        · show b.x ≤ b.z
          linarith
      · intro j hj
        exact absurd hj (Fin.not_lt_zero j)

/-- The loop body in a triangle that rejects the point. -/
theorem walkBody_rejected (m : Mesh) (P : Vec3) (c : Int) (b : Vec3) (tri : Triangle)
    (hb : getBarycentricCoordinates m P c = .ok b) (hacc : baryAccepted b = false)
    (ht : m.triangleAt c = .ok tri) :
    walkBody m P c =
      .ok (if tri.neighbors (nextEdgeOf b) = -1 then WalkStep.boundary
        else WalkStep.moveTo (tri.neighbors (nextEdgeOf b))) := by
  by_cases hn : tri.neighbors (nextEdgeOf b) = -1
  · rw [if_pos hn]
    exact walkBody_boundary m P c b tri hb hacc ht hn
  · rw [if_neg hn]
    exact walkBody_moveTo m P c b tri hb hacc ht hn

/-! ## Rounded arithmetic: lemmas -/

/-- Without rounding, the rounded determinant is the exact one. -/
theorem baryDenomR_exact (v0 v1 v2 : Vec3) :
    baryDenomR (fun x => x) v0 v1 v2 = baryDenom v0 v1 v2 := rfl

theorem baryOfVerticesR_exact (P v0 v1 v2 : Vec3) :
    baryOfVerticesR (fun x => x) P v0 v1 v2 = baryOfVertices P v0 v1 v2 := rfl

theorem getBarycentricCoordinatesR_exact (m : Mesh) (P : Vec3) (t : Int) :
    getBarycentricCoordinatesR (fun x => x) m P t = getBarycentricCoordinates m P t := rfl

theorem getSurfaceHeightR_exact (m : Mesh) (pos : Vec3) (t : Int) :
    getSurfaceHeightR (fun x => x) m pos t = getSurfaceHeight m pos t := rfl

theorem walkBodyR_exact (m : Mesh) (P : Vec3) (c : Int) :
    walkBodyR (fun x => x) m P c = walkBody m P c := rfl

theorem walkLoopR_exact (m : Mesh) (P : Vec3) :
    ∀ (fuel : Nat) (c : Int) (it : Nat),
      walkLoopR (fun x => x) m P fuel c it = walkLoop m P fuel c it := by
  intro fuel
  induction fuel with
  | zero =>
    intro c it
    rw [walkLoopR, walkLoop]
  | succ fuel ih =>
    intro c it
    rw [walkLoopR, walkLoop, walkBodyR_exact]
    cases walkBody m P c with
    | error f => rfl
    | ok step =>
      cases step with
      | found => rfl
      | boundary => rfl
      | moveTo n => exact ih n (it + 1)

theorem walkFromR_exact (m : Mesh) (P : Vec3) (seed : Int) :
    walkFromR (fun x => x) m P seed = walkFrom m P seed :=
  walkLoopR_exact m P 100 seed 0

theorem baryOfVerticesR_degenerate (fl : ℚ → ℚ) (P v0 v1 v2 : Vec3)
    (h : |baryDenomR fl v0 v1 v2| < fl DENOM_EPS) :
    baryOfVerticesR fl P v0 v1 v2 = .ok ⟨-1, -1, -1⟩ := by
  unfold baryDenomR at h
  unfold baryOfVerticesR
  simp only [h, if_true]

theorem baryDenomR_ne_zero (fl : ℚ → ℚ) (v0 v1 v2 : Vec3) (hpos : 0 < fl DENOM_EPS)
    (h : fl DENOM_EPS ≤ |baryDenomR fl v0 v1 v2|) : baryDenomR fl v0 v1 v2 ≠ 0 := by
  intro h0
  rw [h0, abs_zero] at h
  exact absurd hpos (not_lt.mpr h)

theorem baryOfVerticesR_regular (fl : ℚ → ℚ) (P v0 v1 v2 : Vec3) (hpos : 0 < fl DENOM_EPS)
    (h : fl DENOM_EPS ≤ |baryDenomR fl v0 v1 v2|) :
    baryOfVerticesR fl P v0 v1 v2 =
      .ok ⟨fl (fl (1 - fl (baryNumVR fl P v0 v1 v2 / baryDenomR fl v0 v1 v2))
              - fl (baryNumWR fl P v0 v1 v2 / baryDenomR fl v0 v1 v2)),
            fl (baryNumVR fl P v0 v1 v2 / baryDenomR fl v0 v1 v2),
            fl (baryNumWR fl P v0 v1 v2 / baryDenomR fl v0 v1 v2)⟩ := by
  have hne := baryDenomR_ne_zero fl v0 v1 v2 hpos h
  have hlt : ¬ |baryDenomR fl v0 v1 v2| < fl DENOM_EPS := not_lt.mpr h
  unfold baryDenomR at hne hlt
  unfold baryOfVerticesR fdiv baryNumVR baryNumWR baryDenomR
  simp only [hlt, hne, if_false]

theorem baryOfVerticesR_ok (fl : ℚ → ℚ) (P v0 v1 v2 : Vec3) (hpos : 0 < fl DENOM_EPS) :
    ∃ b, baryOfVerticesR fl P v0 v1 v2 = .ok b := by
  by_cases h : |baryDenomR fl v0 v1 v2| < fl DENOM_EPS
  · exact ⟨_, baryOfVerticesR_degenerate fl P v0 v1 v2 h⟩
  · exact ⟨_, baryOfVerticesR_regular fl P v0 v1 v2 hpos (not_lt.mp h)⟩

theorem getBarycentricCoordinatesR_eq (fl : ℚ → ℚ) (m : Mesh) (P : Vec3) (t : Int)
    (v0 v1 v2 : Vec3) (hv : m.triangleVertices t = .ok (v0, v1, v2)) :
    getBarycentricCoordinatesR fl m P t = baryOfVerticesR fl P v0 v1 v2 := by
  unfold getBarycentricCoordinatesR
  rw [hv]

theorem getBarycentricCoordinatesR_error (fl : ℚ → ℚ) (m : Mesh) (P : Vec3) (t : Int)
    (f : Fault) (hpos : 0 < fl DENOM_EPS)
    (h : getBarycentricCoordinatesR fl m P t = .error f) : f = Fault.indexOutOfRange := by
  cases hv : m.triangleVertices t with
  | error f1 =>
    unfold getBarycentricCoordinatesR at h
    rw [hv] at h
    cases h
    exact triangleVertices_error m t _ hv
  | ok vs =>
    obtain ⟨v0, v1, v2⟩ := vs
    obtain ⟨b, hb⟩ := baryOfVerticesR_ok fl P v0 v1 v2 hpos
    rw [getBarycentricCoordinatesR_eq fl m P t v0 v1 v2 hv, hb] at h
    cases h

/-- The walk seeded at a triangle that passes the degeneracy test, for a point on one of
its edges, returns the seed at once. -/
theorem walkFrom_on_edge (m : Mesh) (P : Vec3) (t : Int) (v0 v1 v2 : Vec3)
    (hv : m.triangleVertices t = .ok (v0, v1, v2))
    (hden : DENOM_EPS ≤ |baryDenom v0 v1 v2|)
    (hP : OnEdgeXY P v0 v1 ∨ OnEdgeXY P v1 v2 ∨ OnEdgeXY P v2 v0) :
    walkFrom m P t = .ok ⟨t, true, 0⟩ := by
  obtain ⟨b, hb, hx, hy, hz⟩ := baryOfVertices_on_edge P v0 v1 v2 hden hP
  exact walkFrom_accepts m P t b ((getBarycentricCoordinates_eq m P t v0 v1 v2 hv).trans hb)
    ⟨BARY_TOL_le_of_nonneg _ hx, BARY_TOL_le_of_nonneg _ hy, BARY_TOL_le_of_nonneg _ hz⟩

/-! ## Exact arithmetic: the barycentric weights and the surface height -/

/-- In exact arithmetic, for a triangle whose determinant has magnitude at least `1e-8` and a
point strictly inside its XY projection, the weights returned are all non-negative and sum
to 1. -/
theorem interior_weights_nonneg (m : Mesh) (P : Vec3) (t : Int) (v0 v1 v2 : Vec3)
    (hv : m.triangleVertices t = .ok (v0, v1, v2))
    (hden : DENOM_EPS ≤ |baryDenom v0 v1 v2|)
    (hin : StrictlyInsideXY P v0 v1 v2) :
    ∃ b : Vec3, getBarycentricCoordinates m P t = .ok b ∧
      0 ≤ b.x ∧ 0 ≤ b.y ∧ 0 ≤ b.z ∧ b.x + b.y + b.z = 1 := by
  have hne := baryDenom_ne_zero v0 v1 v2 hden
  obtain ⟨hw, hu, hvv⟩ := hin
  have hD : 0 < baryDenom v0 v1 v2 := by
    rw [baryDenom_eq_sq] at hne ⊢
    exact lt_of_le_of_ne (mul_self_nonneg _) (Ne.symm hne)
  have hV : baryNumV P v0 v1 v2 / baryDenom v0 v1 v2 =
      orientXY v0 v1 v2 * orientXY v2 v0 P / baryDenom v0 v1 v2 := by
    rw [baryNumV_eq]
  have hW : baryNumW P v0 v1 v2 / baryDenom v0 v1 v2 =
      orientXY v0 v1 v2 * orientXY v0 v1 P / baryDenom v0 v1 v2 := by
    rw [baryNumW_eq]
  have hU : 1 - baryNumV P v0 v1 v2 / baryDenom v0 v1 v2
      - baryNumW P v0 v1 v2 / baryDenom v0 v1 v2 =
      orientXY v0 v1 v2 * orientXY v1 v2 P / baryDenom v0 v1 v2 := by
    rw [hV, hW]
    field_simp
    rw [baryDenom_eq_sq, ← orientXY_sum P v0 v1 v2]
    ring
  refine ⟨_, (getBarycentricCoordinates_eq m P t v0 v1 v2 hv).trans
    (baryOfVertices_regular P v0 v1 v2 hden), ?_, ?_, ?_, ?_⟩
  · simp only
    rw [hU]
    exact le_of_lt (div_pos hu hD)
  · simp only
    rw [hV]
    exact le_of_lt (div_pos hvv hD)
  · simp only
    rw [hW]
    exact le_of_lt (div_pos hw hD)
  · simp only
    ring

/-- In exact arithmetic `getBarycentricCoordinates` never divides by zero, returns the sentinel
when the determinant has magnitude below `1e-8` (in particular for a collinear XY
projection), and divides by the non-zero determinant otherwise. -/
theorem exact_sentinel_no_zero_division (m : Mesh) (P : Vec3) (t : Int) :
    getBarycentricCoordinates m P t ≠ .error Fault.divisionByZero ∧
    ∀ v0 v1 v2 : Vec3, m.triangleVertices t = .ok (v0, v1, v2) →
      (|baryDenom v0 v1 v2| < DENOM_EPS →
        getBarycentricCoordinates m P t = .ok ⟨-1, -1, -1⟩) ∧
      (orientXY v0 v1 v2 = 0 → getBarycentricCoordinates m P t = .ok ⟨-1, -1, -1⟩) ∧
      (DENOM_EPS ≤ |baryDenom v0 v1 v2| →
        baryDenom v0 v1 v2 ≠ 0 ∧
        fdiv (baryNumV P v0 v1 v2) (baryDenom v0 v1 v2)
          = .ok (baryNumV P v0 v1 v2 / baryDenom v0 v1 v2) ∧
        fdiv (baryNumW P v0 v1 v2) (baryDenom v0 v1 v2)
          = .ok (baryNumW P v0 v1 v2 / baryDenom v0 v1 v2) ∧
        getBarycentricCoordinates m P t =
          .ok ⟨1 - baryNumV P v0 v1 v2 / baryDenom v0 v1 v2
                  - baryNumW P v0 v1 v2 / baryDenom v0 v1 v2,
                baryNumV P v0 v1 v2 / baryDenom v0 v1 v2,
                baryNumW P v0 v1 v2 / baryDenom v0 v1 v2⟩) := by
  have key : ∀ v0 v1 v2 : Vec3, m.triangleVertices t = .ok (v0, v1, v2) →
      (|baryDenom v0 v1 v2| < DENOM_EPS →
        getBarycentricCoordinates m P t = .ok ⟨-1, -1, -1⟩) ∧
      (DENOM_EPS ≤ |baryDenom v0 v1 v2| →
        getBarycentricCoordinates m P t =
          .ok ⟨1 - baryNumV P v0 v1 v2 / baryDenom v0 v1 v2
                  - baryNumW P v0 v1 v2 / baryDenom v0 v1 v2,
                baryNumV P v0 v1 v2 / baryDenom v0 v1 v2,
                baryNumW P v0 v1 v2 / baryDenom v0 v1 v2⟩) := by
    intro v0 v1 v2 hv
    rw [getBarycentricCoordinates_eq m P t v0 v1 v2 hv]
    exact ⟨baryOfVertices_degenerate P v0 v1 v2, baryOfVertices_regular P v0 v1 v2⟩
  refine ⟨?_, ?_⟩
  · intro herr
    exact absurd (getBarycentricCoordinates_error m P t _ herr) (by decide)
  · intro v0 v1 v2 hv
    refine ⟨(key v0 v1 v2 hv).1, ?_, ?_⟩
    · intro hcol
      apply (key v0 v1 v2 hv).1
      rw [baryDenom_eq_sq, hcol]
      unfold DENOM_EPS
      norm_num
    · intro h
      have hne := baryDenom_ne_zero v0 v1 v2 h
      refine ⟨hne, ?_, ?_, (key v0 v1 v2 hv).2 h⟩
      · unfold fdiv
        simp only [hne, if_false]
      · unfold fdiv
        simp only [hne, if_false]

/-- In exact arithmetic the surface height over a triangle that passes the degeneracy test is
the height of the plane of the triangle. -/
theorem surface_height_is_plane_height (m : Mesh) (pos : Vec3) (t : Int)
    (v0 v1 v2 : Vec3)
    (hv : m.triangleVertices t = .ok (v0, v1, v2))
    (hden : DENOM_EPS ≤ |baryDenom v0 v1 v2|) :
    ∃ (b : Vec3) (h : ℚ), getBarycentricCoordinates m pos t = .ok b ∧
      getSurfaceHeight m pos t = .ok h ∧
      h = b.x * v0.z + b.y * v1.z + b.z * v2.z ∧
      dot (triangleCross v0 v1 v2) (Vec3.sub ⟨pos.x, pos.y, h⟩ v0) = 0 ∧
      getSurfaceHeight m v0 t = .ok v0.z ∧
      getSurfaceHeight m v1 t = .ok v1.z ∧
      getSurfaceHeight m v2 t = .ok v2.z ∧
      (∀ z : ℚ, getSurfaceHeight m ⟨pos.x, pos.y, z⟩ t = .ok h) := by
  have hne := baryDenom_ne_zero v0 v1 v2 hden
  have hbary : ∀ P : Vec3, getBarycentricCoordinates m P t =
      .ok ⟨1 - baryNumV P v0 v1 v2 / baryDenom v0 v1 v2
              - baryNumW P v0 v1 v2 / baryDenom v0 v1 v2,
            baryNumV P v0 v1 v2 / baryDenom v0 v1 v2,
            baryNumW P v0 v1 v2 / baryDenom v0 v1 v2⟩ := fun P =>
    (getBarycentricCoordinates_eq m P t v0 v1 v2 hv).trans
      (baryOfVertices_regular P v0 v1 v2 hden)
  have hxy : ∀ P : Vec3, getBarycentricCoordinates m ⟨P.x, P.y, 0⟩ t =
      getBarycentricCoordinates m P t := by
    intro P
    rw [getBarycentricCoordinates_eq m _ t v0 v1 v2 hv,
      getBarycentricCoordinates_eq m P t v0 v1 v2 hv]
    exact baryOfVertices_point_xy _ _ v0 v1 v2 ⟨rfl, rfl⟩
  have hheight : ∀ P : Vec3, getSurfaceHeight m P t =
      .ok ((1 - baryNumV P v0 v1 v2 / baryDenom v0 v1 v2
              - baryNumW P v0 v1 v2 / baryDenom v0 v1 v2) * v0.z +
            baryNumV P v0 v1 v2 / baryDenom v0 v1 v2 * v1.z +
            baryNumW P v0 v1 v2 / baryDenom v0 v1 v2 * v2.z) := fun P =>
    getSurfaceHeight_eq m P t v0 v1 v2 _ hv ((hxy P).trans (hbary P))
  have hvert : ∀ (P : Vec3) (a c : ℚ), baryNumV P v0 v1 v2 = a * baryDenom v0 v1 v2 →
      baryNumW P v0 v1 v2 = c * baryDenom v0 v1 v2 →
      getSurfaceHeight m P t = .ok ((1 - a - c) * v0.z + a * v1.z + c * v2.z) := by
    intro P a c ha hc
    rw [hheight P, ha, hc, mul_div_assoc, mul_div_assoc, div_self hne, mul_one, mul_one]
  refine ⟨_, _, hbary pos, hheight pos, rfl, ?_, ?_, ?_, ?_, ?_⟩
  · simp only [dot, triangleCross, cross, Vec3.sub]
    field_simp
    unfold baryNumV baryNumW baryDenom dot
    ring
  · have := hvert v0 0 0 (by unfold baryNumV baryDenom dot; ring)
      (by unfold baryNumW baryDenom dot; ring)
    rw [this]
    congr 1
    ring
  · have := hvert v1 1 0 (by unfold baryNumV baryDenom dot; ring)
      (by unfold baryNumW baryDenom dot; ring)
    rw [this]
    congr 1
    ring
  · have := hvert v2 0 1 (by unfold baryNumV baryDenom dot; ring)
      (by unfold baryNumW baryDenom dot; ring)
    rw [this]
    congr 1
    ring
  · intro z
    rw [getSurfaceHeight_xy m pos.x pos.y z pos.z]
    exact hheight pos

/-- In exact arithmetic the determinant is the square of twice the signed XY area. -/
theorem denom_is_squared_area (v0 v1 v2 : Vec3) :
    0 ≤ baryDenom v0 v1 v2 ∧
    baryDenom v0 v1 v2 = (triangleCross v0 v1 v2).z ^ 2 ∧
    (triangleCross v0 v1 v2).z = orientXY v0 v1 v2 ∧
    (|baryDenom v0 v1 v2| < DENOM_EPS ↔ |orientXY v0 v1 v2| < 1 / 10000) ∧
    (|orientXY v0 v1 v2| < 1 / 10000 →
      ∀ P : Vec3, baryOfVertices P v0 v1 v2 = .ok ⟨-1, -1, -1⟩) ∧
    (1 / 10000 ≤ |orientXY v0 v1 v2| →
      ∀ P : Vec3, baryOfVertices P v0 v1 v2 =
        .ok ⟨1 - baryNumV P v0 v1 v2 / baryDenom v0 v1 v2
               - baryNumW P v0 v1 v2 / baryDenom v0 v1 v2,
             baryNumV P v0 v1 v2 / baryDenom v0 v1 v2,
             baryNumW P v0 v1 v2 / baryDenom v0 v1 v2⟩) ∧
    (orientXY ⟨0, 0, 0⟩ ⟨1 / 1000, 0, 0⟩ ⟨0, 1 / 1000, 0⟩ ≠ 0 ∧
      |baryDenom ⟨0, 0, 0⟩ ⟨1 / 1000, 0, 0⟩ ⟨0, 1 / 1000, 0⟩| < DENOM_EPS ∧
      tinyMesh.triangleVertices 0 = .ok (⟨0, 0, 0⟩, ⟨1 / 1000, 0, 0⟩, ⟨0, 1 / 1000, 0⟩)) := by
  have hsq : baryDenom v0 v1 v2 = orientXY v0 v1 v2 ^ 2 := by
    rw [baryDenom_eq_sq, sq]
  refine ⟨?_, ?_, triangleCross_z v0 v1 v2, baryDenom_small_iff v0 v1 v2, ?_, ?_,
    by decide!, by decide!, by decide!⟩
  · rw [hsq]
    exact sq_nonneg _
  · rw [triangleCross_z, hsq]
  · intro h P
    exact baryOfVertices_degenerate P v0 v1 v2 ((baryDenom_small_iff v0 v1 v2).mpr h)
  · intro h P
    refine baryOfVertices_regular P v0 v1 v2 (not_lt.mp ?_)
    intro hlt
    exact absurd ((baryDenom_small_iff v0 v1 v2).mp hlt) (not_lt.mpr h)

/-! ## The normals and the transition response for an arbitrary square root: lemmas -/

/-- No rational number squares to a prime: whatever a rational-valued square root returns
for a prime, its square is not that prime. -/
theorem no_rat_sq_prime (p : ℕ) (hp : p.Prime) (L : ℚ) : L * L ≠ (p : ℚ) := by
  intro h
  have h2 : ((|L| : ℚ) : ℝ) = Real.sqrt (p : ℝ) := by
    have h3 : (L : ℝ) * (L : ℝ) = (p : ℝ) := by exact_mod_cast h
    rw [← h3, Real.sqrt_mul_self_eq_abs]
    push_cast
    rfl
  exact hp.irrational_sqrt ⟨|L|, h2⟩

theorem no_rat_sq_two (L : ℚ) : L * L ≠ 2 := by
  have h := no_rat_sq_prime 2 Nat.prime_two L
  exact_mod_cast h

theorem no_rat_sq_369 (L : ℚ) : L * L ≠ 369 / 625 := by
  intro h
  have h41 : Nat.Prime 41 := by norm_num
  apply no_rat_sq_prime 41 h41 (25 * L / 3)
  have h2 : 25 * L / 3 * (25 * L / 3) = 625 / 9 * (L * L) := by ring
  rw [h2, h]
  norm_num

theorem vector3d_normalize_pos (sqrtF : ℚ → ℚ) (c : Vec3) (h : 0 < sqrtF (dot c c)) :
    Vector3d.normalize sqrtF c =
      ⟨c.x / sqrtF (dot c c), c.y / sqrtF (dot c c), c.z / sqrtF (dot c c)⟩ := by
  have hlen : Vector3d.length sqrtF c = sqrtF (dot c c) := rfl
  unfold Vector3d.normalize
  rw [hlen]
  simp only [gt_iff_lt, h, if_true]

theorem vector3d_normalize_nonpos (sqrtF : ℚ → ℚ) (c : Vec3) (h : ¬ 0 < sqrtF (dot c c)) :
    Vector3d.normalize sqrtF c = c := by
  have hlen : Vector3d.length sqrtF c = sqrtF (dot c c) := rfl
  unfold Vector3d.normalize
  rw [hlen]
  simp only [gt_iff_lt, h, if_false]

/-- `Vector3d::normalize` returns a multiple of its argument, whatever the square root. -/
theorem vector3d_normalize_scalar (sqrtF : ℚ → ℚ) (c : Vec3) :
    ∃ k : ℚ, Vector3d.normalize sqrtF c = ⟨k * c.x, k * c.y, k * c.z⟩ := by
  by_cases h : 0 < sqrtF (dot c c)
  · refine ⟨1 / sqrtF (dot c c), ?_⟩
    rw [vector3d_normalize_pos sqrtF c h]
    simp only [Vec3.mk.injEq]
    refine ⟨?_, ?_, ?_⟩ <;> ring
  · refine ⟨1, ?_⟩
    rw [vector3d_normalize_nonpos sqrtF c h]
    simp only [one_mul]

theorem glm_normalize_pos (sqrtF : ℚ → ℚ) (c : Vec3) (h : 0 < sqrtF (dot c c)) :
    normalize sqrtF c =
      .ok ⟨c.x / sqrtF (dot c c), c.y / sqrtF (dot c c), c.z / sqrtF (dot c c)⟩ := by
  have hne : sqrtF (dot c c) ≠ 0 := ne_of_gt h
  unfold normalize length Vec3.div
  simp only [hne, if_false]

/-- The `glm` normalisation returns a multiple of its argument, whatever the square
root. -/
theorem glm_normalize_scalar (sqrtF : ℚ → ℚ) (c : Vec3) :
    ∃ k : ℚ, normalize sqrtF c = .ok ⟨k * c.x, k * c.y, k * c.z⟩ := by
  by_cases h : sqrtF (dot c c) = 0
  · refine ⟨0, ?_⟩
    unfold normalize length
    simp only [h, if_true, zero_mul]
  · refine ⟨1 / sqrtF (dot c c), ?_⟩
    unfold normalize length Vec3.div
    simp only [h, if_false, Except.ok.injEq, Vec3.mk.injEq]
    refine ⟨?_, ?_, ?_⟩ <;> ring

/-- Every multiple of the cross product of the two edge vectors is perpendicular to both of
them. -/
theorem triangleCross_scalar_perp (v0 v1 v2 : Vec3) (k : ℚ) :
    dot ⟨k * (triangleCross v0 v1 v2).x, k * (triangleCross v0 v1 v2).y,
        k * (triangleCross v0 v1 v2).z⟩ (v1.sub v0) = 0 ∧
    dot ⟨k * (triangleCross v0 v1 v2).x, k * (triangleCross v0 v1 v2).y,
        k * (triangleCross v0 v1 v2).z⟩ (v2.sub v0) = 0 := by
  refine ⟨?_, ?_⟩
  · simp only [dot, triangleCross, cross, Vec3.sub]
    ring
  · simp only [dot, triangleCross, cross, Vec3.sub]
    ring

/-- The squared length of the quotient of a vector by a non-zero number. -/
theorem dot_div_self (c : Vec3) (L : ℚ) (hL : L ≠ 0) :
    dot (⟨c.x / L, c.y / L, c.z / L⟩ : Vec3) ⟨c.x / L, c.y / L, c.z / L⟩ * (L * L)
      = dot c c := by
  show (c.x / L * (c.x / L) + c.y / L * (c.y / L) + c.z / L * (c.z / L)) * (L * L)
    = c.x * c.x + c.y * c.y + c.z * c.z
  field_simp

theorem dot_div_self_eq_one_iff (c : Vec3) (L : ℚ) (hL : L ≠ 0) :
    dot (⟨c.x / L, c.y / L, c.z / L⟩ : Vec3) ⟨c.x / L, c.y / L, c.z / L⟩ = 1
      ↔ L * L = dot c c := by
  have h := dot_div_self c L hL
  have hLL : L * L ≠ 0 := mul_ne_zero hL hL
  constructor
  · intro h1
    rw [h1, one_mul] at h
    exact h
  · intro h1
    rw [← h1] at h
    have h2 : (dot (⟨c.x / L, c.y / L, c.z / L⟩ : Vec3) ⟨c.x / L, c.y / L, c.z / L⟩ - 1)
        * (L * L) = 0 := by linear_combination h
    rcases mul_eq_zero.mp h2 with h3 | h3
    · linarith
    · exact absurd h3 hLL

/-- When no rational squares to the squared length of `c`, the vector `Vector3d::normalize`
returns for `c` does not have squared length 1, whatever the square root. -/
theorem vector3d_normalize_not_unit (sqrtF : ℚ → ℚ) (c : Vec3)
    (hirr : ∀ L : ℚ, L * L ≠ dot c c) :
    dot (Vector3d.normalize sqrtF c) (Vector3d.normalize sqrtF c) ≠ 1 := by
  by_cases h : 0 < sqrtF (dot c c)
  · rw [vector3d_normalize_pos sqrtF c h]
    intro h1
    exact hirr _ ((dot_div_self_eq_one_iff c _ (ne_of_gt h)).mp h1)
  · rw [vector3d_normalize_nonpos sqrtF c h]
    intro h1
    exact hirr 1 (by rw [h1, one_mul])

/-- When no rational squares to the squared length of `c`, the vector the `glm`
normalisation returns for `c` does not have squared length 1, whatever the square root. -/
theorem glm_normalize_not_unit (sqrtF : ℚ → ℚ) (c n : Vec3)
    (hirr : ∀ L : ℚ, L * L ≠ dot c c) (hn : normalize sqrtF c = .ok n) :
    dot n n ≠ 1 := by
  by_cases h : sqrtF (dot c c) = 0
  · unfold normalize length at hn
    simp only [h, if_true] at hn
    rw [← Except.ok.inj hn]
    decide!
  · unfold normalize length Vec3.div at hn
    simp only [h, if_false] at hn
    rw [← Except.ok.inj hn]
    intro h1
    exact hirr _ ((dot_div_self_eq_one_iff c _ h).mp h1)

/-- Halving the component of `v` along an arbitrary vector `c`. -/
theorem damp_along (v c : Vec3) :
    dot (v.sub ((c.smul (dot v c)).smul (1 / 2))) c = (1 - 1 / 2 * dot c c) * dot v c ∧
    ∀ t : Vec3, dot t c = 0 →
      dot (v.sub ((c.smul (dot v c)).smul (1 / 2))) t = dot v t := by
  refine ⟨?_, ?_⟩
  · simp only [dot, Vec3.sub, Vec3.smul]
    ring
  · intro t ht
    have ht2 : t.x * c.x + t.y * c.y + t.z * c.z = 0 := ht
    simp only [dot, Vec3.sub, Vec3.smul]
    linear_combination (-(1 / 2) * (v.x * c.x + v.y * c.y + v.z * c.z)) * ht2

/-- The damped component is half the component exactly when `c` has squared length 1 (for
a non-zero component). -/
theorem damp_halves_iff (v c : Vec3) (hvn : dot v c ≠ 0) :
    dot (v.sub ((c.smul (dot v c)).smul (1 / 2))) c = 1 / 2 * dot v c ↔ dot c c = 1 := by
  rw [(damp_along v c).1]
  constructor
  · intro h
    have h2 : (1 - dot c c) * dot v c = 0 := by linear_combination 2 * h
    rcases mul_eq_zero.mp h2 with h3 | h3
    · linarith
    · exact absurd h3 hvn
  · intro h
    rw [h]
    ring

/-- When no rational squares to the squared length of the axis and the integrated velocity
has a negative component along the axis, the transition response applies and does not halve
the component along the normalised axis, whatever the square root. -/
theorem transition_not_halved (sqrtF : ℚ → ℚ) (axis v : Vec3)
    (hirr : ∀ L : ℚ, L * L ≠ dot axis axis) (hneg : dot v axis < 0) :
    dot v (Vector3d.normalize sqrtF axis) < 0 ∧
    dot (v.sub (((Vector3d.normalize sqrtF axis).smul
        (dot v (Vector3d.normalize sqrtF axis))).smul (1 / 2)))
      (Vector3d.normalize sqrtF axis) ≠ 1 / 2 * dot v (Vector3d.normalize sqrtF axis) := by
  have hnu := vector3d_normalize_not_unit sqrtF axis hirr
  have hlt : dot v (Vector3d.normalize sqrtF axis) < 0 := by
    by_cases h : 0 < sqrtF (dot axis axis)
    · rw [vector3d_normalize_pos sqrtF axis h]
      have h2 : dot v (⟨axis.x / sqrtF (dot axis axis), axis.y / sqrtF (dot axis axis),
          axis.z / sqrtF (dot axis axis)⟩ : Vec3) = dot v axis / sqrtF (dot axis axis) := by
        simp only [dot]
        ring
      rw [h2]
      exact div_neg_of_neg_of_pos hneg h
    · rw [vector3d_normalize_nonpos sqrtF axis h]
      exact hneg
  refine ⟨hlt, ?_⟩
  intro h
  exact hnu ((damp_halves_iff v _ (ne_of_lt hlt)).mp h)

/-- `Vector3d::normalize` of a vector whose squared length `x` has the positive computed
square root `L`. -/
theorem vector3d_normalize_of_sqrt (sqrtF : ℚ → ℚ) (c : Vec3) (x L : ℚ)
    (hx : dot c c = x) (hL : sqrtF x = L) (hpos : 0 < L) :
    Vector3d.normalize sqrtF c = ⟨c.x / L, c.y / L, c.z / L⟩ := by
  have h : 0 < sqrtF (dot c c) := by rw [hx, hL]; exact hpos
  rw [vector3d_normalize_pos sqrtF c h, hx, hL]

/-- The `glm` normalisation leaves a vector of computed length 1 unchanged. -/
theorem normalize_of_length_one (sqrtF : ℚ → ℚ) (n : Vec3) (h : length sqrtF n = 1) :
    normalize sqrtF n = .ok n := by
  unfold normalize Vec3.div
  rw [h]
  simp only [one_ne_zero, if_false, div_one]

/-- The `glm` normalisation of the zero vector is the zero vector. -/
theorem normalize_zero (sqrtF : ℚ → ℚ) : normalize sqrtF ⟨0, 0, 0⟩ = .ok ⟨0, 0, 0⟩ := by
  unfold normalize Vec3.div
  by_cases h : length sqrtF ⟨0, 0, 0⟩ = 0
  · simp only [h, if_true]
  · simp only [h, if_false, zero_div]

/-! ## A transition on `ridgeMesh`: lemmas -/

/-- What `move` does when the triangle found is the recorded one. -/
theorem move_same_triangle (sqrtF : ℚ → ℚ) (b : RollingBall) (surface : Mesh) (dt : ℚ)
    (i : Int) (normal : Vec3)
    (hs : b.mSurface = some surface)
    (hf : TriangleSurface.findTriangle surface b.mPosition = .ok i) (hi : i ≠ -1)
    (hn : TriangleSurface.getNormal sqrtF surface i = .ok normal)
    (hsame : i = b.oldTriangleIndex) :
    RollingBall.move sqrtF b dt = .ok (MoveOutcome.moved,
      { b with
        mPosition := b.mPosition.add ((b.mVelocity.add ((slopeAccel normal).smul dt)).smul dt)
        mVelocity := b.mVelocity.add ((slopeAccel normal).smul dt)
        mAcceleration := slopeAccel normal
        oldNormal := normal
        oldTriangleIndex := i }) := by
  rw [move_moved sqrtF b surface dt i normal hs hf hi hn]
  have h : ¬ (i ≠ b.oldTriangleIndex) := fun h => h hsame
  rw [if_neg h]

/-- What `move` does when the triangle found differs from the recorded one. -/
theorem move_other_triangle (sqrtF : ℚ → ℚ) (b : RollingBall) (surface : Mesh) (dt : ℚ)
    (i : Int) (normal : Vec3)
    (hs : b.mSurface = some surface)
    (hf : TriangleSurface.findTriangle surface b.mPosition = .ok i) (hi : i ≠ -1)
    (hn : TriangleSurface.getNormal sqrtF surface i = .ok normal)
    (hdiff : i ≠ b.oldTriangleIndex) :
    RollingBall.move sqrtF b dt = .ok (MoveOutcome.moved,
      { b with
        mPosition := b.mPosition.add ((b.mVelocity.add ((slopeAccel normal).smul dt)).smul dt)
        mVelocity := transitionResponse sqrtF b.oldNormal normal
          (b.mVelocity.add ((slopeAccel normal).smul dt))
        mAcceleration := slopeAccel normal
        oldNormal := normal
        oldTriangleIndex := i }) := by
  rw [move_moved sqrtF b surface dt i normal hs hf hi hn, if_pos hdiff]

/-- The normals of the two triangles of `ridgeMesh`, for a square root that returns 20
for 400. -/
theorem ridge_normals (sqrtF : ℚ → ℚ) (h400 : sqrtF 400 = 20) :
    TriangleSurface.getNormal sqrtF ridgeMesh 0 = .ok ⟨3 / 5, 0, 4 / 5⟩ ∧
    TriangleSurface.getNormal sqrtF ridgeMesh 1 = .ok ⟨0, 3 / 5, 4 / 5⟩ := by
  have h0 : ridgeMesh.triangleVertices 0 = .ok (⟨0, 0, 0⟩, ⟨4, 0, -3⟩, ⟨0, 4, 0⟩) := by
    decide!
  have h1 : ridgeMesh.triangleVertices 1 = .ok (⟨8, 0, 0⟩, ⟨12, 0, 0⟩, ⟨8, 4, -3⟩) := by
    decide!
  have c0 : cross (Vec3.sub ⟨4, 0, -3⟩ ⟨0, 0, 0⟩) (Vec3.sub ⟨0, 4, 0⟩ ⟨0, 0, 0⟩)
      = (⟨12, 0, 16⟩ : Vec3) := by decide!
  have c1 : cross (Vec3.sub ⟨12, 0, 0⟩ ⟨8, 0, 0⟩) (Vec3.sub ⟨8, 4, -3⟩ ⟨8, 0, 0⟩)
      = (⟨0, 12, 16⟩ : Vec3) := by decide!
  refine ⟨?_, ?_⟩
  · rw [getNormal_of_vertices sqrtF ridgeMesh 0 _ _ _ (by decide!) h0, c0,
      vector3d_normalize_of_sqrt sqrtF ⟨12, 0, 16⟩ 400 20 (by decide!) h400 (by norm_num)]
    norm_num
  · rw [getNormal_of_vertices sqrtF ridgeMesh 1 _ _ _ (by decide!) h1, c1,
      vector3d_normalize_of_sqrt sqrtF ⟨0, 12, 16⟩ 400 20 (by decide!) h400 (by norm_num)]
    norm_num

/-! ## Claims -/

/-- C1: for a triangle whose determinant `denom` has magnitude at least `1e-8`,
`getBarycentricCoordinates` returns weights `(u, v, w)` with `u + v + w = 1` and
`u*v0 + v*v1 + w*v2 = P` in the x and in the y coordinate. -/
theorem C1_barycentric_reconstructs_point (m : Mesh) (P : Vec3) (t : Int) (v0 v1 v2 : Vec3)
    (hv : m.triangleVertices t = .ok (v0, v1, v2))
    (hden : DENOM_EPS ≤ |baryDenom v0 v1 v2|) :
    ∃ b : Vec3, getBarycentricCoordinates m P t = .ok b ∧
      b.x + b.y + b.z = 1 ∧
      b.x * v0.x + b.y * v1.x + b.z * v2.x = P.x ∧
      b.x * v0.y + b.y * v1.y + b.z * v2.y = P.y := by
  have hne := baryDenom_ne_zero v0 v1 v2 hden
  refine ⟨_, (getBarycentricCoordinates_eq m P t v0 v1 v2 hv).trans
    (baryOfVertices_regular P v0 v1 v2 hden), ?_, ?_, ?_⟩
  · simp only
    ring
  · simp only
    field_simp
    unfold baryNumV baryNumW baryDenom dot
    ring
  · simp only
    field_simp
    unfold baryNumV baryNumW baryDenom dot
    ring

/-- C1 at triangle 0 of the built-in mesh and the point `(1.5, 1.5, 0)`. -/
theorem C1_barycentric_reconstructs_point_witness :
    ∃ b : Vec3, getBarycentricCoordinates initializeTriangulation ⟨3 / 2, 3 / 2, 0⟩ 0 = .ok b ∧
      b.x + b.y + b.z = 1 ∧
      b.x * 0 + b.y * 2 + b.z * 0 = 3 / 2 ∧
      b.x * 0 + b.y * 0 + b.z * 2 = 3 / 2 :=
  C1_barycentric_reconstructs_point initializeTriangulation ⟨3 / 2, 3 / 2, 0⟩ 0
    ⟨0, 0, 0⟩ ⟨2, 0, 0⟩ ⟨0, 2, 0⟩ (by decide!) (by decide!)

/-- C2 (as stated) fails twice over. On `tinyMesh` the point `(0.0003, 0.0003)` is strictly
inside triangle 0, whose determinant `1e-12` is below `1e-8`, and the weights returned are
the sentinel `(-1, -1, -1)`. And in `float` arithmetic the claim fails although the guard
is silent: on triangle 0 of `thinMesh`, vertices `(0,0)`, `(23,29)`, `(27,34)`, the
computed determinant is `1.0`, the point `(20.625, 26)` is strictly inside (its exact
weights are `(1/8, 3/4, 1/8)`), and the weights computed with every operation rounded to
binary32 are `(-0.125, 1.0, 0.125)`. -/
theorem C2_interior_weights_counterexample :
    (¬ (∀ (m : Mesh) (P : Vec3) (t : Int) (v0 v1 v2 : Vec3),
        m.triangleVertices t = .ok (v0, v1, v2) → StrictlyInsideXY P v0 v1 v2 →
        ∃ b : Vec3, getBarycentricCoordinates m P t = .ok b ∧
          0 ≤ b.x ∧ 0 ≤ b.y ∧ 0 ≤ b.z ∧ b.x + b.y + b.z = 1)) ∧
    (thinMesh.triangleVertices 0 = .ok (⟨0, 0, 0⟩, ⟨23, 29, 8⟩, ⟨27, 34, 0⟩) ∧
      StrictlyInsideXY ⟨165 / 8, 26, 0⟩ ⟨0, 0, 0⟩ ⟨23, 29, 8⟩ ⟨27, 34, 0⟩ ∧
      float32 (165 / 8) = 165 / 8 ∧
      baryDenomR float32 ⟨0, 0, 0⟩ ⟨23, 29, 8⟩ ⟨27, 34, 0⟩ = 1 ∧
      ¬ (|baryDenomR float32 ⟨0, 0, 0⟩ ⟨23, 29, 8⟩ ⟨27, 34, 0⟩| < float32 DENOM_EPS) ∧
      DENOM_EPS ≤ |baryDenom ⟨0, 0, 0⟩ ⟨23, 29, 8⟩ ⟨27, 34, 0⟩| ∧
      getBarycentricCoordinatesR float32 thinMesh ⟨165 / 8, 26, 0⟩ 0
        = .ok ⟨-1 / 8, 1, 1 / 8⟩ ∧
      getBarycentricCoordinates thinMesh ⟨165 / 8, 26, 0⟩ 0
        = .ok ⟨1 / 8, 3 / 4, 1 / 8⟩) := by
  refine ⟨?_, by decide!, by decide!, by decide!, by decide!, by decide!, by decide!,
    by decide!, by decide!⟩
  intro h
  obtain ⟨b, hb, hx, -⟩ := h tinyMesh ⟨3 / 10000, 3 / 10000, 0⟩ 0
    ⟨0, 0, 0⟩ ⟨1 / 1000, 0, 0⟩ ⟨0, 1 / 1000, 0⟩ (by decide!) (by decide!)
  have hs : getBarycentricCoordinates tinyMesh ⟨3 / 10000, 3 / 10000, 0⟩ 0
      = .ok ⟨-1, -1, -1⟩ := by decide!
  rw [hs] at hb
  cases hb
  norm_num at hx

/-- C2 (amended): in exact arithmetic (the computation of `getBarycentricCoordinates`
without rounding), for a triangle whose determinant has magnitude at least `1e-8` and a
point strictly inside its XY projection, the weights returned are all non-negative and
sum to 1. -/
theorem C2_interior_weights_nonneg (m : Mesh) (P : Vec3) (t : Int) (v0 v1 v2 : Vec3)
    (hv : m.triangleVertices t = .ok (v0, v1, v2))
    (hden : DENOM_EPS ≤ |baryDenom v0 v1 v2|)
    (hin : StrictlyInsideXY P v0 v1 v2) :
    ∃ b : Vec3, getBarycentricCoordinates m P t = .ok b ∧
      0 ≤ b.x ∧ 0 ≤ b.y ∧ 0 ≤ b.z ∧ b.x + b.y + b.z = 1 ∧
      getBarycentricCoordinatesR (fun x => x) m P t = .ok b := by
  obtain ⟨b, hb, hx, hy, hz, hsum⟩ := interior_weights_nonneg m P t v0 v1 v2 hv hden hin
  exact ⟨b, hb, hx, hy, hz, hsum, (getBarycentricCoordinatesR_exact m P t).trans hb⟩

/-- C2 (amended) at triangle 0 of the built-in mesh and the interior point `(0.5, 0.5)`. -/
theorem C2_interior_weights_nonneg_witness :
    ∃ b : Vec3, getBarycentricCoordinates initializeTriangulation ⟨1 / 2, 1 / 2, 0⟩ 0 = .ok b ∧
      0 ≤ b.x ∧ 0 ≤ b.y ∧ 0 ≤ b.z ∧ b.x + b.y + b.z = 1 ∧
      getBarycentricCoordinatesR (fun x => x) initializeTriangulation ⟨1 / 2, 1 / 2, 0⟩ 0
        = .ok b :=
  C2_interior_weights_nonneg initializeTriangulation ⟨1 / 2, 1 / 2, 0⟩ 0
    ⟨0, 0, 0⟩ ⟨2, 0, 0⟩ ⟨0, 2, 0⟩ (by decide!) (by decide!) (by decide!)

/-- C3 (as stated) fails in `float` arithmetic for collinear triangles: the three vertices
of `slantedLineMesh` are `float` values on one line (their exact determinant is 0), the
determinant computed with every operation rounded to binary32 is `-0.125`, the guard
`|denom| < 1e-8` is silent, and for the point `(1, 1)` the quotients are taken and the
result is `(0.96875, 0, 0.03125)`, not the sentinel. -/
theorem C3_collinear_float_counterexample :
    slantedLineMesh.triangleVertices 0
      = .ok (⟨0, 0, 0⟩, ⟨20195 / 1024, 2061 / 128, 0⟩, ⟨60585 / 2048, 6183 / 256, 0⟩) ∧
    orientXY ⟨0, 0, 0⟩ ⟨20195 / 1024, 2061 / 128, 0⟩ ⟨60585 / 2048, 6183 / 256, 0⟩ = 0 ∧
    baryDenom ⟨0, 0, 0⟩ ⟨20195 / 1024, 2061 / 128, 0⟩ ⟨60585 / 2048, 6183 / 256, 0⟩ = 0 ∧
    (float32 (20195 / 1024) = 20195 / 1024 ∧ float32 (2061 / 128) = 2061 / 128 ∧
      float32 (60585 / 2048) = 60585 / 2048 ∧ float32 (6183 / 256) = 6183 / 256) ∧
    baryDenomR float32 ⟨0, 0, 0⟩ ⟨20195 / 1024, 2061 / 128, 0⟩ ⟨60585 / 2048, 6183 / 256, 0⟩
      = -1 / 8 ∧
    ¬ (|baryDenomR float32 ⟨0, 0, 0⟩ ⟨20195 / 1024, 2061 / 128, 0⟩
        ⟨60585 / 2048, 6183 / 256, 0⟩| < float32 DENOM_EPS) ∧
    getBarycentricCoordinatesR float32 slantedLineMesh ⟨1, 1, 0⟩ 0
      = .ok ⟨31 / 32, 0, 1 / 32⟩ ∧
    getBarycentricCoordinatesR float32 slantedLineMesh ⟨1, 1, 0⟩ 0 ≠ .ok ⟨-1, -1, -1⟩ ∧
    getBarycentricCoordinates slantedLineMesh ⟨1, 1, 0⟩ 0 = .ok ⟨-1, -1, -1⟩ := by
  refine ⟨by decide!, by decide!, by decide!,
    ⟨by decide!, by decide!, by decide!, by decide!⟩, by decide!, by decide!, by decide!,
    by decide!, by decide!⟩

/-- C3 (amended): `getBarycentricCoordinates` never divides by zero, with every rounding `fl`
of the `float` operations that keeps the literal `1e-8f` positive (binary32 does) and in
exact arithmetic: when the computed determinant `denom` has magnitude below `1e-8` the
sentinel `(-1, -1, -1)` is returned, a result reached without any division; otherwise
`denom` is non-zero and both quotients are taken over `denom` itself. In exact arithmetic
a collinear XY projection has determinant 0 and so gets the sentinel. -/
theorem C3_degenerate_sentinel_no_zero_division (m : Mesh) (P : Vec3) (t : Int) :
    (getBarycentricCoordinates m P t ≠ .error Fault.divisionByZero ∧
    ∀ v0 v1 v2 : Vec3, m.triangleVertices t = .ok (v0, v1, v2) →
      (|baryDenom v0 v1 v2| < DENOM_EPS →
        getBarycentricCoordinates m P t = .ok ⟨-1, -1, -1⟩) ∧
      (orientXY v0 v1 v2 = 0 → getBarycentricCoordinates m P t = .ok ⟨-1, -1, -1⟩) ∧
      (DENOM_EPS ≤ |baryDenom v0 v1 v2| →
        baryDenom v0 v1 v2 ≠ 0 ∧
        fdiv (baryNumV P v0 v1 v2) (baryDenom v0 v1 v2)
          = .ok (baryNumV P v0 v1 v2 / baryDenom v0 v1 v2) ∧
        fdiv (baryNumW P v0 v1 v2) (baryDenom v0 v1 v2)
          = .ok (baryNumW P v0 v1 v2 / baryDenom v0 v1 v2) ∧
        getBarycentricCoordinates m P t =
          .ok ⟨1 - baryNumV P v0 v1 v2 / baryDenom v0 v1 v2
                  - baryNumW P v0 v1 v2 / baryDenom v0 v1 v2,
                baryNumV P v0 v1 v2 / baryDenom v0 v1 v2,
                baryNumW P v0 v1 v2 / baryDenom v0 v1 v2⟩)) ∧
    0 < float32 DENOM_EPS ∧
    getBarycentricCoordinatesR (fun x => x) m P t = getBarycentricCoordinates m P t ∧
    (∀ fl : ℚ → ℚ, 0 < fl DENOM_EPS →
      getBarycentricCoordinatesR fl m P t ≠ .error Fault.divisionByZero ∧
      ∀ v0 v1 v2 : Vec3, m.triangleVertices t = .ok (v0, v1, v2) →
        (|baryDenomR fl v0 v1 v2| < fl DENOM_EPS →
          getBarycentricCoordinatesR fl m P t = .ok ⟨-1, -1, -1⟩) ∧
        (fl DENOM_EPS ≤ |baryDenomR fl v0 v1 v2| →
          baryDenomR fl v0 v1 v2 ≠ 0 ∧
          fdiv (baryNumVR fl P v0 v1 v2) (baryDenomR fl v0 v1 v2)
            = .ok (baryNumVR fl P v0 v1 v2 / baryDenomR fl v0 v1 v2) ∧
          fdiv (baryNumWR fl P v0 v1 v2) (baryDenomR fl v0 v1 v2)
            = .ok (baryNumWR fl P v0 v1 v2 / baryDenomR fl v0 v1 v2) ∧
          getBarycentricCoordinatesR fl m P t =
            .ok ⟨fl (fl (1 - fl (baryNumVR fl P v0 v1 v2 / baryDenomR fl v0 v1 v2))
                    - fl (baryNumWR fl P v0 v1 v2 / baryDenomR fl v0 v1 v2)),
                  fl (baryNumVR fl P v0 v1 v2 / baryDenomR fl v0 v1 v2),
                  fl (baryNumWR fl P v0 v1 v2 / baryDenomR fl v0 v1 v2)⟩)) := by
  refine ⟨exact_sentinel_no_zero_division m P t, by decide!,
    getBarycentricCoordinatesR_exact m P t, ?_⟩
  intro fl hpos
  refine ⟨?_, ?_⟩
  · intro herr
    exact absurd (getBarycentricCoordinatesR_error fl m P t _ hpos herr) (by decide)
  · intro v0 v1 v2 hv
    rw [getBarycentricCoordinatesR_eq fl m P t v0 v1 v2 hv]
    refine ⟨baryOfVerticesR_degenerate fl P v0 v1 v2, ?_⟩
    intro h
    have hne := baryDenomR_ne_zero fl v0 v1 v2 hpos h
    refine ⟨hne, ?_, ?_, baryOfVerticesR_regular fl P v0 v1 v2 hpos h⟩
    · unfold fdiv
      simp only [hne, if_false]
    · unfold fdiv
      simp only [hne, if_false]

/-- C3 on `tinyMesh`: triangle 0 has determinant `1e-12`, and the sentinel is returned,
in exact arithmetic and with binary32 rounding. -/
theorem C3_degenerate_sentinel_no_zero_division_witness :
    getBarycentricCoordinates tinyMesh ⟨3 / 10000, 3 / 10000, 0⟩ 0 = .ok ⟨-1, -1, -1⟩ ∧
    getBarycentricCoordinatesR float32 tinyMesh ⟨3 / 10000, 3 / 10000, 0⟩ 0
      ≠ .error Fault.divisionByZero :=
  ⟨(((C3_degenerate_sentinel_no_zero_division tinyMesh ⟨3 / 10000, 3 / 10000, 0⟩ 0).1).2
    ⟨0, 0, 0⟩ ⟨1 / 1000, 0, 0⟩ ⟨0, 1 / 1000, 0⟩ (by decide!)).1 (by decide!),
   ((C3_degenerate_sentinel_no_zero_division tinyMesh ⟨3 / 10000, 3 / 10000, 0⟩ 0).2.2.2
    float32 (by decide!)).1⟩

/-- C4: when all three weights of `P` in the seed triangle `s` are at least `-0.001`, the
walk seeded at `s` returns `s` after testing only `s` (no neighbour step); hence a walk
that returned `s` returns `s` again when it is re-run with seed `s` and the same point. -/
theorem C4_walk_accepts_seed_idempotent (m : Mesh) (P : Vec3) (s : Int) (b : Vec3)
    (hb : getBarycentricCoordinates m P s = .ok b)
    (hacc : BARY_TOL ≤ b.x ∧ BARY_TOL ≤ b.y ∧ BARY_TOL ≤ b.z) :
    walkFrom m P s = .ok ⟨s, true, 0⟩ ∧
    (∀ ball : BallState, ball.currentTriangle = s →
      findContainingTriangle m ball P = .ok s) ∧
    (∀ ball : BallState, findContainingTriangle m ball P = .ok s →
      findContainingTriangle m { ball with currentTriangle := s } P = .ok s) := by
  have hw : walkFrom m P s = .ok ⟨s, true, 0⟩ :=
    walkLoop_found m P 99 s 0 (walkBody_found m P s b hb ((baryAccepted_iff b).mpr hacc))
  refine ⟨hw, ?_, ?_⟩
  · intro ball hs
    have := findContainingTriangle_of_walkFrom m ball P ⟨s, true, 0⟩ (by rw [hs]; exact hw)
    exact this
  · intro ball _
    exact findContainingTriangle_of_walkFrom m { ball with currentTriangle := s } P
      ⟨s, true, 0⟩ hw

/-- C4 on the built-in mesh: the ball's start position `(1, 0.5, 0.3)` is accepted by
triangle 0. -/
theorem C4_walk_accepts_seed_idempotent_witness :
    walkFrom initializeTriangulation ⟨1, 1 / 2, 3 / 10⟩ 0 = .ok ⟨0, true, 0⟩ :=
  (C4_walk_accepts_seed_idempotent initializeTriangulation ⟨1, 1 / 2, 3 / 10⟩ 0
    ⟨1 / 4, 1 / 2, 1 / 4⟩ (by decide!) (by decide!)).1

/-- C5 fails on the built-in mesh: at triangle 1 (vertices `(2,0)`, `(2,2)`, `(0,2)`) and
the point `(0.5, 0.5)` the weights are `(3/4, -1/2, 3/4)`, the most negative is weight 1,
and the walk follows `neighbors[1]` to triangle 2; yet the point is not outside edge 1 (the
edge joining vertex 1 and vertex 2), it is outside edge 2 (joining vertex 2 and vertex 0). -/
theorem C5_walk_follows_edge_not_crossed :
    initializeTriangulation.triangleVertices 1 = .ok (⟨2, 0, 0⟩, ⟨2, 2, 0⟩, ⟨0, 2, 0⟩) ∧
    DENOM_EPS ≤ |baryDenom ⟨2, 0, 0⟩ ⟨2, 2, 0⟩ ⟨0, 2, 0⟩| ∧
    getBarycentricCoordinates initializeTriangulation ⟨1 / 2, 1 / 2, 0⟩ 1
      = .ok ⟨3 / 4, -1 / 2, 3 / 4⟩ ∧
    nextEdgeOf ⟨3 / 4, -1 / 2, 3 / 4⟩ = 1 ∧
    walkBody initializeTriangulation ⟨1 / 2, 1 / 2, 0⟩ 1 = .ok (WalkStep.moveTo 2) ∧
    ¬ OutsideEdgeXY ⟨1 / 2, 1 / 2, 0⟩ ⟨2, 0, 0⟩ ⟨2, 2, 0⟩ ⟨0, 2, 0⟩ 1 ∧
    OutsideEdgeXY ⟨1 / 2, 1 / 2, 0⟩ ⟨2, 0, 0⟩ ⟨2, 2, 0⟩ ⟨0, 2, 0⟩ 2 := by
  refine ⟨by decide!, by decide!, by decide!, by decide!, by decide!, by decide!, by decide!⟩

/-- C6 fails on the built-in mesh: the point `(1.6, 0.5)`, the XY position the built-in
ball has after 600 steps, lies strictly inside triangle 1 (which accepts it), but the walk
seeded at triangle 0 stops at once at the boundary entry `neighbors[0]` and returns
triangle 0, where the weights of the point are `(-1/20, 4/5, 1/4)`; seeded at triangle 2
or 3 it returns triangle 3, where the weights are `(3/4, -1/5, 9/20)`. -/
theorem C6_builtin_walk_misses_containing_triangle :
    updatePhysicsN (fun x => if x = 16 then 4 else x) initializeTriangulation 600
      initializeBall = .ok ⟨⟨8 / 5, 1 / 2, 3 / 10⟩, ⟨1 / 10, 0, 0⟩, 0⟩ ∧
    initializeTriangulation.triangleVertices 1 = .ok (⟨2, 0, 0⟩, ⟨2, 2, 0⟩, ⟨0, 2, 0⟩) ∧
    StrictlyInsideXY ⟨8 / 5, 1 / 2, 3 / 10⟩ ⟨2, 0, 0⟩ ⟨2, 2, 0⟩ ⟨0, 2, 0⟩ ∧
    WalkConverges initializeTriangulation ⟨8 / 5, 1 / 2, 3 / 10⟩ 1 ∧
    walkFrom initializeTriangulation ⟨8 / 5, 1 / 2, 3 / 10⟩ 0 = .ok ⟨0, false, 0⟩ ∧
    walkFrom initializeTriangulation ⟨8 / 5, 1 / 2, 3 / 10⟩ 2 = .ok ⟨3, false, 1⟩ ∧
    walkFrom initializeTriangulation ⟨8 / 5, 1 / 2, 3 / 10⟩ 3 = .ok ⟨3, false, 0⟩ ∧
    getBarycentricCoordinates initializeTriangulation ⟨8 / 5, 1 / 2, 3 / 10⟩ 0
      = .ok ⟨-1 / 20, 4 / 5, 1 / 4⟩ ∧
    getBarycentricCoordinates initializeTriangulation ⟨8 / 5, 1 / 2, 3 / 10⟩ 3
      = .ok ⟨3 / 4, -1 / 5, 9 / 20⟩ ∧
    ¬ WalkConverges initializeTriangulation ⟨8 / 5, 1 / 2, 3 / 10⟩ 0 := by
  have h0 : walkFrom initializeTriangulation ⟨8 / 5, 1 / 2, 3 / 10⟩ 0
      = .ok ⟨0, false, 0⟩ := by decide!
  have hb0 : getBarycentricCoordinates initializeTriangulation ⟨8 / 5, 1 / 2, 3 / 10⟩ 0
      = .ok ⟨-1 / 20, 4 / 5, 1 / 4⟩ := by decide!
  have hb1 : getBarycentricCoordinates initializeTriangulation ⟨8 / 5, 1 / 2, 3 / 10⟩ 1
      = .ok ⟨3 / 4, 1 / 20, 1 / 5⟩ := by decide!
  refine ⟨by decide!, by decide!, by decide!, ?_, h0, by decide!, by decide!, hb0,
    by decide!, ?_⟩
  · refine ⟨1, _, ?_, hb1, by decide!, by decide!, by decide!⟩
    intro ball hs
    exact findContainingTriangle_of_walkFrom initializeTriangulation ball _ ⟨1, true, 0⟩
      (by rw [hs]; decide!)
  · rintro ⟨r, bary, hfind, hbary, hx, -⟩
    have hr := hfind ⟨⟨0, 0, 0⟩, ⟨0, 0, 0⟩, 0⟩ rfl
    rw [findContainingTriangle_of_walkFrom initializeTriangulation
      ⟨⟨0, 0, 0⟩, ⟨0, 0, 0⟩, 0⟩ _ ⟨0, false, 0⟩ h0] at hr
    cases hr
    rw [hb0] at hbary
    cases hbary
    revert hx
    decide!

/-- C7 (as stated) fails twice over. On `tinyMesh` triangles 0 and 1 list each other
across their shared edge (vertices 1 and 2), the point `(0.0005, 0.0005)` is the midpoint
of that edge, and seeded from either triangle the walk returns the seed, in which the
weights of the point are the sentinel `(-1, -1, -1)`. And in `float` arithmetic the claim
fails although both guards are silent: on `thinMesh` triangles 0 and 1 list each other
across their shared edge (vertices 1 and 2, at `(23,29)` and `(27,34)`), both computed
determinants are `1.0`, the point `(26.5, 33.375)` lies on that edge, the weights computed
in triangle 0 with every operation rounded to binary32 are `(-0.25, 0.25, 1.0)`, the
smallest is weight 0, `neighbors[0]` is `-1`, and the walk seeded at triangle 0 returns
triangle 0, which rejects the point. -/
theorem C7_shared_edge_counterexample :
    (¬ (∀ (m : Mesh) (P : Vec3) (a b : Int) (ta tb : Triangle) (i j : Fin 3) (p q : Vec3),
        m.triangleAt a = .ok ta → m.triangleAt b = .ok tb →
        ta.neighbors i = b → tb.neighbors j = a →
        ((ta.vertices i = tb.vertices j ∧ ta.vertices (i + 1) = tb.vertices (j + 1)) ∨
         (ta.vertices i = tb.vertices (j + 1) ∧ ta.vertices (i + 1) = tb.vertices j)) →
        m.vertexAt (ta.vertices i) = .ok p → m.vertexAt (ta.vertices (i + 1)) = .ok q →
        OnEdgeXY P p q →
        WalkConverges m P a ∧ WalkConverges m P b)) ∧
    (thinMesh.triangleAt 0 = .ok ⟨0, 1, 2, -1, 1, -1⟩ ∧
      thinMesh.triangleAt 1 = .ok ⟨1, 3, 2, -1, -1, 0⟩ ∧
      Triangle.neighbors ⟨0, 1, 2, -1, 1, -1⟩ 1 = 1 ∧
      Triangle.neighbors ⟨1, 3, 2, -1, -1, 0⟩ 2 = 0 ∧
      Triangle.vertices ⟨0, 1, 2, -1, 1, -1⟩ 1 = Triangle.vertices ⟨1, 3, 2, -1, -1, 0⟩ 0 ∧
      Triangle.vertices ⟨0, 1, 2, -1, 1, -1⟩ 2 = Triangle.vertices ⟨1, 3, 2, -1, -1, 0⟩ 2 ∧
      thinMesh.vertexAt 1 = .ok ⟨23, 29, 8⟩ ∧ thinMesh.vertexAt 2 = .ok ⟨27, 34, 0⟩ ∧
      OnEdgeXY ⟨53 / 2, 267 / 8, 0⟩ ⟨23, 29, 8⟩ ⟨27, 34, 0⟩ ∧
      (float32 (53 / 2) = 53 / 2 ∧ float32 (267 / 8) = 267 / 8) ∧
      thinMesh.triangleVertices 0 = .ok (⟨0, 0, 0⟩, ⟨23, 29, 8⟩, ⟨27, 34, 0⟩) ∧
      thinMesh.triangleVertices 1 = .ok (⟨23, 29, 8⟩, ⟨50, 63, 0⟩, ⟨27, 34, 0⟩) ∧
      baryDenomR float32 ⟨0, 0, 0⟩ ⟨23, 29, 8⟩ ⟨27, 34, 0⟩ = 1 ∧
      baryDenomR float32 ⟨23, 29, 8⟩ ⟨50, 63, 0⟩ ⟨27, 34, 0⟩ = 1 ∧
      ¬ ((1 : ℚ) < float32 DENOM_EPS) ∧
      getBarycentricCoordinatesR float32 thinMesh ⟨53 / 2, 267 / 8, 0⟩ 0
        = .ok ⟨-1 / 4, 1 / 4, 1⟩ ∧
      baryAcceptedR float32 ⟨-1 / 4, 1 / 4, 1⟩ = false ∧
      ¬ (BARY_TOL ≤ (-1 / 4 : ℚ)) ∧
      nextEdgeOf ⟨-1 / 4, 1 / 4, 1⟩ = 0 ∧
      Triangle.neighbors ⟨0, 1, 2, -1, 1, -1⟩ 0 = -1 ∧
      walkFromR float32 thinMesh ⟨53 / 2, 267 / 8, 0⟩ 0 = .ok ⟨0, false, 0⟩ ∧
      findContainingTriangleR float32 thinMesh ⟨⟨53 / 2, 267 / 8, 0⟩, ⟨0, 0, 0⟩, 0⟩
        ⟨53 / 2, 267 / 8, 0⟩ = .ok 0 ∧
      walkFrom thinMesh ⟨53 / 2, 267 / 8, 0⟩ 0 = .ok ⟨0, true, 0⟩) := by
  refine ⟨?_, by decide!, by decide!, by decide!, by decide!, by decide!, by decide!,
    by decide!, by decide!, ⟨7 / 8, by norm_num, by norm_num, by norm_num, by norm_num⟩,
    ⟨by decide!, by decide!⟩, by decide!, by decide!, by decide!, by decide!, by decide!,
    by decide!, by decide!, by decide!, by decide!, by decide!, by decide!, by decide!,
    by decide!⟩
  intro h
  have hP : OnEdgeXY ⟨1 / 2000, 1 / 2000, 0⟩ ⟨1 / 1000, 0, 0⟩ ⟨0, 1 / 1000, 0⟩ :=
    ⟨1 / 2, by norm_num, by norm_num, by norm_num, by norm_num⟩
  obtain ⟨⟨r, bary, hfind, hbary, hx, -⟩, -⟩ :=
    h tinyMesh ⟨1 / 2000, 1 / 2000, 0⟩ 0 1 ⟨0, 1, 2, -1, 1, -1⟩ ⟨1, 3, 2, -1, -1, 0⟩ 1 2
      ⟨1 / 1000, 0, 0⟩ ⟨0, 1 / 1000, 0⟩ (by decide!) (by decide!) (by decide!) (by decide!)
      (by decide!) (by decide!) (by decide!) hP
  have h0 : walkFrom tinyMesh ⟨1 / 2000, 1 / 2000, 0⟩ 0 = .ok ⟨0, false, 0⟩ := by decide!
  have hr := hfind ⟨⟨0, 0, 0⟩, ⟨0, 0, 0⟩, 0⟩ rfl
  rw [findContainingTriangle_of_walkFrom tinyMesh ⟨⟨0, 0, 0⟩, ⟨0, 0, 0⟩, 0⟩ _
    ⟨0, false, 0⟩ h0] at hr
  cases hr
  have hb0 : getBarycentricCoordinates tinyMesh ⟨1 / 2000, 1 / 2000, 0⟩ 0
      = .ok ⟨-1, -1, -1⟩ := by decide!
  rw [hb0] at hbary
  cases hbary
  revert hx
  decide!

/-- C7 (amended): in exact arithmetic (the walk on weights computed without rounding), for
two triangles that list each other as neighbours across a shared edge and that both have a
determinant of magnitude at least `1e-8`, and for every point on the shared edge, the walk
seeded from either triangle returns the seed itself, with `found = true` and no neighbour
step, and the weights of the point in it are all at least `-0.001`. -/
theorem C7_shared_edge_walk_converges (m : Mesh) (P : Vec3) (a b : Int) (ta tb : Triangle)
    (i j : Fin 3) (p q a0 a1 a2 b0 b1 b2 : Vec3)
    (hta : m.triangleAt a = .ok ta) (htb : m.triangleAt b = .ok tb)
    (_hab : ta.neighbors i = b) (_hba : tb.neighbors j = a)
    (hedge : (ta.vertices i = tb.vertices j ∧ ta.vertices (i + 1) = tb.vertices (j + 1)) ∨
      (ta.vertices i = tb.vertices (j + 1) ∧ ta.vertices (i + 1) = tb.vertices j))
    (hp : m.vertexAt (ta.vertices i) = .ok p)
    (hq : m.vertexAt (ta.vertices (i + 1)) = .ok q)
    (hP : OnEdgeXY P p q)
    (hva : m.triangleVertices a = .ok (a0, a1, a2))
    (hvb : m.triangleVertices b = .ok (b0, b1, b2))
    (hda : DENOM_EPS ≤ |baryDenom a0 a1 a2|)
    (hdb : DENOM_EPS ≤ |baryDenom b0 b1 b2|) :
    (WalkConverges m P a ∧ WalkConverges m P b) ∧
    walkFrom m P a = .ok ⟨a, true, 0⟩ ∧ walkFrom m P b = .ok ⟨b, true, 0⟩ ∧
    (∀ ball : BallState, ball.currentTriangle = a →
      findContainingTriangle m ball P = .ok a) ∧
    (∀ ball : BallState, ball.currentTriangle = b →
      findContainingTriangle m ball P = .ok b) ∧
    (∃ wa wb : Vec3, getBarycentricCoordinates m P a = .ok wa ∧
      getBarycentricCoordinates m P b = .ok wb ∧
      (0 ≤ wa.x ∧ 0 ≤ wa.y ∧ 0 ≤ wa.z) ∧ (0 ≤ wb.x ∧ 0 ≤ wb.y ∧ 0 ≤ wb.z)) ∧
    walkFromR (fun x => x) m P a = walkFrom m P a ∧
    walkFromR (fun x => x) m P b = walkFrom m P b := by
  have hPa := onEdge_of_edge_index m P a ta a0 a1 a2 hva hta i p q hp hq hP
  have hPb : OnEdgeXY P b0 b1 ∨ OnEdgeXY P b1 b2 ∨ OnEdgeXY P b2 b0 := by
    rcases hedge with ⟨e1, e2⟩ | ⟨e1, e2⟩
    · rw [e1] at hp
      rw [e2] at hq
      exact onEdge_of_edge_index m P b tb b0 b1 b2 hvb htb j p q hp hq hP
    · rw [e1] at hp
      rw [e2] at hq
      exact onEdge_of_edge_index m P b tb b0 b1 b2 hvb htb j q p hq hp hP.symm
  have hwa := walkFrom_on_edge m P a a0 a1 a2 hva hda hPa
  have hwb := walkFrom_on_edge m P b b0 b1 b2 hvb hdb hPb
  obtain ⟨wa, hba, hax, hay, haz⟩ := baryOfVertices_on_edge P a0 a1 a2 hda hPa
  obtain ⟨wb, hbb, hbx, hby, hbz⟩ := baryOfVertices_on_edge P b0 b1 b2 hdb hPb
  refine ⟨⟨walkConverges_on_edge m P a a0 a1 a2 hva hda hPa,
    walkConverges_on_edge m P b b0 b1 b2 hvb hdb hPb⟩, hwa, hwb, ?_, ?_,
    ⟨wa, wb, (getBarycentricCoordinates_eq m P a a0 a1 a2 hva).trans hba,
      (getBarycentricCoordinates_eq m P b b0 b1 b2 hvb).trans hbb,
      ⟨hax, hay, haz⟩, ⟨hbx, hby, hbz⟩⟩,
    walkFromR_exact m P a, walkFromR_exact m P b⟩
  · intro ball hs
    exact findContainingTriangle_of_walkFrom m ball P ⟨a, true, 0⟩ (by rw [hs]; exact hwa)
  · intro ball hs
    exact findContainingTriangle_of_walkFrom m ball P ⟨b, true, 0⟩ (by rw [hs]; exact hwb)

/-- C7 (amended) on `thinMesh`, at the point `(26.5, 33.375)` of the edge shared by its two
triangles: in exact arithmetic the walk seeded at either triangle returns the seed. -/
theorem C7_shared_edge_walk_converges_witness :
    walkFrom thinMesh ⟨53 / 2, 267 / 8, 0⟩ 0 = .ok ⟨0, true, 0⟩ ∧
    walkFrom thinMesh ⟨53 / 2, 267 / 8, 0⟩ 1 = .ok ⟨1, true, 0⟩ :=
  have h := C7_shared_edge_walk_converges thinMesh ⟨53 / 2, 267 / 8, 0⟩ 0 1
    ⟨0, 1, 2, -1, 1, -1⟩ ⟨1, 3, 2, -1, -1, 0⟩ 1 2
    ⟨23, 29, 8⟩ ⟨27, 34, 0⟩ ⟨0, 0, 0⟩ ⟨23, 29, 8⟩ ⟨27, 34, 0⟩
    ⟨23, 29, 8⟩ ⟨50, 63, 0⟩ ⟨27, 34, 0⟩
    (by decide!) (by decide!) (by decide!) (by decide!) (by decide!) (by decide!) (by decide!)
    ⟨7 / 8, by norm_num, by norm_num, by norm_num, by norm_num⟩
    (by decide!) (by decide!) (by decide!) (by decide!)
  ⟨h.2.1, h.2.2.1⟩

/-- C8: when the walk from `seed` has reached triangle `c` (after `k < 100` steps), `c`
rejects the point, and the neighbour entry selected by the most negative weight is `-1`, the
walk stops and returns `c`; and whatever the walk returns is different from `-1` and is a
triangle the walk reached (within 100 steps). -/
theorem C8_boundary_returns_last_tested (m : Mesh) (P : Vec3) (seed c : Int) (k : Nat)
    (bary : Vec3) (tri : Triangle)
    (hk : k < 100) (hreach : reachedAfter m P k seed = some c)
    (hbary : getBarycentricCoordinates m P c = .ok bary)
    (hrej : bary.x < BARY_TOL ∨ bary.y < BARY_TOL ∨ bary.z < BARY_TOL)
    (htri : m.triangleAt c = .ok tri)
    (hn : tri.neighbors (nextEdgeOf bary) = -1) :
    walkFrom m P seed = .ok ⟨c, false, k⟩ ∧
    (∀ ball : BallState, ball.currentTriangle = seed →
      findContainingTriangle m ball P = .ok c) ∧
    c ≠ -1 ∧
    (∀ (seed1 : Int) (P1 : Vec3) (st : WalkState), walkFrom m P1 seed1 = .ok st →
      st.current ≠ -1 ∧ st.iterations ≤ 100 ∧
      reachedAfter m P1 st.iterations seed1 = some st.current) := by
  have hacc : baryAccepted bary = false := by
    rw [Bool.eq_false_iff]
    intro h
    rw [baryAccepted_iff] at h
    rcases hrej with h1 | h1 | h1
    · exact absurd h.1 (not_le.mpr h1)
    · exact absurd h.2.1 (not_le.mpr h1)
    · exact absurd h.2.2 (not_le.mpr h1)
  have hbody := walkBody_boundary m P c bary tri hbary hacc htri hn
  have hw : walkFrom m P seed = .ok ⟨c, false, k⟩ := by
    unfold walkFrom
    have h100 : 100 = k + ((99 - k) + 1) := by omega
    rw [h100, walkLoop_reached m P k seed c _ 0 hreach,
      walkLoop_boundary m P (99 - k) c (0 + k) hbody, Nat.zero_add]
  have hvalid := walkBody_ok_valid m P c _ hbody
  refine ⟨hw, ?_, ?_, ?_⟩
  · intro ball hs
    exact findContainingTriangle_of_walkFrom m ball P ⟨c, false, k⟩ (by rw [hs]; exact hw)
  · intro hc
    rw [hc] at hvalid
    exact absurd hvalid.1 (by decide)
  · intro seed1 P1 st hst
    obtain ⟨k1, hk1, hit, hr, hend⟩ := walkLoop_ok_spec m P1 100 seed1 0 st hst
    rw [Nat.zero_add] at hit
    rw [hit]
    refine ⟨?_, hk1, hr⟩
    cases k1 with
    | zero =>
      rcases hend with h1 | h1 | h1
      · intro hc
        have := walkBody_ok_valid m P1 _ _ h1.2
        rw [hc] at this
        exact absurd this.1 (by decide)
      · intro hc
        have := walkBody_ok_valid m P1 _ _ h1.2
        rw [hc] at this
        exact absurd this.1 (by decide)
      · exact absurd h1.2 (by decide)
    | succ k2 => exact reachedAfter_succ_ne m P1 k2 seed1 _ hr

/-- C8 on the built-in mesh: seeded at triangle 2 with the point `(1.5, 1.5)`, the walk
reaches triangle 3 after one step and stops there at the boundary entry `neighbors[1]`. -/
theorem C8_boundary_returns_last_tested_witness :
    walkFrom initializeTriangulation ⟨3 / 2, 3 / 2, 0⟩ 2 = .ok ⟨3, false, 1⟩ :=
  (C8_boundary_returns_last_tested initializeTriangulation ⟨3 / 2, 3 / 2, 0⟩ 2 3 1
    ⟨1 / 4, -1 / 4, 1⟩ ⟨1, 5, 4, 2, -1, 1⟩ (by decide) (by decide!) (by decide!)
    (by decide!) (by decide!) (by decide!)).1

/-- C9: the walk ends after at most 100 neighbour steps in every mesh, cyclic neighbour
links included: the only fault it can end in is an index out of range; whatever it returns
is the triangle reached by the steps it took, at most 100 of them, and after 100 steps that
triangle is returned without having been accepted; and in a mesh with valid indices the walk
from a valid seed does return. -/
theorem C9_walk_terminates_within_100_steps (m : Mesh) (P : Vec3) (seed : Int) :
    (∀ f : Fault, walkFrom m P seed = .error f → f = Fault.indexOutOfRange) ∧
    (∀ st : WalkState, walkFrom m P seed = .ok st →
      st.iterations ≤ 100 ∧
      reachedAfter m P st.iterations seed = some st.current ∧
      (st.iterations = 100 → st.found = false)) ∧
    (m.WellFormed → m.validTriangle seed →
      ∃ st : WalkState, walkFrom m P seed = .ok st ∧
        ∀ ball : BallState, ball.currentTriangle = seed →
          findContainingTriangle m ball P = .ok st.current) := by
  refine ⟨fun f hf => walkLoop_error m P 100 seed 0 f hf, ?_, ?_⟩
  · intro st hst
    obtain ⟨k, hk, hit, hr, -⟩ := walkLoop_ok_spec m P 100 seed 0 st hst
    rw [Nat.zero_add] at hit
    refine ⟨by omega, by rw [hit]; exact hr, ?_⟩
    intro h100
    cases hf : st.found with
    | false => rfl
    | true =>
      have := walkLoop_found_lt m P 100 seed 0 st hst hf
      omega
  · intro hwf hseed
    obtain ⟨st, hst, -⟩ := walkLoop_total m hwf P 100 seed 0 hseed
    refine ⟨st, hst, ?_⟩
    intro ball hs
    exact findContainingTriangle_of_walkFrom m ball P st (by rw [hs]; exact hst)

/-- C9 on `cycleMesh`, whose neighbour links form a cycle: for the point `(2, 2)`, which
every triangle rejects, the walk from triangle 0 uses up its 100 steps and returns
triangle 1, the triangle reached by the 100th step. -/
theorem C9_walk_terminates_within_100_steps_witness :
    walkFrom cycleMesh ⟨2, 2, 0⟩ 0 = .ok ⟨1, false, 100⟩ ∧
    reachedAfter cycleMesh ⟨2, 2, 0⟩ 100 0 = some 1 ∧
    (∀ ball : BallState, ball.currentTriangle = 0 →
      findContainingTriangle cycleMesh ball ⟨2, 2, 0⟩ = .ok 1) := by
  obtain ⟨-, hres, htot⟩ := C9_walk_terminates_within_100_steps cycleMesh ⟨2, 2, 0⟩ 0
  obtain ⟨st, hst, hfind⟩ := htot (by decide!) (by decide!)
  have h : walkFrom cycleMesh ⟨2, 2, 0⟩ 0 = .ok ⟨1, false, 100⟩ := by decide!
  rw [h] at hst
  cases hst
  exact ⟨h, (hres _ h).2.1, hfind⟩

/-- C10: in a mesh whose vertex indices are valid and whose neighbour entries are `-1` or
valid triangle indices, from a state whose `currentTriangle` is valid,
`findContainingTriangle` and `updatePhysics` end without an out-of-range access (or any
other fault) and leave `currentTriangle` valid; so does any number of successive
`updatePhysics` steps. -/
theorem C10_indices_stay_in_range (sqrtF : ℚ → ℚ) (m : Mesh) (ball : BallState)
    (hwf : m.WellFormed) (hcur : m.validTriangle ball.currentTriangle) :
    (∀ P : Vec3, ∃ r, findContainingTriangle m ball P = .ok r ∧ m.validTriangle r) ∧
    (∃ ball1, updatePhysics sqrtF m ball = .ok ball1 ∧
      m.validTriangle ball1.currentTriangle) ∧
    (∀ n : Nat, ∃ ballN, updatePhysicsN sqrtF m n ball = .ok ballN ∧
      m.validTriangle ballN.currentTriangle) :=
  ⟨fun P => findContainingTriangle_ok_of_valid m hwf ball P hcur,
   updatePhysics_ok_of_valid sqrtF m hwf ball hcur,
   fun n => updatePhysicsN_ok_of_valid sqrtF m hwf n ball hcur⟩

/-- C10 on the built-in simulation, three steps (`sqrtF` exact on the one square it
meets, 16). -/
theorem C10_indices_stay_in_range_witness :
    ∃ ballN,
      updatePhysicsN (fun x => if x = 16 then 4 else x) initializeTriangulation 3
        initializeBall = .ok ballN ∧
      initializeTriangulation.validTriangle ballN.currentTriangle :=
  (C10_indices_stay_in_range (fun x => if x = 16 then 4 else x) initializeTriangulation
    initializeBall (by decide!) (by decide!)).2.2 3

/-- C11 fails on the built-in mesh: the neighbour-consistency invariant does not hold. None
of its seven links is consistent; for instance triangle 1 (vertices 1, 4, 3) lists
triangle 0 across its edge 0, the edge joining vertices 1 and 4, and triangle 0
(vertices 0, 1, 3) has no such edge; and triangle 3 lists triangle 1, which lists
triangles 0 and 2 only. -/
theorem C11_builtin_links_inconsistent :
    ¬ NeighbourConsistent initializeTriangulation ∧
    initializeTriangulation.triangleAt 1 = .ok ⟨1, 4, 3, 0, 2, -1⟩ ∧
    initializeTriangulation.triangleAt 0 = .ok ⟨0, 1, 3, -1, 1, -1⟩ ∧
    (∀ j : Fin 3, ¬ Triangle.hasEdge ⟨0, 1, 3, -1, 1, -1⟩ 1 4 j) ∧
    ¬ LinkConsistent initializeTriangulation 0 1 ∧
    ¬ LinkConsistent initializeTriangulation 1 0 ∧
    ¬ LinkConsistent initializeTriangulation 1 1 ∧
    ¬ LinkConsistent initializeTriangulation 2 1 ∧
    ¬ LinkConsistent initializeTriangulation 2 2 ∧
    ¬ LinkConsistent initializeTriangulation 3 0 ∧
    ¬ LinkConsistent initializeTriangulation 3 2 ∧
    initializeTriangulation.triangleAt 3 = .ok ⟨1, 5, 4, 2, -1, 1⟩ ∧
    (∀ j : Fin 3, Triangle.neighbors ⟨1, 4, 3, 0, 2, -1⟩ j ≠ 3) := by
  refine ⟨by decide!, by decide!, by decide!, by decide!, by decide!, by decide!,
    by decide!, by decide!, by decide!, by decide!, by decide!, by decide!, by decide!⟩

/-- C12: after a physics step the z coordinate of the position is at least the surface
height at the new position in the current triangle plus the ball radius; when the
integrated z coordinate was below that value the step leaves z equal to it, otherwise z
is as integrated; x and y are as integrated. In a mesh with valid indices the step, from
a valid current triangle, does end without a fault. -/
theorem C12_clamp_keeps_ball_above_surface (sqrtF : ℚ → ℚ) (m : Mesh) (ball : BallState) :
    (∀ ball1 : BallState, updatePhysics sqrtF m ball = .ok ball1 →
      ∃ (s : Integrated) (surfaceHeight : ℚ), integrate sqrtF m ball = .ok s ∧
        getSurfaceHeight m ball1.position ball1.currentTriangle = .ok surfaceHeight ∧
        surfaceHeight + BALL_RADIUS ≤ ball1.position.z ∧
        (s.position.z < surfaceHeight + BALL_RADIUS →
          ball1.position.z = surfaceHeight + BALL_RADIUS) ∧
        (surfaceHeight + BALL_RADIUS ≤ s.position.z → ball1.position.z = s.position.z) ∧
        ball1.position.x = s.position.x ∧ ball1.position.y = s.position.y) ∧
    (m.WellFormed → m.validTriangle ball.currentTriangle →
      ∃ ball1 : BallState, updatePhysics sqrtF m ball = .ok ball1) := by
  refine ⟨?_, ?_⟩
  · intro ball1 h
    obtain ⟨s, sh, hs, hsh, hb⟩ := integrate_of_updatePhysics sqrtF m ball ball1 h
    have hxy := clampToSurface_xy s sh
    have hct := clampToSurface_currentTriangle s sh
    rw [← hb] at hxy hct
    have hheight : getSurfaceHeight m ball1.position ball1.currentTriangle = .ok sh := by
      rw [hct, ← hsh]
      have e1 : ball1.position = ⟨s.position.x, s.position.y, ball1.position.z⟩ := by
        rw [← hxy.1, ← hxy.2]
      have e2 : s.position = ⟨s.position.x, s.position.y, s.position.z⟩ := rfl
      rw [e1, e2]
      exact getSurfaceHeight_xy m _ _ _ _ _
    refine ⟨s, sh, hs, hheight, ?_, ?_, ?_, hxy.1, hxy.2⟩
    · rw [hb]
      unfold clampToSurface
      split
      · exact le_refl _
      · next hlt => exact not_lt.mp hlt
    · intro hlt
      rw [hb]
      unfold clampToSurface
      simp only [hlt, if_true]
    · intro hge
      rw [hb]
      unfold clampToSurface
      simp only [not_lt.mpr hge, if_false]
  · intro hwf hcur
    obtain ⟨ball1, h1, -⟩ := updatePhysics_ok_of_valid sqrtF m hwf ball hcur
    exact ⟨ball1, h1⟩

/-- C12 on the built-in mesh: a ball at height `0.05` above the flat triangle 0 (surface
height 0) is lifted to `0.1`, the ball radius, with x and y as integrated. -/
theorem C12_clamp_keeps_ball_above_surface_witness :
    updatePhysics (fun x => if x = 16 then 4 else x) initializeTriangulation
        ⟨⟨1, 1 / 2, 1 / 20⟩, ⟨1 / 10, 0, 0⟩, 0⟩
      = .ok ⟨⟨1001 / 1000, 1 / 2, 1 / 10⟩, ⟨1 / 10, 0, 0⟩, 0⟩ ∧
    ∃ surfaceHeight : ℚ,
      getSurfaceHeight initializeTriangulation ⟨1001 / 1000, 1 / 2, 1 / 10⟩ 0
        = .ok surfaceHeight ∧
      surfaceHeight + BALL_RADIUS ≤ 1 / 10 := by
  have h : updatePhysics (fun x => if x = 16 then 4 else x) initializeTriangulation
      ⟨⟨1, 1 / 2, 1 / 20⟩, ⟨1 / 10, 0, 0⟩, 0⟩
      = .ok ⟨⟨1001 / 1000, 1 / 2, 1 / 10⟩, ⟨1 / 10, 0, 0⟩, 0⟩ := by decide!
  obtain ⟨s, sh, -, hsh, hle, -⟩ :=
    (C12_clamp_keeps_ball_above_surface (fun x => if x = 16 then 4 else x)
      initializeTriangulation ⟨⟨1, 1 / 2, 1 / 20⟩, ⟨1 / 10, 0, 0⟩, 0⟩).1 _ h
  exact ⟨h, sh, hsh, hle⟩

/-- C13: on a triangle whose computed normal `n` has squared length 1 (with the square
root of 1 computed as 1), when the surface clamp fires the velocity `v1` after the step
satisfies `dot(v1, n) = 0.5 * dot(v, n)` for the integrated velocity `v`, `v1 - v` is a
multiple of `n`, and the component along every direction orthogonal to `n` is unchanged;
when the clamp does not fire the velocity is the integrated velocity. -/
theorem C13_clamp_halves_normal_velocity (sqrtF : ℚ → ℚ) (m : Mesh) (ball : BallState)
    (s : Integrated) (surfaceHeight : ℚ)
    (hint : integrate sqrtF m ball = .ok s)
    (hsh : getSurfaceHeight m s.position s.currentTriangle = .ok surfaceHeight)
    (hunit : dot s.normal s.normal = 1) (hsqrt : sqrtF 1 = 1) :
    ∃ ball1 : BallState, updatePhysics sqrtF m ball = .ok ball1 ∧
      (s.position.z < surfaceHeight + BALL_RADIUS →
        dot ball1.velocity s.normal = 1 / 2 * dot s.velocity s.normal ∧
        ball1.velocity.sub s.velocity = s.normal.smul (-(1 / 2) * dot s.velocity s.normal) ∧
        ∀ t : Vec3, dot t s.normal = 0 → dot ball1.velocity t = dot s.velocity t) ∧
      (¬ s.position.z < surfaceHeight + BALL_RADIUS → ball1.velocity = s.velocity) := by
  obtain ⟨-, -, hnorm, -⟩ := integrate_spec sqrtF m ball s hint
  rw [normalize_of_unit sqrtF s.normal hunit hsqrt] at hnorm
  have hu : s.unitNormal = s.normal := (Except.ok.inj hnorm).symm
  have hstep : updatePhysics sqrtF m ball = .ok (clampToSurface s surfaceHeight) := by
    rw [updatePhysics_eq_clamp, hint]
    simp only [hsh]
  refine ⟨_, hstep, ?_, ?_⟩
  · intro hlt
    have hv : (clampToSurface s surfaceHeight).velocity =
        s.velocity.sub ((s.normal.smul (dot s.velocity s.normal)).smul (1 / 2)) := by
      unfold clampToSurface
      simp only [hlt, if_true, hu]
    rw [hv]
    have hn : s.normal.x * s.normal.x + s.normal.y * s.normal.y + s.normal.z * s.normal.z
        = 1 := hunit
    refine ⟨?_, ?_, ?_⟩
    · simp only [dot, Vec3.sub, Vec3.smul]
      linear_combination
        (-(1 / 2) * (s.velocity.x * s.normal.x + s.velocity.y * s.normal.y +
          s.velocity.z * s.normal.z)) * hn
    · simp only [dot, Vec3.sub, Vec3.smul, Vec3.mk.injEq]
      refine ⟨?_, ?_, ?_⟩ <;> ring
    · intro t ht
      have ht2 : t.x * s.normal.x + t.y * s.normal.y + t.z * s.normal.z = 0 := ht
      simp only [dot, Vec3.sub, Vec3.smul]
      linear_combination
        (-(1 / 2) * (s.velocity.x * s.normal.x + s.velocity.y * s.normal.y +
          s.velocity.z * s.normal.z)) * ht2
  · intro hge
    unfold clampToSurface
    simp only [hge, if_false]

/-- C13 on `tiltedMesh` (normal `(0, 3/5, 4/5)`): a ball below the surface moving down with
velocity `(0, 0, -1)` is clamped, and the normal component of its velocity is halved. -/
theorem C13_clamp_halves_normal_velocity_witness :
    ∃ ball1 : BallState,
      updatePhysics (fun x => if x = 25 then 5 else x) tiltedMesh
        ⟨⟨1 / 4, 1, -1⟩, ⟨0, 0, -1⟩, 0⟩ = .ok ball1 ∧
      dot ball1.velocity ⟨0, 3 / 5, 4 / 5⟩ =
        1 / 2 * dot ⟨0, 2943 / 125000, -508829 / 500000⟩ ⟨0, 3 / 5, 4 / 5⟩ := by
  obtain ⟨ball1, h1, h2, -⟩ :=
    C13_clamp_halves_normal_velocity (fun x => if x = 25 then 5 else x) tiltedMesh
      ⟨⟨1 / 4, 1, -1⟩, ⟨0, 0, -1⟩, 0⟩
      ⟨0, ⟨0, 3 / 5, 4 / 5⟩, ⟨0, 3 / 5, 4 / 5⟩, ⟨0, 2943 / 1250, -8829 / 5000⟩,
        ⟨0, 2943 / 125000, -508829 / 500000⟩,
        ⟨1 / 4, 12502943 / 12500000, -50508829 / 50000000⟩⟩
      (-37508829 / 50000000) (by decide!) (by decide!) (by decide!) (by decide!)
  exact ⟨ball1, h1, (h2 (by decide!)).1⟩

/-- C15: on a triangle whose computed normal `n` has squared length 1 (with the square
root of 1 computed as 1), the acceleration used by `updatePhysics` has no component along
the normal: `dot(acceleration, n) = 0`. -/
theorem C15_acceleration_tangent_to_surface (sqrtF : ℚ → ℚ) (m : Mesh) (ball : BallState)
    (s : Integrated)
    (hint : integrate sqrtF m ball = .ok s)
    (hunit : dot s.normal s.normal = 1) (hsqrt : sqrtF 1 = 1) :
    dot s.acceleration s.normal = 0 := by
  obtain ⟨-, -, hnorm, hacc, -⟩ := integrate_spec sqrtF m ball s hint
  rw [normalize_of_unit sqrtF s.normal hunit hsqrt] at hnorm
  have hu : s.unitNormal = s.normal := (Except.ok.inj hnorm).symm
  rw [hu] at hacc
  rw [hacc]
  have hn : s.normal.x * s.normal.x + s.normal.y * s.normal.y + s.normal.z * s.normal.z
      = 1 := hunit
  simp only [dot, Vec3.add, Vec3.sub, Vec3.smul, FRICTION]
  linear_combination (1 / 2 * G * s.normal.z) * hn

/-- C15 on `tiltedMesh`: the acceleration `(0, 2.3544, -1.7658)` is orthogonal to the
normal `(0, 3/5, 4/5)`. -/
theorem C15_acceleration_tangent_to_surface_witness :
    dot ⟨0, 2943 / 1250, -8829 / 5000⟩ ⟨0, 3 / 5, 4 / 5⟩ = 0 :=
  C15_acceleration_tangent_to_surface (fun x => if x = 25 then 5 else x) tiltedMesh
    ⟨⟨1 / 4, 1, 0⟩, ⟨0, 0, 0⟩, 0⟩
    ⟨0, ⟨0, 3 / 5, 4 / 5⟩, ⟨0, 3 / 5, 4 / 5⟩, ⟨0, 2943 / 1250, -8829 / 5000⟩,
      ⟨0, 2943 / 125000, -8829 / 500000⟩,
      ⟨1 / 4, 12502943 / 12500000, -8829 / 50000000⟩⟩
    (by decide!) (by decide!) (by decide!)

/-- C16: in `RollingBall::move`, when `findTriangle` finds the previously recorded triangle
and its normal `n` has `|nz| >= 1e-6`, the new acceleration is
`a = (g*nx/nz, g*ny/nz, g*(nz*nz - 1))` with `g = 9.81`, the new velocity is `v + a*dt` and
the new position is `p + (v + a*dt)*dt`. -/
theorem C16_slope_ratio_euler_step (sqrtF : ℚ → ℚ) (b : RollingBall) (surface : Mesh)
    (dt : ℚ) (i : Int) (n : Vec3)
    (hs : b.mSurface = some surface)
    (hf : TriangleSurface.findTriangle surface b.mPosition = .ok i) (hi : i ≠ -1)
    (hold : i = b.oldTriangleIndex)
    (hn : TriangleSurface.getNormal sqrtF surface i = .ok n)
    (hz : SURFACE_EPS ≤ |n.z|) :
    RollingBall.g = 981 / 100 ∧
    ∃ b1 : RollingBall, RollingBall.move sqrtF b dt = .ok (MoveOutcome.moved, b1) ∧
      b1.mAcceleration =
        ⟨RollingBall.g * n.x / n.z, RollingBall.g * n.y / n.z,
          RollingBall.g * (n.z * n.z - 1)⟩ ∧
      b1.mVelocity = b.mVelocity.add (b1.mAcceleration.smul dt) ∧
      b1.mPosition = b.mPosition.add ((b.mVelocity.add (b1.mAcceleration.smul dt)).smul dt) := by
  refine ⟨rfl, _, move_moved sqrtF b surface dt i n hs hf hi hn, ?_, ?_, ?_⟩
  · simp only [slopeAccel, slopeNz_of_ge n hz]
  · simp only [hold, ne_eq, not_true_eq_false, if_false]
  · rfl

/-- C16 on `tiltedMesh` (normal `(0, 3/5, 4/5)`): one `move(0.01)` of a ball constructed at
`(0.25, 1, 0)`. -/
theorem C16_slope_ratio_euler_step_witness :
    ∃ b1 : RollingBall,
      RollingBall.move (fun x => if x = 25 then 5 else x)
        ((RollingBall.construct (3 / 20) 1 ⟨1 / 4, 1, 0⟩).setSurface tiltedMesh) (1 / 100)
        = .ok (MoveOutcome.moved, b1) ∧
      b1.mAcceleration =
        ⟨RollingBall.g * 0 / (4 / 5), RollingBall.g * (3 / 5) / (4 / 5),
          RollingBall.g * (4 / 5 * (4 / 5) - 1)⟩ :=
  let ⟨b1, h1, h2, _⟩ :=
    (C16_slope_ratio_euler_step (fun x => if x = 25 then 5 else x)
      ((RollingBall.construct (3 / 20) 1 ⟨1 / 4, 1, 0⟩).setSurface tiltedMesh) tiltedMesh
      (1 / 100) 0 ⟨0, 3 / 5, 4 / 5⟩ rfl (by decide!) (by decide) (by decide!) (by decide!)
      (by decide!)).2
  ⟨b1, h1, h2⟩

/-- C17 (as stated) fails: on `rampsMesh` a ball constructed at `(1, 1, 1)` is, after
three calls of `move(1)`, on the tilted triangle 2 with velocity
`(7.3575, 7.3575, -7.0632)`; the fourth call finds it on the flat triangle 3, whose normal
is `(0, 0, 1)`, and computes the acceleration `(0, 0, 0)`, but the transition response
halves the velocity component along the collision axis: the step ends with velocity
`(7.3575, 3.67875, -7.0632)`. -/
theorem C17_flat_step_velocity_counterexample :
    SqrtExactAt rampsSqrt 400 ∧ SqrtExactAt rampsSqrt 256 ∧
    SqrtExactAt rampsSqrt (9 / 25) ∧ SqrtExactAt rampsSqrt 1 ∧
    moveN rampsSqrt 1 3 ((RollingBall.construct (3 / 20) 1 ⟨1, 1, 1⟩).setSurface rampsMesh)
      = .ok ⟨⟨3343 / 400, 9229 / 400, -8204 / 625⟩,
          ⟨2943 / 400, 2943 / 400, -8829 / 1250⟩, ⟨2943 / 400, 0, -8829 / 2500⟩,
          3 / 20, 1, some rampsMesh, ⟨3 / 5, 0, 4 / 5⟩, 2⟩ ∧
    TriangleSurface.findTriangle rampsMesh ⟨3343 / 400, 9229 / 400, -8204 / 625⟩ = .ok 3 ∧
    TriangleSurface.getNormal rampsSqrt rampsMesh 3 = .ok ⟨0, 0, 1⟩ ∧
    RollingBall.move rampsSqrt
        ⟨⟨3343 / 400, 9229 / 400, -8204 / 625⟩,
          ⟨2943 / 400, 2943 / 400, -8829 / 1250⟩, ⟨2943 / 400, 0, -8829 / 2500⟩,
          3 / 20, 1, some rampsMesh, ⟨3 / 5, 0, 4 / 5⟩, 2⟩ 1
      = .ok (MoveOutcome.moved,
        ⟨⟨3143 / 200, 3043 / 100, -25237 / 1250⟩,
          ⟨2943 / 400, 2943 / 800, -8829 / 1250⟩, ⟨0, 0, 0⟩,
          3 / 20, 1, some rampsMesh, ⟨0, 0, 1⟩, 3⟩) ∧
    (⟨2943 / 400, 2943 / 800, -8829 / 1250⟩ : Vec3)
      ≠ ⟨2943 / 400, 2943 / 400, -8829 / 1250⟩ := by
  refine ⟨by decide!, by decide!, by decide!, by decide!, by decide!, by decide!,
    by decide!, by decide!, by decide!⟩

/-- C17 (amended): on a flat horizontal triangle (normal `(0, 0, 1)`) `RollingBall::move`
computes the acceleration `(0, 0, 0)` and the position advances by exactly `velocity*dt`;
the velocity is unchanged by the step when the triangle found is the previously recorded
one. And `updatePhysics` on a triangle with that normal has an acceleration without x
and y component and leaves the x and y components of the velocity unchanged. -/
theorem C17_flat_triangle_no_drift (sqrtF : ℚ → ℚ) (b : RollingBall) (surface : Mesh)
    (dt : ℚ) (i : Int) (m : Mesh) (ball : BallState) (s : Integrated)
    (hs : b.mSurface = some surface)
    (hf : TriangleSurface.findTriangle surface b.mPosition = .ok i) (hi : i ≠ -1)
    (hn : TriangleSurface.getNormal sqrtF surface i = .ok ⟨0, 0, 1⟩)
    (hint : integrate sqrtF m ball = .ok s) (hflat : s.normal = ⟨0, 0, 1⟩) :
    (∃ b1 : RollingBall, RollingBall.move sqrtF b dt = .ok (MoveOutcome.moved, b1) ∧
      b1.mAcceleration = ⟨0, 0, 0⟩ ∧
      b1.mPosition = b.mPosition.add (b.mVelocity.smul dt) ∧
      (i = b.oldTriangleIndex → b1.mVelocity = b.mVelocity)) ∧
    (∃ ball1 : BallState, updatePhysics sqrtF m ball = .ok ball1 ∧
      s.acceleration.x = 0 ∧ s.acceleration.y = 0 ∧
      ball1.velocity.x = ball.velocity.x ∧ ball1.velocity.y = ball.velocity.y) := by
  have hacc : slopeAccel ⟨0, 0, 1⟩ = ⟨0, 0, 0⟩ :=
    slopeAccel_flat ⟨0, 0, 1⟩ rfl rfl (by norm_num)
  refine ⟨⟨_, move_moved sqrtF b surface dt i _ hs hf hi hn, ?_, ?_, ?_⟩, ?_⟩
  · exact hacc
  · simp only [hacc, add_zero_smul]
  · intro hold
    simp only [hold, ne_eq, not_true_eq_false, if_false, hacc, add_zero_smul]
  · obtain ⟨-, -, hnorm, hacc2, hvel, -⟩ := integrate_spec sqrtF m ball s hint
    obtain ⟨sh, -, hstep⟩ := updatePhysics_of_integrate sqrtF m ball s hint
    have hux : s.unitNormal.x = 0 ∧ s.unitNormal.y = 0 := by
      rw [hflat] at hnorm
      exact normalize_vertical sqrtF 1 s.unitNormal hnorm
    have hax : s.acceleration.x = 0 := by
      rw [hacc2]
      simp only [Vec3.add, Vec3.sub, Vec3.smul, hux.1, zero_mul, sub_zero, add_zero]
    have hay : s.acceleration.y = 0 := by
      rw [hacc2]
      simp only [Vec3.add, Vec3.sub, Vec3.smul, hux.2, zero_mul, sub_zero, add_zero]
    have hvx : s.velocity.x = ball.velocity.x := by
      rw [hvel]
      simp only [Vec3.add, Vec3.smul, hax, zero_mul, add_zero]
    have hvy : s.velocity.y = ball.velocity.y := by
      rw [hvel]
      simp only [Vec3.add, Vec3.smul, hay, zero_mul, add_zero]
    refine ⟨_, hstep, hax, hay, ?_, ?_⟩
    · rw [← hvx]
      unfold clampToSurface
      split
      · simp only [Vec3.sub, Vec3.smul, hux.1, zero_mul, sub_zero]
      · rfl
    · rw [← hvy]
      unfold clampToSurface
      split
      · simp only [Vec3.sub, Vec3.smul, hux.2, zero_mul, sub_zero]
      · rfl

/-- C17 (amended) on `flatPairMesh`: one `move(0.01)` of a ball with velocity
`(0.2, 0.1, 0)` on triangle 0, and one `updatePhysics` of a ball with velocity
`(0.2, 0.1, -1)` that is clamped. -/
theorem C17_flat_triangle_no_drift_witness :
    (∃ b1 : RollingBall,
      RollingBall.move (fun x => x)
        ⟨⟨1 / 10, 1 / 10, 3 / 10⟩, ⟨1 / 5, 1 / 10, 0⟩, ⟨0, 0, 0⟩, 3 / 20, 1,
          some flatPairMesh, ⟨0, 0, 1⟩, 0⟩ (1 / 100) = .ok (MoveOutcome.moved, b1) ∧
      b1.mAcceleration = ⟨0, 0, 0⟩ ∧
      b1.mPosition = Vec3.add ⟨1 / 10, 1 / 10, 3 / 10⟩ (Vec3.smul ⟨1 / 5, 1 / 10, 0⟩ (1 / 100)) ∧
      b1.mVelocity = ⟨1 / 5, 1 / 10, 0⟩) ∧
    (∃ ball1 : BallState,
      updatePhysics (fun x => x) flatPairMesh ⟨⟨1 / 10, 1 / 10, 1 / 20⟩, ⟨1 / 5, 1 / 10, -1⟩, 0⟩
        = .ok ball1 ∧
      ball1.velocity.x = 1 / 5 ∧ ball1.velocity.y = 1 / 10) := by
  obtain ⟨⟨b1, h1, h2, h3, h4⟩, ⟨ball1, h5, -, -, h6, h7⟩⟩ :=
    C17_flat_triangle_no_drift (fun x => x)
      ⟨⟨1 / 10, 1 / 10, 3 / 10⟩, ⟨1 / 5, 1 / 10, 0⟩, ⟨0, 0, 0⟩, 3 / 20, 1,
        some flatPairMesh, ⟨0, 0, 1⟩, 0⟩ flatPairMesh (1 / 100) 0 flatPairMesh
      ⟨⟨1 / 10, 1 / 10, 1 / 20⟩, ⟨1 / 5, 1 / 10, -1⟩, 0⟩
      ⟨0, ⟨0, 0, 1⟩, ⟨0, 0, 1⟩, ⟨0, 0, 0⟩, ⟨1 / 5, 1 / 10, -1⟩,
        ⟨51 / 500, 101 / 1000, 1 / 25⟩⟩
      rfl (by decide!) (by decide) (by decide!) (by decide!) rfl
  exact ⟨⟨b1, h1, h2, h3, h4 rfl⟩, ⟨ball1, h5, h6, h7⟩⟩

/-- C18 (as stated) fails: on `tiltedMesh`, whose triangle has normal `(0, 3/5, 4/5)`
(the plane `z = -(3/4) y`, which descends towards `+y`), a body dropped from rest has
after one step a velocity with a strictly positive y component in both models:
`7.3575 * 0.01` after `RollingBall::move(0.01)` and `2.3544 * 0.01` after
`updatePhysics`. -/
theorem C18_downhill_velocity_counterexample :
    TriangleSurface.getNormal (fun x => if x = 25 then 5 else x) tiltedMesh 0
      = .ok ⟨0, 3 / 5, 4 / 5⟩ ∧
    getTriangleNormal (fun x => if x = 25 then 5 else x) tiltedMesh 0
      = .ok ⟨0, 3 / 5, 4 / 5⟩ ∧
    SqrtExactAt (fun x => if x = 25 then 5 else x) 25 ∧
    SqrtExactAt (fun x => if x = 25 then 5 else x) 1 ∧
    RollingBall.move (fun x => if x = 25 then 5 else x)
        ((RollingBall.construct (3 / 20) 1 ⟨1 / 4, 1, 0⟩).setSurface tiltedMesh) (1 / 100)
      = .ok (MoveOutcome.moved,
        ⟨⟨1 / 4, 4002943 / 4000000, -8829 / 25000000⟩, ⟨0, 2943 / 40000, -8829 / 250000⟩,
          ⟨0, 2943 / 400, -8829 / 2500⟩, 3 / 20, 1, some tiltedMesh, ⟨0, 3 / 5, 4 / 5⟩, 0⟩) ∧
    updatePhysics (fun x => if x = 25 then 5 else x) tiltedMesh
        ⟨⟨1 / 4, 1, 0⟩, ⟨0, 0, 0⟩, 0⟩
      = .ok ⟨⟨1 / 4, 12502943 / 12500000, -8829 / 50000000⟩,
          ⟨0, 2943 / 125000, -8829 / 500000⟩, 0⟩ ∧
    ¬ ((2943 / 40000 : ℚ) < 0) ∧ ¬ ((2943 / 125000 : ℚ) < 0) := by
  refine ⟨by decide!, by decide!, by decide!, by decide!, by decide!, by decide!,
    by decide!, by decide!⟩

/-- C18 (amended): on a triangle with normal `(0, sn, cs)`, `sn = sin θ > 0`,
`cs = cos θ > 0`, a body dropped from rest has after one step of size `dt > 0` a velocity
whose y component is strictly positive (for this normal the surface descends towards `+y`)
and equal to the single forward-Euler value `a_y * dt`, with `a_y = g*sn/nz` in the
slope-ratio model (`nz = cs`, or `1e-6` when `cs < 1e-6`) and `a_y = 0.5*G*sn*cs` in the
tangent-projection model (step size `TIME_STEP`, square root of 1 computed as 1). -/
theorem C18_downhill_velocity_after_one_step (sqrtF : ℚ → ℚ) (radius mass : ℚ)
    (startPos : Vec3) (surface : Mesh) (dt : ℚ) (i : Int) (sn cs : ℚ)
    (m : Mesh) (ball : BallState) (s : Integrated)
    (hsn : 0 < sn) (hcs : 0 < cs) (hunit : sn * sn + cs * cs = 1) (hdt : 0 < dt)
    (hf : TriangleSurface.findTriangle surface startPos = .ok i) (hi : i ≠ -1)
    (hn : TriangleSurface.getNormal sqrtF surface i = .ok ⟨0, sn, cs⟩)
    (hrest : ball.velocity = ⟨0, 0, 0⟩)
    (hint : integrate sqrtF m ball = .ok s) (hnormal : s.normal = ⟨0, sn, cs⟩)
    (hsqrt : sqrtF 1 = 1) :
    (∃ b1 : RollingBall,
      RollingBall.move sqrtF ((RollingBall.construct radius mass startPos).setSurface surface)
        dt = .ok (MoveOutcome.moved, b1) ∧
      b1.mAcceleration.y = RollingBall.g * sn / (if cs < SURFACE_EPS then SURFACE_EPS else cs) ∧
      b1.mVelocity.y = b1.mAcceleration.y * dt ∧
      0 < b1.mVelocity.y) ∧
    (∃ ball1 : BallState, updatePhysics sqrtF m ball = .ok ball1 ∧
      s.acceleration.y = 1 / 2 * G * sn * cs ∧
      ball1.velocity.y = s.acceleration.y * TIME_STEP ∧
      0 < ball1.velocity.y) := by
  have hg : 0 < RollingBall.g := by unfold RollingBall.g; norm_num
  have hG : 0 < G := by unfold G; norm_num
  have hnzeq : slopeNz ⟨0, sn, cs⟩ = if cs < SURFACE_EPS then SURFACE_EPS else cs := by
    unfold slopeNz
    simp only [abs_of_pos hcs]
  have hnzpos : 0 < slopeNz ⟨0, sn, cs⟩ := by
    rw [hnzeq]
    split
    · unfold SURFACE_EPS; norm_num
    · exact hcs
  have hay : (slopeAccel ⟨0, sn, cs⟩).y = RollingBall.g * sn / slopeNz ⟨0, sn, cs⟩ := rfl
  have hax : (slopeAccel ⟨0, sn, cs⟩).x = 0 := by
    simp only [slopeAccel, mul_zero, zero_div]
  have haypos : 0 < (slopeAccel ⟨0, sn, cs⟩).y := by
    rw [hay]
    exact div_pos (mul_pos hg hsn) hnzpos
  refine ⟨?_, ?_⟩
  · have hmove := move_moved sqrtF
      ((RollingBall.construct radius mass startPos).setSurface surface) surface dt i
      ⟨0, sn, cs⟩ rfl hf hi hn
    have hvel : (if i ≠ ((RollingBall.construct radius mass startPos).setSurface
          surface).oldTriangleIndex then
        transitionResponse sqrtF
          ((RollingBall.construct radius mass startPos).setSurface surface).oldNormal
          ⟨0, sn, cs⟩
          (((RollingBall.construct radius mass startPos).setSurface surface).mVelocity.add
            ((slopeAccel ⟨0, sn, cs⟩).smul dt))
        else ((RollingBall.construct radius mass startPos).setSurface surface).mVelocity.add
          ((slopeAccel ⟨0, sn, cs⟩).smul dt)) =
        Vec3.add ⟨0, 0, 0⟩ ((slopeAccel ⟨0, sn, cs⟩).smul dt) := by
      split
      · exact transitionResponse_from_up sqrtF sn cs _ (by
          show (0 : ℚ) + (slopeAccel ⟨0, sn, cs⟩).x * dt = 0
          rw [hax]
          ring)
      · rfl
    rw [hvel] at hmove
    refine ⟨_, hmove, ?_, ?_, ?_⟩
    · show (slopeAccel ⟨0, sn, cs⟩).y = _
      rw [hay, hnzeq]
    · show (Vec3.add ⟨0, 0, 0⟩ ((slopeAccel ⟨0, sn, cs⟩).smul dt)).y =
        (slopeAccel ⟨0, sn, cs⟩).y * dt
      simp only [Vec3.add, Vec3.smul, zero_add]
    · show 0 < (Vec3.add ⟨0, 0, 0⟩ ((slopeAccel ⟨0, sn, cs⟩).smul dt)).y
      simp only [Vec3.add, Vec3.smul, zero_add]
      exact mul_pos haypos hdt
  · obtain ⟨-, -, hnorm, hacc, hvel, -⟩ := integrate_spec sqrtF m ball s hint
    obtain ⟨sh, -, hstep⟩ := updatePhysics_of_integrate sqrtF m ball s hint
    have hdotn : dot s.normal s.normal = 1 := by
      rw [hnormal]
      simp only [dot, mul_zero, zero_add]
      exact hunit
    rw [normalize_of_unit sqrtF s.normal hdotn hsqrt] at hnorm
    have hu : s.unitNormal = s.normal := (Except.ok.inj hnorm).symm
    rw [hu, hnormal] at hacc
    have hacc_x : s.acceleration.x = 0 := by
      rw [hacc]
      simp only [Vec3.add, Vec3.sub, Vec3.smul, zero_mul, sub_zero, add_zero]
    have hacc_y : s.acceleration.y = 1 / 2 * G * sn * cs := by
      rw [hacc]
      simp only [Vec3.add, Vec3.sub, Vec3.smul, dot, FRICTION]
      ring
    have hacc_z : s.acceleration.z = -(1 / 2) * G * sn * sn := by
      rw [hacc]
      simp only [Vec3.add, Vec3.sub, Vec3.smul, dot, FRICTION]
      linear_combination (1 / 2 * G) * hunit
    have hv : s.velocity = ⟨0, s.acceleration.y * TIME_STEP, s.acceleration.z * TIME_STEP⟩ := by
      rw [hvel, hrest]
      simp only [Vec3.add, Vec3.smul, zero_add, hacc_x, zero_mul]
    have hvn : dot s.velocity s.normal = 0 := by
      rw [hv, hnormal]
      simp only [dot, hacc_y, hacc_z]
      ring
    have hclamp : (clampToSurface s sh).velocity = s.velocity := by
      unfold clampToSurface
      split
      · simp only [hvn, Vec3.sub, Vec3.smul, mul_zero, zero_mul, sub_zero]
      · rfl
    have hypos : 0 < s.acceleration.y * TIME_STEP := by
      rw [hacc_y]
      unfold TIME_STEP
      have := mul_pos (mul_pos hG hsn) hcs
      linarith
    refine ⟨_, hstep, hacc_y, ?_, ?_⟩
    · rw [hclamp, hv]
    · rw [hclamp, hv]
      exact hypos

/-- C18 (amended) on `tiltedMesh`, `sin θ = 3/5`, `cos θ = 4/5`, `dt = 0.01`. -/
theorem C18_downhill_velocity_after_one_step_witness :
    (∃ b1 : RollingBall,
      RollingBall.move (fun x => if x = 25 then 5 else x)
        ((RollingBall.construct (3 / 20) 1 ⟨1 / 4, 1, 0⟩).setSurface tiltedMesh) (1 / 100)
        = .ok (MoveOutcome.moved, b1) ∧
      0 < b1.mVelocity.y) ∧
    (∃ ball1 : BallState,
      updatePhysics (fun x => if x = 25 then 5 else x) tiltedMesh
        ⟨⟨1 / 4, 1, 0⟩, ⟨0, 0, 0⟩, 0⟩ = .ok ball1 ∧
      0 < ball1.velocity.y) := by
  obtain ⟨⟨b1, h1, -, -, h2⟩, ⟨ball1, h3, -, -, h4⟩⟩ :=
    C18_downhill_velocity_after_one_step (fun x => if x = 25 then 5 else x) (3 / 20) 1
      ⟨1 / 4, 1, 0⟩ tiltedMesh (1 / 100) 0 (3 / 5) (4 / 5) tiltedMesh
      ⟨⟨1 / 4, 1, 0⟩, ⟨0, 0, 0⟩, 0⟩
      ⟨0, ⟨0, 3 / 5, 4 / 5⟩, ⟨0, 3 / 5, 4 / 5⟩, ⟨0, 2943 / 1250, -8829 / 5000⟩,
        ⟨0, 2943 / 125000, -8829 / 500000⟩,
        ⟨1 / 4, 12502943 / 12500000, -8829 / 50000000⟩⟩
      (by norm_num) (by norm_num) (by norm_num) (by norm_num) (by decide!) (by decide)
      (by decide!) rfl (by decide!) rfl (by decide!)
  exact ⟨⟨b1, h1, h2⟩, ⟨ball1, h3, h4⟩⟩

/-- C19 (as stated) fails: on `flatPairMesh` (two triangles sharing an edge, flat at
`z = 0`) a ball of radius `0.15` constructed at `(0.1, 0.1, 0.3)` is after one
`move(0.01)` still at `(0.1, 0.1, 0.3)` with zero velocity: its z coordinate is not
smaller than `0.3`. -/
theorem C19_flat_scenario_counterexample :
    SqrtExactAt (fun x => x) 1 ∧
    RollingBall.move (fun x => x)
        ((RollingBall.construct (3 / 20) 1 ⟨1 / 10, 1 / 10, 3 / 10⟩).setSurface flatPairMesh)
        (1 / 100)
      = .ok (MoveOutcome.moved,
        ⟨⟨1 / 10, 1 / 10, 3 / 10⟩, ⟨0, 0, 0⟩, ⟨0, 0, 0⟩, 3 / 20, 1, some flatPairMesh,
          ⟨0, 0, 1⟩, 0⟩) ∧
    ¬ ((3 / 10 : ℚ) < 3 / 10) := by
  refine ⟨by decide!, by decide!, by decide!⟩

/-- C19 (amended): on a surface whose found triangle is flat at `z = 0` (with the square
root exact on the squared length of its cross product) a ball at rest is, after one `move`,
at the same position with zero velocity and zero acceleration; in the scenario of the claim
z is still `0.3`, hence not below `0.15`, and x and y are still `0.1`. -/
theorem C19_flat_scenario_ball_stays (sqrtF : ℚ → ℚ) (b : RollingBall) (surface : Mesh)
    (dt : ℚ) (i : Int) (v0 v1 v2 : Vec3)
    (hs : b.mSurface = some surface) (hrest : b.mVelocity = ⟨0, 0, 0⟩)
    (hf : TriangleSurface.findTriangle surface b.mPosition = .ok i) (hi : i ≠ -1)
    (hv : surface.triangleVertices i = .ok (v0, v1, v2))
    (hz : v0.z = 0 ∧ v1.z = 0 ∧ v2.z = 0)
    (hsq : SqrtExactAt sqrtF
      (dot (cross (v1.sub v0) (v2.sub v0)) (cross (v1.sub v0) (v2.sub v0)))) :
    ∃ b1 : RollingBall, RollingBall.move sqrtF b dt = .ok (MoveOutcome.moved, b1) ∧
      b1.mPosition = b.mPosition ∧ b1.mVelocity = ⟨0, 0, 0⟩ ∧
      b1.mAcceleration = ⟨0, 0, 0⟩ := by
  obtain ⟨hvalid, w0, w1, w2, hw, hd⟩ := findTriangle_found surface b.mPosition i hf hi
  rw [hv] at hw
  have hw2 := Except.ok.inj hw
  simp only [Prod.mk.injEq] at hw2
  obtain ⟨e0, e1, e2⟩ := hw2
  rw [← e0, ← e1, ← e2] at hd
  have hdne : surfaceDenom v0 v1 v2 ≠ 0 := by
    intro h0
    rw [h0] at hd
    unfold SURFACE_EPS at hd
    norm_num at hd
  obtain ⟨n, hn, hnx, hny, hnz⟩ := getNormal_flat sqrtF surface i v0 v1 v2 hvalid hv hz hdne hsq
  have hacc := slopeAccel_flat n hnx hny hnz
  refine ⟨_, move_moved sqrtF b surface dt i n hs hf hi hn, ?_, ?_, hacc⟩
  · simp only [hacc, add_zero_smul, hrest]
  · simp only [hacc, add_zero_smul, hrest, transitionResponse_zero, ite_self]

/-- C19 (amended) in the scenario of the claim, on `flatPairMesh`. -/
theorem C19_flat_scenario_ball_stays_witness :
    ∃ b1 : RollingBall,
      RollingBall.move (fun x => x)
        ((RollingBall.construct (3 / 20) 1 ⟨1 / 10, 1 / 10, 3 / 10⟩).setSurface flatPairMesh)
        (1 / 100) = .ok (MoveOutcome.moved, b1) ∧
      b1.mPosition = ⟨1 / 10, 1 / 10, 3 / 10⟩ ∧ b1.mVelocity = ⟨0, 0, 0⟩ :=
  let ⟨b1, h1, h2, h3, _⟩ :=
    C19_flat_scenario_ball_stays (fun x => x)
      ((RollingBall.construct (3 / 20) 1 ⟨1 / 10, 1 / 10, 3 / 10⟩).setSurface flatPairMesh)
      flatPairMesh (1 / 100) 0 ⟨0, 0, 0⟩ ⟨1, 0, 0⟩ ⟨0, 1, 0⟩
      rfl rfl (by decide!) (by decide) (by decide!) (by decide!) (by decide!)
  ⟨b1, h1, h2, h3⟩

/-- C20: in `RollingBall::move`, when `findTriangle` returns `-1` the call takes the
off-surface exit without a fault (no triangle or vertex is read at index `-1`) and leaves
the ball as it was: position, velocity, acceleration, recorded triangle index and recorded
normal are unchanged. -/
theorem C20_off_surface_leaves_state (sqrtF : ℚ → ℚ) (b : RollingBall) (surface : Mesh)
    (dt : ℚ)
    (hs : b.mSurface = some surface)
    (hf : TriangleSurface.findTriangle surface b.mPosition = .ok (-1)) :
    ∃ b1 : RollingBall, RollingBall.move sqrtF b dt = .ok (MoveOutcome.offSurface, b1) ∧
      b1 = b ∧ b1.mPosition = b.mPosition ∧ b1.mVelocity = b.mVelocity ∧
      b1.oldTriangleIndex = b.oldTriangleIndex ∧ b1.oldNormal = b.oldNormal :=
  ⟨b, move_offSurface sqrtF b surface dt hs hf, rfl, rfl, rfl, rfl, rfl⟩

/-- C20 on `flatPairMesh`: a ball at `(2, 2, 0.3)`, outside both triangles. -/
theorem C20_off_surface_leaves_state_witness :
    RollingBall.move (fun x => x)
        ((RollingBall.construct (3 / 20) 1 ⟨2, 2, 3 / 10⟩).setSurface flatPairMesh) (1 / 100)
      = .ok (MoveOutcome.offSurface,
          (RollingBall.construct (3 / 20) 1 ⟨2, 2, 3 / 10⟩).setSurface flatPairMesh) := by
  obtain ⟨b1, h1, h2, -⟩ :=
    C20_off_surface_leaves_state (fun x => x)
      ((RollingBall.construct (3 / 20) 1 ⟨2, 2, 3 / 10⟩).setSurface flatPairMesh)
      flatPairMesh (1 / 100) rfl (by decide!)
  rw [h2] at h1
  exact h1

/-- C21: `updatePhysics` has no off-surface branch. In the built-in simulation the ball is
after 3100 steps at `(4.1, 0.5, 0.3)`, where each of the four triangles rejects it (a
weight below `-0.001`); the walk stops at the boundary entry of triangle 0 with
`found = false`, and the step goes on with triangle 0, moving the ball to
`(4.101, 0.5, 0.3)`. On `cycleMesh` the walk for `(2, 2)` uses up its 100 iterations and
ends at triangle 1 with `found = false`, where the weights are `(-3, 2, 2)`, and the step
goes on with triangle 1, moving the ball to `(2.01, 2, 1)`. -/
theorem C21_off_surface_step_continues :
    updatePhysicsN (fun x => if x = 16 then 4 else x) initializeTriangulation 3100
      initializeBall = .ok ⟨⟨41 / 10, 1 / 2, 3 / 10⟩, ⟨1 / 10, 0, 0⟩, 0⟩ ∧
    getBarycentricCoordinates initializeTriangulation ⟨41 / 10, 1 / 2, 3 / 10⟩ 0
      = .ok ⟨-13 / 10, 41 / 20, 1 / 4⟩ ∧
    getBarycentricCoordinates initializeTriangulation ⟨41 / 10, 1 / 2, 3 / 10⟩ 1
      = .ok ⟨3 / 4, 13 / 10, -21 / 20⟩ ∧
    getBarycentricCoordinates initializeTriangulation ⟨41 / 10, 1 / 2, 3 / 10⟩ 2
      = .ok ⟨-1 / 20, 4 / 5, 1 / 4⟩ ∧
    getBarycentricCoordinates initializeTriangulation ⟨41 / 10, 1 / 2, 3 / 10⟩ 3
      = .ok ⟨3 / 4, 21 / 20, -4 / 5⟩ ∧
    baryAccepted ⟨-13 / 10, 41 / 20, 1 / 4⟩ = false ∧
    baryAccepted ⟨3 / 4, 13 / 10, -21 / 20⟩ = false ∧
    baryAccepted ⟨-1 / 20, 4 / 5, 1 / 4⟩ = false ∧
    baryAccepted ⟨3 / 4, 21 / 20, -4 / 5⟩ = false ∧
    walkFrom initializeTriangulation ⟨41 / 10, 1 / 2, 3 / 10⟩ 0 = .ok ⟨0, false, 0⟩ ∧
    updatePhysics (fun x => if x = 16 then 4 else x) initializeTriangulation
        ⟨⟨41 / 10, 1 / 2, 3 / 10⟩, ⟨1 / 10, 0, 0⟩, 0⟩
      = .ok ⟨⟨4101 / 1000, 1 / 2, 3 / 10⟩, ⟨1 / 10, 0, 0⟩, 0⟩ ∧
    walkFrom cycleMesh ⟨2, 2, 1⟩ 0 = .ok ⟨1, false, 100⟩ ∧
    getBarycentricCoordinates cycleMesh ⟨2, 2, 1⟩ 1 = .ok ⟨-3, 2, 2⟩ ∧
    baryAccepted ⟨-3, 2, 2⟩ = false ∧
    updatePhysics (fun x => x) cycleMesh ⟨⟨2, 2, 1⟩, ⟨1, 0, 0⟩, 0⟩
      = .ok ⟨⟨201 / 100, 2, 1⟩, ⟨1, 0, 0⟩, 1⟩ := by
  refine ⟨?_, by decide!, by decide!, by decide!, by decide!, by decide!, by decide!,
    by decide!, by decide!, by decide!, by decide!, by decide!, by decide!, by decide!,
    by decide!⟩
  have h := builtin_updatePhysicsN (fun x => if x = 16 then 4 else x) (by decide!)
    (by decide!) 3100 1 le_rfl
  have hx : (1 : ℚ) + ((3100 : Nat) : ℚ) / 1000 = 41 / 10 := by norm_num
  rw [hx] at h
  exact h

/-- C22 (as stated) fails twice over. On `rampsMesh` a ball constructed at `(1, 1, 1)` is
after two calls of `move(1)` on the flat triangle 1; the third call finds it on triangle 2
(normal `(3/5, 0, 4/5)`), the axis `cross(oldNormal, normal) = (0, 3/5, 0)` is non-zero
and normalises to `c = (0, 1, 0)`, the integrated velocity `v` has `dot(v, c) = 7.3575`,
which is not negative, and the step leaves the velocity as integrated:
`dot(v', c) = 7.3575`, not `0.5 * 7.3575`. And on `ridgeMesh` a ball constructed at
`(1, 1, -0.75)` is after one call of `move(1)` over triangle 1; the second call finds it
there, the axis `cross(oldNormal, normal) = (-12/25, -12/25, 9/25)` has squared length
`369/625`, the integrated velocity has a negative component along it, the response is
applied, and whatever value the square root returns for `369/625` (a `double`, so a
rational number, whose square is not `369/625`) the component along the normalised axis
is not halved. -/
theorem C22_transition_counterexample :
    (moveN rampsSqrt 1 2 ((RollingBall.construct (3 / 20) 1 ⟨1, 1, 1⟩).setSurface rampsMesh)
      = .ok ⟨⟨1, 3143 / 200, -7579 / 1250⟩, ⟨0, 2943 / 400, -8829 / 2500⟩, ⟨0, 0, 0⟩,
          3 / 20, 1, some rampsMesh, ⟨0, 0, 1⟩, 1⟩ ∧
    TriangleSurface.findTriangle rampsMesh ⟨1, 3143 / 200, -7579 / 1250⟩ = .ok 2 ∧
    TriangleSurface.getNormal rampsSqrt rampsMesh 2 = .ok ⟨3 / 5, 0, 4 / 5⟩ ∧
    cross ⟨0, 0, 1⟩ ⟨3 / 5, 0, 4 / 5⟩ = ⟨0, 3 / 5, 0⟩ ∧
    SqrtExactAt rampsSqrt (dot ⟨0, 3 / 5, 0⟩ ⟨0, 3 / 5, 0⟩) ∧
    Vector3d.normalize rampsSqrt ⟨0, 3 / 5, 0⟩ = ⟨0, 1, 0⟩ ∧
    Vec3.add ⟨0, 2943 / 400, -8829 / 2500⟩ ((slopeAccel ⟨3 / 5, 0, 4 / 5⟩).smul 1)
      = ⟨2943 / 400, 2943 / 400, -8829 / 1250⟩ ∧
    RollingBall.move rampsSqrt
        ⟨⟨1, 3143 / 200, -7579 / 1250⟩, ⟨0, 2943 / 400, -8829 / 2500⟩, ⟨0, 0, 0⟩,
          3 / 20, 1, some rampsMesh, ⟨0, 0, 1⟩, 1⟩ 1
      = .ok (MoveOutcome.moved,
        ⟨⟨3343 / 400, 9229 / 400, -8204 / 625⟩,
          ⟨2943 / 400, 2943 / 400, -8829 / 1250⟩, ⟨2943 / 400, 0, -8829 / 2500⟩,
          3 / 20, 1, some rampsMesh, ⟨3 / 5, 0, 4 / 5⟩, 2⟩) ∧
    dot ⟨2943 / 400, 2943 / 400, -8829 / 1250⟩ ⟨0, 1, 0⟩
      ≠ 1 / 2 * dot ⟨2943 / 400, 2943 / 400, -8829 / 1250⟩ ⟨0, 1, 0⟩) ∧
    (cross ⟨3 / 5, 0, 4 / 5⟩ ⟨0, 3 / 5, 4 / 5⟩ = ⟨-12 / 25, -12 / 25, 9 / 25⟩ ∧
      dot (⟨-12 / 25, -12 / 25, 9 / 25⟩ : Vec3) ⟨-12 / 25, -12 / 25, 9 / 25⟩ = 369 / 625 ∧
      Vec3.add ⟨2943 / 400, 0, -8829 / 2500⟩ ((slopeAccel ⟨0, 3 / 5, 4 / 5⟩).smul 1)
        = ⟨2943 / 400, 2943 / 400, -8829 / 1250⟩ ∧
      ∀ sqrtF : ℚ → ℚ, sqrtF 400 = 20 →
        moveN sqrtF 1 1 ((RollingBall.construct (3 / 20) 1 ⟨1, 1, -3 / 4⟩).setSurface ridgeMesh)
          = .ok ⟨⟨3343 / 400, 1, -2676 / 625⟩, ⟨2943 / 400, 0, -8829 / 2500⟩,
              ⟨2943 / 400, 0, -8829 / 2500⟩, 3 / 20, 1, some ridgeMesh,
              ⟨3 / 5, 0, 4 / 5⟩, 0⟩ ∧
        TriangleSurface.findTriangle ridgeMesh ⟨3343 / 400, 1, -2676 / 625⟩ = .ok 1 ∧
        TriangleSurface.getNormal sqrtF ridgeMesh 1 = .ok ⟨0, 3 / 5, 4 / 5⟩ ∧
        ∃ b2 : RollingBall,
          RollingBall.move sqrtF
            ⟨⟨3343 / 400, 1, -2676 / 625⟩, ⟨2943 / 400, 0, -8829 / 2500⟩,
              ⟨2943 / 400, 0, -8829 / 2500⟩, 3 / 20, 1, some ridgeMesh,
              ⟨3 / 5, 0, 4 / 5⟩, 0⟩ 1 = .ok (MoveOutcome.moved, b2) ∧
          b2.oldTriangleIndex = 1 ∧
          dot ⟨2943 / 400, 2943 / 400, -8829 / 1250⟩
            (Vector3d.normalize sqrtF ⟨-12 / 25, -12 / 25, 9 / 25⟩) < 0 ∧
          dot b2.mVelocity (Vector3d.normalize sqrtF ⟨-12 / 25, -12 / 25, 9 / 25⟩)
            ≠ 1 / 2 * dot ⟨2943 / 400, 2943 / 400, -8829 / 1250⟩
                (Vector3d.normalize sqrtF ⟨-12 / 25, -12 / 25, 9 / 25⟩)) := by
  have hax : cross ⟨3 / 5, 0, 4 / 5⟩ ⟨0, 3 / 5, 4 / 5⟩
      = (⟨-12 / 25, -12 / 25, 9 / 25⟩ : Vec3) := by decide!
  have hd : dot (⟨-12 / 25, -12 / 25, 9 / 25⟩ : Vec3) ⟨-12 / 25, -12 / 25, 9 / 25⟩
      = 369 / 625 := by decide!
  have hv : Vec3.add ⟨2943 / 400, 0, -8829 / 2500⟩ ((slopeAccel ⟨0, 3 / 5, 4 / 5⟩).smul 1)
      = (⟨2943 / 400, 2943 / 400, -8829 / 1250⟩ : Vec3) := by decide!
  refine ⟨⟨by decide!, by decide!, by decide!, by decide!, by decide!, by decide!,
    by decide!, by decide!, by decide!⟩, hax, hd, hv, ?_⟩
  intro sqrtF h400
  obtain ⟨hn0, hn1⟩ := ridge_normals sqrtF h400
  have hf1 : TriangleSurface.findTriangle ridgeMesh ⟨3343 / 400, 1, -2676 / 625⟩ = .ok 1 := by
    decide!
  have hirr : ∀ L : ℚ,
      L * L ≠ dot (⟨-12 / 25, -12 / 25, 9 / 25⟩ : Vec3) ⟨-12 / 25, -12 / 25, 9 / 25⟩ := by
    intro L
    rw [hd]
    exact no_rat_sq_369 L
  obtain ⟨hneg, hnot⟩ := transition_not_halved sqrtF ⟨-12 / 25, -12 / 25, 9 / 25⟩
    ⟨2943 / 400, 2943 / 400, -8829 / 1250⟩ hirr (by decide!)
  refine ⟨?_, hf1, hn1, ?_⟩
  · have hm := move_same_triangle sqrtF
      ((RollingBall.construct (3 / 20) 1 ⟨1, 1, -3 / 4⟩).setSurface ridgeMesh) ridgeMesh 1 0
      ⟨3 / 5, 0, 4 / 5⟩ rfl (by decide!) (by decide) hn0 rfl
    rw [moveN, hm]
    simp only [moveN]
    decide!
  · refine ⟨_, move_other_triangle sqrtF _ ridgeMesh 1 1 ⟨0, 3 / 5, 4 / 5⟩ rfl hf1
      (by decide) hn1 (by decide), rfl, hneg, ?_⟩
    show dot (transitionResponse sqrtF ⟨3 / 5, 0, 4 / 5⟩ ⟨0, 3 / 5, 4 / 5⟩
      (Vec3.add ⟨2943 / 400, 0, -8829 / 2500⟩ ((slopeAccel ⟨0, 3 / 5, 4 / 5⟩).smul 1))) _ ≠ _
    rw [hv]
    unfold transitionResponse
    rw [hax]
    simp only [hneg, if_true]
    exact hnot

/-- C22 (amended): in `RollingBall::move`, when the triangle found differs from the
recorded one, with `c` the axis `cross(oldNormal, normal)` as `Vector3d::normalize` returns
it and `v` the integrated velocity, whatever the square root returns: if `dot(v, c) < 0`
the velocity after the step is `v1 = v - c*dot(v, c)*0.5`, with
`dot(v1, c) = (1 - 0.5*|c|^2) * dot(v, c)`, which is `0.5 * dot(v, c)` exactly when `c` has
squared length 1, and the components of `v1` orthogonal to `c` are those of `v`; if
`dot(v, c) >= 0` the velocity after the step is `v`; the recorded triangle after the step
is the triangle found. When the axis is non-zero and the square root is exact on its
squared length, `c` has squared length 1 and the component is halved. -/
theorem C22_transition_response (sqrtF : ℚ → ℚ) (b : RollingBall) (surface : Mesh)
    (dt : ℚ) (i : Int) (normal : Vec3)
    (hs : b.mSurface = some surface)
    (hf : TriangleSurface.findTriangle surface b.mPosition = .ok i) (hi : i ≠ -1)
    (hn : TriangleSurface.getNormal sqrtF surface i = .ok normal)
    (hdiff : i ≠ b.oldTriangleIndex) :
    ∃ b1 : RollingBall, RollingBall.move sqrtF b dt = .ok (MoveOutcome.moved, b1) ∧
      b1.oldTriangleIndex = i ∧ b1.oldNormal = normal ∧
      (dot (b.mVelocity.add ((slopeAccel normal).smul dt))
          (Vector3d.normalize sqrtF (cross b.oldNormal normal)) < 0 →
        b1.mVelocity = (b.mVelocity.add ((slopeAccel normal).smul dt)).sub
          (((Vector3d.normalize sqrtF (cross b.oldNormal normal)).smul
            (dot (b.mVelocity.add ((slopeAccel normal).smul dt))
              (Vector3d.normalize sqrtF (cross b.oldNormal normal)))).smul (1 / 2)) ∧
        dot b1.mVelocity (Vector3d.normalize sqrtF (cross b.oldNormal normal)) =
          (1 - 1 / 2 * dot (Vector3d.normalize sqrtF (cross b.oldNormal normal))
              (Vector3d.normalize sqrtF (cross b.oldNormal normal))) *
            dot (b.mVelocity.add ((slopeAccel normal).smul dt))
              (Vector3d.normalize sqrtF (cross b.oldNormal normal)) ∧
        (dot b1.mVelocity (Vector3d.normalize sqrtF (cross b.oldNormal normal)) =
            1 / 2 * dot (b.mVelocity.add ((slopeAccel normal).smul dt))
              (Vector3d.normalize sqrtF (cross b.oldNormal normal)) ↔
          dot (Vector3d.normalize sqrtF (cross b.oldNormal normal))
            (Vector3d.normalize sqrtF (cross b.oldNormal normal)) = 1) ∧
        ∀ t : Vec3, dot t (Vector3d.normalize sqrtF (cross b.oldNormal normal)) = 0 →
          dot b1.mVelocity t = dot (b.mVelocity.add ((slopeAccel normal).smul dt)) t) ∧
      (0 ≤ dot (b.mVelocity.add ((slopeAccel normal).smul dt))
          (Vector3d.normalize sqrtF (cross b.oldNormal normal)) →
        b1.mVelocity = b.mVelocity.add ((slopeAccel normal).smul dt)) ∧
      (cross b.oldNormal normal ≠ ⟨0, 0, 0⟩ →
        SqrtExactAt sqrtF (dot (cross b.oldNormal normal) (cross b.oldNormal normal)) →
        dot (Vector3d.normalize sqrtF (cross b.oldNormal normal))
          (Vector3d.normalize sqrtF (cross b.oldNormal normal)) = 1 ∧
        (dot (b.mVelocity.add ((slopeAccel normal).smul dt))
            (Vector3d.normalize sqrtF (cross b.oldNormal normal)) < 0 →
          dot b1.mVelocity (Vector3d.normalize sqrtF (cross b.oldNormal normal)) =
            1 / 2 * dot (b.mVelocity.add ((slopeAccel normal).smul dt))
              (Vector3d.normalize sqrtF (cross b.oldNormal normal)))) := by
  have hfire : dot (b.mVelocity.add ((slopeAccel normal).smul dt))
        (Vector3d.normalize sqrtF (cross b.oldNormal normal)) < 0 →
      transitionResponse sqrtF b.oldNormal normal
          (b.mVelocity.add ((slopeAccel normal).smul dt)) =
        (b.mVelocity.add ((slopeAccel normal).smul dt)).sub
          (((Vector3d.normalize sqrtF (cross b.oldNormal normal)).smul
            (dot (b.mVelocity.add ((slopeAccel normal).smul dt))
              (Vector3d.normalize sqrtF (cross b.oldNormal normal)))).smul (1 / 2)) := by
    intro hneg
    unfold transitionResponse
    simp only [hneg, if_true]
  refine ⟨_, move_other_triangle sqrtF b surface dt i normal hs hf hi hn hdiff, rfl, rfl,
    ?_, ?_, ?_⟩
  · intro hneg
    show transitionResponse sqrtF b.oldNormal normal _ = _ ∧
      dot (transitionResponse sqrtF b.oldNormal normal _) _ = _ ∧
      (dot (transitionResponse sqrtF b.oldNormal normal _) _ = _ ↔ _) ∧
      ∀ t : Vec3, _ → dot (transitionResponse sqrtF b.oldNormal normal _) t = _
    rw [hfire hneg]
    exact ⟨rfl, (damp_along _ _).1, damp_halves_iff _ _ (ne_of_lt hneg), (damp_along _ _).2⟩
  · intro hge
    show transitionResponse sqrtF b.oldNormal normal _ = _
    unfold transitionResponse
    simp only [not_lt.mpr hge, if_false]
  · intro haxis hsq
    have hd := dot_self_ne_zero _ haxis
    have hc : dot (Vector3d.normalize sqrtF (cross b.oldNormal normal))
        (Vector3d.normalize sqrtF (cross b.oldNormal normal)) = 1 := by
      rw [vector3d_normalize_eq sqrtF _ hd hsq]
      exact dot_div_length sqrtF _ hd hsq
    refine ⟨hc, ?_⟩
    intro hneg
    show dot (transitionResponse sqrtF b.oldNormal normal _) _ = _
    rw [hfire hneg]
    exact (damp_along_unit _ _ hc).1

/-- C22 (amended) on `rampsMesh`: the fourth `move(1)` of the run, from the tilted
triangle 2 onto the flat triangle 3, where `dot(v, c) = -7.3575` is negative and the
square root is exact on the squared length of the axis. -/
theorem C22_transition_response_witness :
    ∃ b1 : RollingBall,
      RollingBall.move rampsSqrt
        ⟨⟨3343 / 400, 9229 / 400, -8204 / 625⟩,
          ⟨2943 / 400, 2943 / 400, -8829 / 1250⟩, ⟨2943 / 400, 0, -8829 / 2500⟩,
          3 / 20, 1, some rampsMesh, ⟨3 / 5, 0, 4 / 5⟩, 2⟩ 1 = .ok (MoveOutcome.moved, b1) ∧
      b1.oldTriangleIndex = 3 ∧
      dot b1.mVelocity (Vector3d.normalize rampsSqrt (cross ⟨3 / 5, 0, 4 / 5⟩ ⟨0, 0, 1⟩)) =
        1 / 2 * dot (Vec3.add ⟨2943 / 400, 2943 / 400, -8829 / 1250⟩
            ((slopeAccel ⟨0, 0, 1⟩).smul 1))
          (Vector3d.normalize rampsSqrt (cross ⟨3 / 5, 0, 4 / 5⟩ ⟨0, 0, 1⟩)) :=
  let ⟨b1, h1, h2, _, _, _, h6⟩ :=
    C22_transition_response rampsSqrt
      ⟨⟨3343 / 400, 9229 / 400, -8204 / 625⟩,
        ⟨2943 / 400, 2943 / 400, -8829 / 1250⟩, ⟨2943 / 400, 0, -8829 / 2500⟩,
        3 / 20, 1, some rampsMesh, ⟨3 / 5, 0, 4 / 5⟩, 2⟩ rampsMesh 1 3 ⟨0, 0, 1⟩
      rfl (by decide!) (by decide) (by decide!) (by decide)
  ⟨b1, h1, h2, (h6 (by decide!) (by decide!)).2 (by decide!)⟩

/-- C24: for a triangle index that is negative or at least the number of triangles
(every index, on an empty mesh) `TriangleSurface::getNormal` returns `(0, 0, 1)`, whatever
the mesh holds; and for a vertex index that is negative or at least the number of
vertices `getVertex` returns `(0, 0, 0)`. -/
theorem C24_out_of_range_defaults (sqrtF : ℚ → ℚ) (m : Mesh) (i j : Int)
    (hi : i < 0 ∨ i ≥ (m.triangles.length : Int))
    (hj : j < 0 ∨ j ≥ (m.vertices.length : Int)) :
    TriangleSurface.getNormal sqrtF m i = .ok ⟨0, 0, 1⟩ ∧
    TriangleSurface.getVertex m j = .ok ⟨0, 0, 0⟩ ∧
    (∀ k : Int, TriangleSurface.getNormal sqrtF ⟨[], []⟩ k = .ok ⟨0, 0, 1⟩) ∧
    (∀ k : Int, TriangleSurface.getVertex ⟨[], []⟩ k = .ok ⟨0, 0, 0⟩) := by
  refine ⟨?_, ?_, ?_, ?_⟩
  · unfold TriangleSurface.getNormal
    simp only [hi, if_true]
  · unfold TriangleSurface.getVertex
    have h : ¬ (j ≥ 0 ∧ j < (m.vertices.length : Int)) := by omega
    simp only [h, if_false]
  · intro k
    unfold TriangleSurface.getNormal
    have h : k < 0 ∨ k ≥ ((([] : List Triangle).length : Nat) : Int) := by
      simp only [List.length_nil, Nat.cast_zero]
      omega
    simp only [h, if_true]
  · intro k
    unfold TriangleSurface.getVertex
    have h : ¬ (k ≥ 0 ∧ k < ((([] : List Vec3).length : Nat) : Int)) := by
      simp only [List.length_nil, Nat.cast_zero]
      omega
    simp only [h, if_false]

/-- C24 on `flatPairMesh`: triangle indices `-1` and `2` and vertex index `4` are out of
range. -/
theorem C24_out_of_range_defaults_witness :
    TriangleSurface.getNormal (fun x => x) flatPairMesh 2 = .ok ⟨0, 0, 1⟩ ∧
    TriangleSurface.getVertex flatPairMesh 4 = .ok ⟨0, 0, 0⟩ :=
  let h := C24_out_of_range_defaults (fun x => x) flatPairMesh 2 4 (by decide) (by decide)
  ⟨h.1, h.2.1⟩

/-- C25 (as stated) fails twice over. On `collinearMesh` the in-range triangle 0 has
parallel edge vectors, the cross product is `(0, 0, 0)`, and both `getNormal` and
`getTriangleNormal` return `(0, 0, 0)`, whose length is 0. And on `skewMesh` the edge
vectors `(1, 0, 0)` and `(0, 1, 1)` are not parallel, their cross product `(0, -1, 1)` has
squared length 2, and whatever value the square root returns (a `double` or `float`, so a
rational number, whose square is not 2), the normals returned by `getNormal` and by
`getTriangleNormal` do not have squared length 1. -/
theorem C25_unit_normal_counterexample :
    (collinearMesh.validTriangle 0 ∧
      SqrtExactAt (fun x => x) 0 ∧
      TriangleSurface.getNormal (fun x => x) collinearMesh 0 = .ok ⟨0, 0, 0⟩ ∧
      getTriangleNormal (fun x => x) collinearMesh 0 = .ok ⟨0, 0, 0⟩ ∧
      Vector3d.length (fun x => x) ⟨0, 0, 0⟩ ≠ 1 ∧
      dot (⟨0, 0, 0⟩ : Vec3) ⟨0, 0, 0⟩ ≠ 1) ∧
    (skewMesh.validTriangle 0 ∧
      skewMesh.triangleVertices 0 = .ok (⟨0, 0, 0⟩, ⟨1, 0, 0⟩, ⟨0, 1, 1⟩) ∧
      triangleCross ⟨0, 0, 0⟩ ⟨1, 0, 0⟩ ⟨0, 1, 1⟩ = ⟨0, -1, 1⟩ ∧
      dot (⟨0, -1, 1⟩ : Vec3) ⟨0, -1, 1⟩ = 2 ∧
      ∀ sqrtF : ℚ → ℚ, ∃ n n1 : Vec3,
        TriangleSurface.getNormal sqrtF skewMesh 0 = .ok n ∧
        getTriangleNormal sqrtF skewMesh 0 = .ok n1 ∧
        dot n n ≠ 1 ∧ dot n1 n1 ≠ 1) := by
  have hv : skewMesh.triangleVertices 0 = .ok (⟨0, 0, 0⟩, ⟨1, 0, 0⟩, ⟨0, 1, 1⟩) := by
    decide!
  have hc : triangleCross ⟨0, 0, 0⟩ ⟨1, 0, 0⟩ ⟨0, 1, 1⟩ = ⟨0, -1, 1⟩ := by decide!
  have hd : dot (⟨0, -1, 1⟩ : Vec3) ⟨0, -1, 1⟩ = 2 := by decide!
  have hirr : ∀ L : ℚ, L * L ≠ dot (⟨0, -1, 1⟩ : Vec3) ⟨0, -1, 1⟩ := by
    intro L
    rw [hd]
    exact no_rat_sq_two L
  refine ⟨⟨by decide!, by decide!, by decide!, by decide!, by decide!, by decide!⟩,
    by decide!, hv, hc, hd, ?_⟩
  intro sqrtF
  obtain ⟨n1, hn1⟩ := normalize_ok sqrtF ⟨0, -1, 1⟩
  have hg : getTriangleNormal sqrtF skewMesh 0 = .ok n1 := by
    rw [getTriangleNormal_eq sqrtF skewMesh 0 _ _ _ hv, hc]
    exact hn1
  have hcross : cross (Vec3.sub ⟨1, 0, 0⟩ ⟨0, 0, 0⟩) (Vec3.sub ⟨0, 1, 1⟩ ⟨0, 0, 0⟩)
      = (⟨0, -1, 1⟩ : Vec3) := by decide!
  refine ⟨Vector3d.normalize sqrtF ⟨0, -1, 1⟩, n1, ?_, hg,
    vector3d_normalize_not_unit sqrtF _ hirr, glm_normalize_not_unit sqrtF _ n1 hirr hn1⟩
  rw [getNormal_of_vertices sqrtF skewMesh 0 _ _ _ (by decide!) hv, hcross]

/-- C25 (amended): for every in-range triangle and whatever the square root returns,
`TriangleSurface::getNormal` and `BallSimulation::getTriangleNormal` return a normal that
is perpendicular to both edge vectors `v1 - v0` and `v2 - v0`; it is `(0, 0, 0)` when the
edge vectors are parallel; when the computed length `L` of the cross product is positive
it is the cross product divided by `L`, the same vector from both functions, with squared
length `|cross|^2 / L^2`, which is 1 exactly when `L^2 = |cross|^2`; so with the square
root exact on `|cross|^2` (and on 1) the normal of a triangle with non-parallel edges has
length exactly 1. -/
theorem C25_normal_is_unit (sqrtF : ℚ → ℚ) (m : Mesh) (i : Int) (v0 v1 v2 : Vec3)
    (hi : m.validTriangle i)
    (hv : m.triangleVertices i = .ok (v0, v1, v2)) :
    ∃ n n1 : Vec3, TriangleSurface.getNormal sqrtF m i = .ok n ∧
      getTriangleNormal sqrtF m i = .ok n1 ∧
      (dot n (v1.sub v0) = 0 ∧ dot n (v2.sub v0) = 0 ∧
        dot n1 (v1.sub v0) = 0 ∧ dot n1 (v2.sub v0) = 0) ∧
      (triangleCross v0 v1 v2 = ⟨0, 0, 0⟩ → n = ⟨0, 0, 0⟩ ∧ n1 = ⟨0, 0, 0⟩) ∧
      (0 < length sqrtF (triangleCross v0 v1 v2) →
        n = ⟨(triangleCross v0 v1 v2).x / length sqrtF (triangleCross v0 v1 v2),
             (triangleCross v0 v1 v2).y / length sqrtF (triangleCross v0 v1 v2),
             (triangleCross v0 v1 v2).z / length sqrtF (triangleCross v0 v1 v2)⟩ ∧
        n1 = n ∧
        dot n n * (length sqrtF (triangleCross v0 v1 v2) *
            length sqrtF (triangleCross v0 v1 v2))
          = dot (triangleCross v0 v1 v2) (triangleCross v0 v1 v2) ∧
        (dot n n = 1 ↔
          length sqrtF (triangleCross v0 v1 v2) * length sqrtF (triangleCross v0 v1 v2)
            = dot (triangleCross v0 v1 v2) (triangleCross v0 v1 v2))) ∧
      (triangleCross v0 v1 v2 ≠ ⟨0, 0, 0⟩ →
        SqrtExactAt sqrtF (dot (triangleCross v0 v1 v2) (triangleCross v0 v1 v2)) →
        0 < length sqrtF (triangleCross v0 v1 v2) ∧ n1 = n ∧ dot n n = 1 ∧
        (SqrtExactAt sqrtF 1 → length sqrtF n = 1 ∧ Vector3d.length sqrtF n = 1)) := by
  have hcross : cross (v1.sub v0) (v2.sub v0) = triangleCross v0 v1 v2 := rfl
  have hl : length sqrtF (triangleCross v0 v1 v2) =
      sqrtF (dot (triangleCross v0 v1 v2) (triangleCross v0 v1 v2)) := rfl
  have hgn : TriangleSurface.getNormal sqrtF m i =
      .ok (Vector3d.normalize sqrtF (triangleCross v0 v1 v2)) := by
    rw [getNormal_of_vertices sqrtF m i v0 v1 v2 hi hv, hcross]
  obtain ⟨n1, hn1⟩ := normalize_ok sqrtF (triangleCross v0 v1 v2)
  have hgt : getTriangleNormal sqrtF m i = .ok n1 := by
    rw [getTriangleNormal_eq sqrtF m i v0 v1 v2 hv]
    exact hn1
  have hpos : 0 < length sqrtF (triangleCross v0 v1 v2) →
      Vector3d.normalize sqrtF (triangleCross v0 v1 v2) =
        ⟨(triangleCross v0 v1 v2).x / length sqrtF (triangleCross v0 v1 v2),
         (triangleCross v0 v1 v2).y / length sqrtF (triangleCross v0 v1 v2),
         (triangleCross v0 v1 v2).z / length sqrtF (triangleCross v0 v1 v2)⟩ ∧
      n1 = Vector3d.normalize sqrtF (triangleCross v0 v1 v2) := by
    intro h
    rw [hl] at h ⊢
    have h1 := vector3d_normalize_pos sqrtF _ h
    have h2 := glm_normalize_pos sqrtF _ h
    rw [hn1] at h2
    exact ⟨h1, (Except.ok.inj h2).trans h1.symm⟩
  refine ⟨Vector3d.normalize sqrtF (triangleCross v0 v1 v2), n1, hgn, hgt, ?_, ?_, ?_, ?_⟩
  · obtain ⟨k, hk⟩ := vector3d_normalize_scalar sqrtF (triangleCross v0 v1 v2)
    obtain ⟨k1, hk1⟩ := glm_normalize_scalar sqrtF (triangleCross v0 v1 v2)
    rw [hn1] at hk1
    rw [hk, Except.ok.inj hk1]
    exact ⟨(triangleCross_scalar_perp v0 v1 v2 k).1, (triangleCross_scalar_perp v0 v1 v2 k).2,
      (triangleCross_scalar_perp v0 v1 v2 k1).1, (triangleCross_scalar_perp v0 v1 v2 k1).2⟩
  · intro hz
    obtain ⟨k, hk⟩ := vector3d_normalize_scalar sqrtF (triangleCross v0 v1 v2)
    obtain ⟨k1, hk1⟩ := glm_normalize_scalar sqrtF (triangleCross v0 v1 v2)
    rw [hn1] at hk1
    rw [hk, Except.ok.inj hk1, hz]
    simp only [mul_zero, and_self]
  · intro h
    obtain ⟨h1, h2⟩ := hpos h
    have hne : length sqrtF (triangleCross v0 v1 v2) ≠ 0 := ne_of_gt h
    refine ⟨h1, h2, ?_, ?_⟩
    · rw [h1]
      exact dot_div_self _ _ hne
    · rw [h1]
      exact dot_div_self_eq_one_iff _ _ hne
  · intro hne hsq
    have hd := dot_self_ne_zero _ hne
    have hp : 0 < length sqrtF (triangleCross v0 v1 v2) := sqrt_pos_of_exact sqrtF _ hd hsq
    obtain ⟨h1, h2⟩ := hpos hp
    have hunit : dot (Vector3d.normalize sqrtF (triangleCross v0 v1 v2))
        (Vector3d.normalize sqrtF (triangleCross v0 v1 v2)) = 1 := by
      rw [h1]
      exact (dot_div_self_eq_one_iff _ _ (ne_of_gt hp)).mpr hsq.2
    refine ⟨hp, h2, hunit, ?_⟩
    intro hone
    have hs1 := sqrtExactAt_one sqrtF hone
    refine ⟨?_, ?_⟩
    · show sqrtF (dot _ _) = 1
      rw [hunit, hs1]
    · show sqrtF (dot _ _) = 1
      rw [hunit, hs1]

/-- C25 (amended) on `tiltedMesh`: the cross product `(0, 3, 4)` has the computed length 5
and the normal is `(0, 3/5, 4/5)`, of squared length 1. -/
theorem C25_normal_is_unit_witness :
    ∃ n n1 : Vec3, TriangleSurface.getNormal (fun x => if x = 25 then 5 else x) tiltedMesh 0
        = .ok n ∧
      getTriangleNormal (fun x => if x = 25 then 5 else x) tiltedMesh 0 = .ok n1 ∧
      n1 = n ∧ dot n n = 1 :=
  let ⟨n, n1, h1, h2, _, _, _, h6⟩ :=
    C25_normal_is_unit (fun x => if x = 25 then 5 else x) tiltedMesh 0
      ⟨0, 0, 0⟩ ⟨1, 0, 0⟩ ⟨0, 4, -3⟩ (by decide!) (by decide!)
  ⟨n, n1, h1, h2, (h6 (by decide!) (by decide!)).2.1, (h6 (by decide!) (by decide!)).2.2.1⟩

/-- C26 (as stated) fails in `float` arithmetic: on triangle 0 of `thinMesh`, vertices
`(0,0,0)`, `(23,29,8)`, `(27,34,0)`, the computed determinant is `1.0` (the guard is
silent), and at the position `(20.625, 26)` the height computed with every operation
rounded to binary32 is `8.0`, while the plane of the triangle is at height 6 there: the
point `(20.625, 26, 8)` does not satisfy the plane equation. -/
theorem C26_surface_height_float_counterexample :
    thinMesh.triangleVertices 0 = .ok (⟨0, 0, 0⟩, ⟨23, 29, 8⟩, ⟨27, 34, 0⟩) ∧
    DENOM_EPS ≤ |baryDenom ⟨0, 0, 0⟩ ⟨23, 29, 8⟩ ⟨27, 34, 0⟩| ∧
    baryDenomR float32 ⟨0, 0, 0⟩ ⟨23, 29, 8⟩ ⟨27, 34, 0⟩ = 1 ∧
    ¬ ((1 : ℚ) < float32 DENOM_EPS) ∧
    float32 (165 / 8) = 165 / 8 ∧
    getBarycentricCoordinatesR float32 thinMesh ⟨165 / 8, 26, 0⟩ 0
      = .ok ⟨-1 / 8, 1, 1 / 8⟩ ∧
    getSurfaceHeightR float32 thinMesh ⟨165 / 8, 26, 0⟩ 0 = .ok 8 ∧
    dot (triangleCross ⟨0, 0, 0⟩ ⟨23, 29, 8⟩ ⟨27, 34, 0⟩)
      (Vec3.sub ⟨165 / 8, 26, 8⟩ ⟨0, 0, 0⟩) ≠ 0 ∧
    getSurfaceHeight thinMesh ⟨165 / 8, 26, 0⟩ 0 = .ok 6 ∧
    dot (triangleCross ⟨0, 0, 0⟩ ⟨23, 29, 8⟩ ⟨27, 34, 0⟩)
      (Vec3.sub ⟨165 / 8, 26, 6⟩ ⟨0, 0, 0⟩) = 0 := by
  refine ⟨by decide!, by decide!, by decide!, by decide!, by decide!, by decide!,
    by decide!, by decide!, by decide!, by decide!⟩

/-- C26 (amended): in exact arithmetic (the computation of `getSurfaceHeight` without
rounding), for a triangle with `|denom| >= 1e-8` and every position `pos`,
`getSurfaceHeight(pos, t)` returns `h = u*z0 + v*z1 + w*z2` for the weights `(u, v, w)` of
`pos`; the point `(pos.x, pos.y, h)` lies in the plane of the triangle; at the XY position
of each vertex the height is that vertex's z; and the result does not depend on `pos.z`. -/
theorem C26_surface_height_is_plane_height (m : Mesh) (pos : Vec3) (t : Int)
    (v0 v1 v2 : Vec3)
    (hv : m.triangleVertices t = .ok (v0, v1, v2))
    (hden : DENOM_EPS ≤ |baryDenom v0 v1 v2|) :
    (∃ (b : Vec3) (h : ℚ), getBarycentricCoordinates m pos t = .ok b ∧
      getSurfaceHeight m pos t = .ok h ∧
      h = b.x * v0.z + b.y * v1.z + b.z * v2.z ∧
      dot (triangleCross v0 v1 v2) (Vec3.sub ⟨pos.x, pos.y, h⟩ v0) = 0 ∧
      getSurfaceHeight m v0 t = .ok v0.z ∧
      getSurfaceHeight m v1 t = .ok v1.z ∧
      getSurfaceHeight m v2 t = .ok v2.z ∧
      (∀ z : ℚ, getSurfaceHeight m ⟨pos.x, pos.y, z⟩ t = .ok h)) ∧
    getSurfaceHeightR (fun x => x) m pos t = getSurfaceHeight m pos t ∧
    (∀ (fl : ℚ → ℚ) (z : ℚ),
      getSurfaceHeightR fl m ⟨pos.x, pos.y, z⟩ t = getSurfaceHeightR fl m pos t) :=
  ⟨surface_height_is_plane_height m pos t v0 v1 v2 hv hden,
    getSurfaceHeightR_exact m pos t, fun _ _ => rfl⟩

/-- C26 (amended) on `tiltedMesh` (the plane `z = -(3/4) y`) at the position
`(0.25, 1, 7)`. -/
theorem C26_surface_height_is_plane_height_witness :
    ∃ (b : Vec3) (h : ℚ), getBarycentricCoordinates tiltedMesh ⟨1 / 4, 1, 7⟩ 0 = .ok b ∧
      getSurfaceHeight tiltedMesh ⟨1 / 4, 1, 7⟩ 0 = .ok h ∧
      dot (triangleCross ⟨0, 0, 0⟩ ⟨1, 0, 0⟩ ⟨0, 4, -3⟩)
        (Vec3.sub ⟨1 / 4, 1, h⟩ ⟨0, 0, 0⟩) = 0 :=
  let ⟨b, h, h1, h2, _, h4, _⟩ :=
    (C26_surface_height_is_plane_height tiltedMesh ⟨1 / 4, 1, 7⟩ 0
      ⟨0, 0, 0⟩ ⟨1, 0, 0⟩ ⟨0, 4, -3⟩ (by decide!) (by decide!)).1
  ⟨b, h, h1, h2, h4⟩

/-- C27: the divisor `nz` of `RollingBall::move` always has magnitude at least `1e-6`: it
is the z component of the normal when that has magnitude at least `1e-6`, and `1e-6`
otherwise, in which case the acceleration is
`(g*nx/1e-6, g*ny/1e-6, g*(1e-12 - 1))`; whenever a triangle is found both divisions
succeed and the acceleration is computed with that one value of `nz`; and `move` never ends
in a division by zero. -/
theorem C27_move_never_divides_by_zero (sqrtF : ℚ → ℚ) (b : RollingBall) (dt : ℚ) :
    RollingBall.move sqrtF b dt ≠ .error Fault.divisionByZero ∧
    (∀ normal : Vec3,
      SURFACE_EPS ≤ |slopeNz normal| ∧ slopeNz normal ≠ 0 ∧
      (SURFACE_EPS ≤ |normal.z| → slopeNz normal = normal.z) ∧
      (|normal.z| < SURFACE_EPS →
        slopeNz normal = 1 / 1000000 ∧
        slopeAccel normal =
          ⟨RollingBall.g * normal.x / (1 / 1000000), RollingBall.g * normal.y / (1 / 1000000),
            RollingBall.g * (1 / 1000000000000 - 1)⟩)) ∧
    (∀ (surface : Mesh) (i : Int) (normal : Vec3), b.mSurface = some surface →
      TriangleSurface.findTriangle surface b.mPosition = .ok i → i ≠ -1 →
      TriangleSurface.getNormal sqrtF surface i = .ok normal →
      fdiv (RollingBall.g * normal.x) (slopeNz normal)
        = .ok (RollingBall.g * normal.x / slopeNz normal) ∧
      fdiv (RollingBall.g * normal.y) (slopeNz normal)
        = .ok (RollingBall.g * normal.y / slopeNz normal) ∧
      ∃ b1 : RollingBall, RollingBall.move sqrtF b dt = .ok (MoveOutcome.moved, b1) ∧
        b1.mAcceleration =
          ⟨RollingBall.g * normal.x / slopeNz normal, RollingBall.g * normal.y / slopeNz normal,
            RollingBall.g * (slopeNz normal * slopeNz normal - 1)⟩) := by
  refine ⟨?_, ?_, ?_⟩
  · intro h
    exact absurd (move_error sqrtF b dt _ h) (by decide)
  · intro normal
    refine ⟨slopeNz_ge normal, slopeNz_ne_zero normal, slopeNz_of_ge normal, ?_⟩
    intro hlt
    have hnz : slopeNz normal = 1 / 1000000 := slopeNz_of_lt normal hlt
    refine ⟨hnz, ?_⟩
    unfold slopeAccel
    rw [hnz]
    norm_num
  · intro surface i normal hs hf hi hn
    have hne := slopeNz_ne_zero normal
    refine ⟨?_, ?_, _, move_moved sqrtF b surface dt i normal hs hf hi hn, rfl⟩
    · unfold fdiv
      simp only [hne, if_false]
    · unfold fdiv
      simp only [hne, if_false]

/-- C27 on a vertical face: for a normal with `nz = 0` the divisor is `1e-6`. -/
theorem C27_move_never_divides_by_zero_witness :
    slopeNz ⟨1, 0, 0⟩ = 1 / 1000000 ∧
    slopeAccel ⟨1, 0, 0⟩ =
      ⟨RollingBall.g * 1 / (1 / 1000000), RollingBall.g * 0 / (1 / 1000000),
        RollingBall.g * (1 / 1000000000000 - 1)⟩ :=
  ((C27_move_never_divides_by_zero (fun x => x)
      ((RollingBall.construct (3 / 20) 1 ⟨1 / 10, 1 / 10, 3 / 10⟩).setSurface flatPairMesh)
      (1 / 100)).2.1 ⟨1, 0, 0⟩).2.2.2 (by decide!)

/-- C28: point location uses the XY projection only. For two meshes with the same triangles
whose vertices agree in x and y, and two points that agree in x and y (so: after any change
of the z coordinate of the query point and of the z coordinates of any mesh vertices),
`getBarycentricCoordinates` gives the same result for every triangle index, the walk and
`findContainingTriangle` give the same result for every seed, and
`TriangleSurface::findTriangle` gives the same result. -/
theorem C28_location_ignores_z (m m1 : Mesh) (P Q : Vec3) (hm : m.SameXY m1)
    (hp : XYEq P Q) :
    (∀ t : Int, getBarycentricCoordinates m P t = getBarycentricCoordinates m1 Q t) ∧
    (∀ seed : Int, walkFrom m P seed = walkFrom m1 Q seed) ∧
    (∀ ball ball1 : BallState, ball.currentTriangle = ball1.currentTriangle →
      findContainingTriangle m ball P = findContainingTriangle m1 ball1 Q) ∧
    TriangleSurface.findTriangle m P = TriangleSurface.findTriangle m1 Q := by
  have hwalk : ∀ seed : Int, walkFrom m P seed = walkFrom m1 Q seed := fun seed =>
    walkLoop_sameXY m m1 hm P Q hp 100 seed 0
  refine ⟨getBarycentricCoordinates_sameXY m m1 hm P Q hp, hwalk, ?_, ?_⟩
  · intro ball ball1 hseed
    unfold findContainingTriangle
    rw [hseed, hwalk]
  · unfold TriangleSurface.findTriangle
    rw [← hm.1]
    exact findTriangleLoop_sameXY m m1 hm P Q hp m.triangles 0

/-- C28 on `tiltedMesh` and a copy of it with other z coordinates, for the points
`(0.25, 1, 7)` and `(0.25, 1, -2)`. -/
theorem C28_location_ignores_z_witness :
    getBarycentricCoordinates tiltedMesh ⟨1 / 4, 1, 7⟩ 0 =
      getBarycentricCoordinates ⟨[⟨0, 0, 5⟩, ⟨1, 0, -2⟩, ⟨0, 4, 0⟩], tiltedMesh.triangles⟩
        ⟨1 / 4, 1, -2⟩ 0 ∧
    TriangleSurface.findTriangle tiltedMesh ⟨1 / 4, 1, 7⟩ =
      TriangleSurface.findTriangle
        ⟨[⟨0, 0, 5⟩, ⟨1, 0, -2⟩, ⟨0, 4, 0⟩], tiltedMesh.triangles⟩ ⟨1 / 4, 1, -2⟩ :=
  have h := C28_location_ignores_z tiltedMesh
    ⟨[⟨0, 0, 5⟩, ⟨1, 0, -2⟩, ⟨0, 4, 0⟩], tiltedMesh.triangles⟩ ⟨1 / 4, 1, 7⟩ ⟨1 / 4, 1, -2⟩
    ⟨rfl, List.Forall₂.cons ⟨rfl, rfl⟩ (List.Forall₂.cons ⟨rfl, rfl⟩
      (List.Forall₂.cons ⟨rfl, rfl⟩ List.Forall₂.nil))⟩
    ⟨rfl, rfl⟩
  ⟨h.1 0, h.2.2.2⟩

/-- C29: in the built-in simulation (`initializeTriangulation` + `initializeBall`), with the
square root exact at 16, 1 and 0.01, for every `n` (so for `0 <= n <= 10000`): after `n`
calls of `updatePhysics` the state is position `(1 + 0.001 n, 0.5, 0.3)`, velocity
`(0.1, 0, 0)`, `currentTriangle = 0`; from that state the walk stops in its first iteration
at triangle 0, whose three vertices have `z = 0`, the acceleration of the next step is
zero, the surface height is 0 and the clamp test `z < height + BALL_RADIUS` is false; the
speed is `0.1`, not below `0.001`; and `run(iterations)` performs all its iterations,
`run(10000)` ending in the state at `n = 10000` without the early stop. -/
theorem C29_builtin_run_is_uniform (sqrtF : ℚ → ℚ) (h16 : SqrtExactAt sqrtF 16)
    (h1 : SqrtExactAt sqrtF 1) (h100 : SqrtExactAt sqrtF (1 / 100)) :
    (∀ n : Nat,
      updatePhysicsN sqrtF initializeTriangulation n initializeBall
        = .ok ⟨⟨1 + n / 1000, 1 / 2, 3 / 10⟩, ⟨1 / 10, 0, 0⟩, 0⟩ ∧
      (∃ found : Bool, walkFrom initializeTriangulation ⟨1 + n / 1000, 1 / 2, 3 / 10⟩ 0
        = .ok ⟨0, found, 0⟩) ∧
      (∃ s : Integrated,
        integrate sqrtF initializeTriangulation
          ⟨⟨1 + n / 1000, 1 / 2, 3 / 10⟩, ⟨1 / 10, 0, 0⟩, 0⟩ = .ok s ∧
        s.currentTriangle = 0 ∧ s.acceleration = ⟨0, 0, 0⟩ ∧
        getSurfaceHeight initializeTriangulation s.position s.currentTriangle = .ok 0 ∧
        ¬ (s.position.z < 0 + BALL_RADIUS))) ∧
    initializeTriangulation.triangleVertices 0 = .ok (⟨0, 0, 0⟩, ⟨2, 0, 0⟩, ⟨0, 2, 0⟩) ∧
    length sqrtF ⟨1 / 10, 0, 0⟩ = 1 / 10 ∧
    (∀ iterations : Nat,
      run sqrtF initializeTriangulation initializeBall iterations
        = .ok (⟨⟨1 + iterations / 1000, 1 / 2, 3 / 10⟩, ⟨1 / 10, 0, 0⟩, 0⟩, none)) ∧
    run sqrtF initializeTriangulation initializeBall MAX_ITERATIONS
      = .ok (⟨⟨11, 1 / 2, 3 / 10⟩, ⟨1 / 10, 0, 0⟩, 0⟩, none) := by
  have hrun : ∀ iterations : Nat,
      run sqrtF initializeTriangulation initializeBall iterations
        = .ok (⟨⟨1 + iterations / 1000, 1 / 2, 3 / 10⟩, ⟨1 / 10, 0, 0⟩, 0⟩, none) :=
    fun iterations => builtin_runLoop sqrtF h16 h1 h100 iterations 0 1 le_rfl
  refine ⟨?_, builtin_vertices_zero, builtin_speed sqrtF h100, hrun, ?_⟩
  · intro n
    have hx : (1 : ℚ) ≤ 1 + n / 1000 := by
      have : (0 : ℚ) ≤ n := Nat.cast_nonneg n
      linarith
    refine ⟨builtin_updatePhysicsN sqrtF h16 h1 n 1 le_rfl, ⟨_, builtin_walk _ _ hx⟩,
      _, builtin_integrate sqrtF h16 h1 _ hx, rfl, rfl, builtin_height _, ?_⟩
    unfold BALL_RADIUS
    norm_num
  · rw [hrun MAX_ITERATIONS]
    unfold MAX_ITERATIONS
    norm_num

/-- C29 with a square root that is exact at 16, 1 and 0.01: the state after 3 steps. -/
theorem C29_builtin_run_is_uniform_witness :
    updatePhysicsN (fun x => if x = 16 then 4 else if x = 1 / 100 then 1 / 10 else x)
        initializeTriangulation 3 initializeBall
      = .ok ⟨⟨1 + ((3 : Nat) : ℚ) / 1000, 1 / 2, 3 / 10⟩, ⟨1 / 10, 0, 0⟩, 0⟩ ∧
    run (fun x => if x = 16 then 4 else if x = 1 / 100 then 1 / 10 else x)
        initializeTriangulation initializeBall MAX_ITERATIONS
      = .ok (⟨⟨11, 1 / 2, 3 / 10⟩, ⟨1 / 10, 0, 0⟩, 0⟩, none) :=
  have h := C29_builtin_run_is_uniform
    (fun x => if x = 16 then 4 else if x = 1 / 100 then 1 / 10 else x)
    (by decide!) (by decide!) (by decide!)
  ⟨(h.1 3).1, h.2.2.2.2⟩

/-- C30: for a triangle whose XY projection is not collinear and every point, the weights
`(u, v, w)` of `TriangleSurface::findTriangle` (signed-area quotients over
`(y1-y2)(x0-x2) + (x2-x1)(y0-y2)`) equal, component by component, the weights of
`BallSimulation::getBarycentricCoordinates` (quotients over `d00*d11 - d01*d01`); and when
both degeneracy tests pass, the two functions compute the same triple. -/
theorem C30_weight_formulas_agree (m : Mesh) (P : Vec3) (t : Int) (tri : Triangle)
    (v0 v1 v2 : Vec3)
    (ht : m.triangleAt t = .ok tri)
    (hv : m.triangleVertices t = .ok (v0, v1, v2))
    (hcol : orientXY v0 v1 v2 ≠ 0) :
    (surfaceNumU P v1 v2 / surfaceDenom v0 v1 v2 =
        1 - baryNumV P v0 v1 v2 / baryDenom v0 v1 v2
          - baryNumW P v0 v1 v2 / baryDenom v0 v1 v2 ∧
      surfaceNumV P v0 v2 / surfaceDenom v0 v1 v2 =
        baryNumV P v0 v1 v2 / baryDenom v0 v1 v2 ∧
      1 - surfaceNumU P v1 v2 / surfaceDenom v0 v1 v2
        - surfaceNumV P v0 v2 / surfaceDenom v0 v1 v2 =
        baryNumW P v0 v1 v2 / baryDenom v0 v1 v2) ∧
    (SURFACE_EPS ≤ |surfaceDenom v0 v1 v2| → DENOM_EPS ≤ |baryDenom v0 v1 v2| →
      ∃ u v w : ℚ, surfaceWeights m P tri = .ok (some (u, v, w)) ∧
        getBarycentricCoordinates m P t = .ok ⟨u, v, w⟩) := by
  have hform := surface_weights_eq_bary P v0 v1 v2 hcol
  refine ⟨hform, ?_⟩
  intro hs hb
  obtain ⟨tri2, ht2, h0, h1, h2⟩ := (triangleVertices_ok_iff m t v0 v1 v2).mp hv
  rw [ht] at ht2
  have htri : tri = tri2 := Except.ok.inj ht2
  rw [← htri] at h0 h1 h2
  refine ⟨surfaceNumU P v1 v2 / surfaceDenom v0 v1 v2,
    surfaceNumV P v0 v2 / surfaceDenom v0 v1 v2,
    1 - surfaceNumU P v1 v2 / surfaceDenom v0 v1 v2
      - surfaceNumV P v0 v2 / surfaceDenom v0 v1 v2, ?_, ?_⟩
  · rw [surfaceWeights_of_vertices m P tri v0 v1 v2 h0 h1 h2, if_neg (not_lt.mpr hs)]
  · rw [getBarycentricCoordinates_eq m P t v0 v1 v2 hv,
      baryOfVertices_regular P v0 v1 v2 hb, hform.2.2, hform.2.1, hform.1]

/-- C30 on triangle 1 of the built-in mesh and the point `(1.6, 0.5)`: both functions
compute the weights `(3/4, 1/20, 1/5)`. -/
theorem C30_weight_formulas_agree_witness :
    ∃ u v w : ℚ,
      surfaceWeights initializeTriangulation ⟨8 / 5, 1 / 2, 3 / 10⟩ ⟨1, 4, 3, 0, 2, -1⟩
        = .ok (some (u, v, w)) ∧
      getBarycentricCoordinates initializeTriangulation ⟨8 / 5, 1 / 2, 3 / 10⟩ 1
        = .ok ⟨u, v, w⟩ :=
  (C30_weight_formulas_agree initializeTriangulation ⟨8 / 5, 1 / 2, 3 / 10⟩ 1
    ⟨1, 4, 3, 0, 2, -1⟩ ⟨2, 0, 0⟩ ⟨2, 2, 0⟩ ⟨0, 2, 0⟩ (by decide!) (by decide!)
    (by decide!)).2 (by decide!) (by decide!)

/-- C31 (as stated) fails in `float` arithmetic. For the vertices `(0,0)`, `(3654,29)`,
`(4096,33)` the determinant computed with every operation rounded to binary32 is
`-16777216`, a negative number (the exact value is `1798^2 = 3232804`). For the vertices
`(0,0)`, `(8,0)`, `(8,1/1024)` twice the XY area is `1/128`, not below `1e-4`, yet the
computed determinant is 0, the degeneracy test holds and the sentinel is returned for
every point. -/
theorem C31_denom_float_counterexample :
    baryDenomR float32 ⟨0, 0, 0⟩ ⟨3654, 29, 0⟩ ⟨4096, 33, 0⟩ = -16777216 ∧
    baryDenomR float32 ⟨0, 0, 0⟩ ⟨3654, 29, 0⟩ ⟨4096, 33, 0⟩ < 0 ∧
    orientXY ⟨0, 0, 0⟩ ⟨3654, 29, 0⟩ ⟨4096, 33, 0⟩ = 1798 ∧
    baryDenom ⟨0, 0, 0⟩ ⟨3654, 29, 0⟩ ⟨4096, 33, 0⟩ = 3232804 ∧
    float32 (1 / 1024) = 1 / 1024 ∧
    orientXY ⟨0, 0, 0⟩ ⟨8, 0, 0⟩ ⟨8, 1 / 1024, 0⟩ = 1 / 128 ∧
    ¬ (|orientXY ⟨0, 0, 0⟩ ⟨8, 0, 0⟩ ⟨8, 1 / 1024, 0⟩| < 1 / 10000) ∧
    baryDenomR float32 ⟨0, 0, 0⟩ ⟨8, 0, 0⟩ ⟨8, 1 / 1024, 0⟩ = 0 ∧
    |baryDenomR float32 ⟨0, 0, 0⟩ ⟨8, 0, 0⟩ ⟨8, 1 / 1024, 0⟩| < float32 DENOM_EPS ∧
    (∀ P : Vec3, baryOfVerticesR float32 P ⟨0, 0, 0⟩ ⟨8, 0, 0⟩ ⟨8, 1 / 1024, 0⟩
      = .ok ⟨-1, -1, -1⟩) := by
  refine ⟨by decide!, by decide!, by decide!, by decide!, by decide!, by decide!,
    by decide!, by decide!, by decide!, ?_⟩
  intro P
  exact baryOfVerticesR_degenerate float32 P _ _ _ (by decide!)

/-- C31 (amended): in exact arithmetic (the computation of `getBarycentricCoordinates`
without rounding) the determinant `denom = d00*d11 - d01*d01` is never negative; it is the
square of the z component of `cross(v1 - v0, v2 - v0)`, which is twice the signed XY area
of the triangle; the degeneracy test `|denom| < 1e-8` holds exactly when twice the XY area
is below `1e-4` in magnitude: then the sentinel `(-1, -1, -1)` is returned for every
point, and otherwise the quotients are; and the test holds for the non-collinear triangle
`(0,0)`, `(0.001,0)`, `(0,0.001)`. -/
theorem C31_denom_is_squared_area (v0 v1 v2 : Vec3) :
    (0 ≤ baryDenom v0 v1 v2 ∧
    baryDenom v0 v1 v2 = (triangleCross v0 v1 v2).z ^ 2 ∧
    (triangleCross v0 v1 v2).z = orientXY v0 v1 v2 ∧
    (|baryDenom v0 v1 v2| < DENOM_EPS ↔ |orientXY v0 v1 v2| < 1 / 10000) ∧
    (|orientXY v0 v1 v2| < 1 / 10000 →
      ∀ P : Vec3, baryOfVertices P v0 v1 v2 = .ok ⟨-1, -1, -1⟩) ∧
    (1 / 10000 ≤ |orientXY v0 v1 v2| →
      ∀ P : Vec3, baryOfVertices P v0 v1 v2 =
        .ok ⟨1 - baryNumV P v0 v1 v2 / baryDenom v0 v1 v2
               - baryNumW P v0 v1 v2 / baryDenom v0 v1 v2,
             baryNumV P v0 v1 v2 / baryDenom v0 v1 v2,
             baryNumW P v0 v1 v2 / baryDenom v0 v1 v2⟩) ∧
    (orientXY ⟨0, 0, 0⟩ ⟨1 / 1000, 0, 0⟩ ⟨0, 1 / 1000, 0⟩ ≠ 0 ∧
      |baryDenom ⟨0, 0, 0⟩ ⟨1 / 1000, 0, 0⟩ ⟨0, 1 / 1000, 0⟩| < DENOM_EPS ∧
      tinyMesh.triangleVertices 0
        = .ok (⟨0, 0, 0⟩, ⟨1 / 1000, 0, 0⟩, ⟨0, 1 / 1000, 0⟩))) ∧
    baryDenomR (fun x => x) v0 v1 v2 = baryDenom v0 v1 v2 ∧
    (∀ P : Vec3, baryOfVerticesR (fun x => x) P v0 v1 v2 = baryOfVertices P v0 v1 v2) :=
  ⟨denom_is_squared_area v0 v1 v2, baryDenomR_exact v0 v1 v2,
    fun P => baryOfVerticesR_exact P v0 v1 v2⟩

/-- C31 (amended) on triangle 0 of the built-in mesh: the determinant is `16 = 4^2`. -/
theorem C31_denom_is_squared_area_witness :
    baryDenom ⟨0, 0, 0⟩ ⟨2, 0, 0⟩ ⟨0, 2, 0⟩
        = (triangleCross ⟨0, 0, 0⟩ ⟨2, 0, 0⟩ ⟨0, 2, 0⟩).z ^ 2 ∧
      (|baryDenom ⟨0, 0, 0⟩ ⟨2, 0, 0⟩ ⟨0, 2, 0⟩| < DENOM_EPS ↔
        |orientXY ⟨0, 0, 0⟩ ⟨2, 0, 0⟩ ⟨0, 2, 0⟩| < 1 / 10000) :=
  ⟨(C31_denom_is_squared_area ⟨0, 0, 0⟩ ⟨2, 0, 0⟩ ⟨0, 2, 0⟩).1.2.1,
    (C31_denom_is_squared_area ⟨0, 0, 0⟩ ⟨2, 0, 0⟩ ⟨0, 2, 0⟩).1.2.2.2.1⟩

/-- C32: `getSurfaceHeight` does not check the sentinel. For a triangle with
`|denom| < 1e-8` and every position, the weights it reads are `(-1, -1, -1)` and it returns
`-(z0 + z1 + z2)`; a step of `updatePhysics` whose walk ends at that triangle clamps the
ball against that value: when the integrated `z` is below `-(z0 + z1 + z2) + BALL_RADIUS`
the new `z` is `-(z0 + z1 + z2) + BALL_RADIUS`. -/
theorem C32_degenerate_height_is_sentinel_sum (sqrtF : ℚ → ℚ) (m : Mesh) (t : Int)
    (v0 v1 v2 : Vec3)
    (hv : m.triangleVertices t = .ok (v0, v1, v2))
    (hdeg : |baryDenom v0 v1 v2| < DENOM_EPS) :
    (∀ pos : Vec3,
      getBarycentricCoordinates m ⟨pos.x, pos.y, 0⟩ t = .ok ⟨-1, -1, -1⟩ ∧
      getSurfaceHeight m pos t = .ok (-(v0.z + v1.z + v2.z))) ∧
    (∀ (ball : BallState) (s : Integrated), integrate sqrtF m ball = .ok s →
      s.currentTriangle = t →
      updatePhysics sqrtF m ball = .ok (clampToSurface s (-(v0.z + v1.z + v2.z))) ∧
      (s.position.z < -(v0.z + v1.z + v2.z) + BALL_RADIUS →
        (clampToSurface s (-(v0.z + v1.z + v2.z))).position =
          ⟨s.position.x, s.position.y, -(v0.z + v1.z + v2.z) + BALL_RADIUS⟩) ∧
      (¬ (s.position.z < -(v0.z + v1.z + v2.z) + BALL_RADIUS) →
        (clampToSurface s (-(v0.z + v1.z + v2.z))).position = s.position)) := by
  refine ⟨?_, ?_⟩
  · intro pos
    exact ⟨(getBarycentricCoordinates_eq m _ t v0 v1 v2 hv).trans
      (baryOfVertices_degenerate _ v0 v1 v2 hdeg),
      getSurfaceHeight_degenerate m pos t v0 v1 v2 hv hdeg⟩
  · intro ball s hs hcur
    refine ⟨?_, ?_, ?_⟩
    · rw [updatePhysics_eq_clamp, hs]
      simp only [hcur, getSurfaceHeight_degenerate m s.position t v0 v1 v2 hv hdeg]
    · intro hlt
      unfold clampToSurface
      simp only [hlt, if_true]
    · intro hge
      unfold clampToSurface
      simp only [hge, if_false]

/-- C32 on `sliverMesh` (vertex heights 1, 2, 3): a ball at `(1, 0, -7)` is clamped to
`z = -6 + 0.1`. -/
theorem C32_degenerate_height_is_sentinel_sum_witness :
    getSurfaceHeight sliverMesh ⟨1, 0, -7⟩ 1 = .ok (-((1 : ℚ) + 2 + 3)) ∧
    updatePhysics (fun x => x) sliverMesh ⟨⟨1, 0, -7⟩, ⟨0, 0, 0⟩, 0⟩ =
      .ok (clampToSurface
        ⟨1, ⟨0, 0, 0⟩, ⟨0, 0, 0⟩, ⟨0, 0, -981 / 200⟩, ⟨0, 0, -981 / 20000⟩,
          ⟨1, 0, -14000981 / 2000000⟩⟩ (-((1 : ℚ) + 2 + 3))) ∧
    (clampToSurface
        ⟨1, ⟨0, 0, 0⟩, ⟨0, 0, 0⟩, ⟨0, 0, -981 / 200⟩, ⟨0, 0, -981 / 20000⟩,
          ⟨1, 0, -14000981 / 2000000⟩⟩ (-((1 : ℚ) + 2 + 3))).position =
      ⟨1, 0, -((1 : ℚ) + 2 + 3) + BALL_RADIUS⟩ :=
  have h := C32_degenerate_height_is_sentinel_sum (fun x => x) sliverMesh 1
    ⟨0, 0, 1⟩ ⟨1, 0, 2⟩ ⟨2, 0, 3⟩ (by decide!) (by decide!)
  have h2 := h.2 ⟨⟨1, 0, -7⟩, ⟨0, 0, 0⟩, 0⟩
    ⟨1, ⟨0, 0, 0⟩, ⟨0, 0, 0⟩, ⟨0, 0, -981 / 200⟩, ⟨0, 0, -981 / 20000⟩,
      ⟨1, 0, -14000981 / 2000000⟩⟩ (by decide!) rfl
  ⟨(h.1 ⟨1, 0, -7⟩).2, h2.1, h2.2.1 (by decide!)⟩

/-- C33: when the walk for `P` seeded at `seed` ends with fewer than 100 neighbour steps,
it ended by accepting the returned triangle `r` or at a boundary entry of `r`, and the walk
seeded at `r` for the same point returns `r` with zero neighbour steps and the same `found`
flag (so `findContainingTriangle` re-run from `r` returns `r`). On `cycleMesh` the walk for
`(2, 2)` seeded at 0 uses up the 100 steps and returns triangle 1, and seeded at 1 it
returns triangle 2. -/
theorem C33_walk_idempotent_before_bound (m : Mesh) (P : Vec3) (seed : Int) (st : WalkState)
    (h : walkFrom m P seed = .ok st) (hit : st.iterations < 100) :
    ((st.found = true ∧ walkBody m P st.current = .ok WalkStep.found) ∨
      (st.found = false ∧ walkBody m P st.current = .ok WalkStep.boundary)) ∧
    walkFrom m P st.current = .ok ⟨st.current, st.found, 0⟩ ∧
    (∀ ball : BallState, ball.currentTriangle = st.current →
      findContainingTriangle m ball P = .ok st.current) ∧
    (walkFrom cycleMesh ⟨2, 2, 0⟩ 0 = .ok ⟨1, false, 100⟩ ∧
      walkFrom cycleMesh ⟨2, 2, 0⟩ 1 = .ok ⟨2, false, 100⟩) := by
  obtain ⟨k, hk, hitk, -, hend⟩ := walkLoop_ok_spec m P 100 seed 0 st h
  have hcase : (st.found = true ∧ walkBody m P st.current = .ok WalkStep.found) ∨
      (st.found = false ∧ walkBody m P st.current = .ok WalkStep.boundary) := by
    rcases hend with h1 | h2 | ⟨-, h3⟩
    · exact Or.inl h1
    · exact Or.inr h2
    · omega
  have hw : walkFrom m P st.current = .ok ⟨st.current, st.found, 0⟩ := by
    rcases hcase with ⟨hf, hb⟩ | ⟨hf, hb⟩
    · rw [hf]
      exact walkLoop_found m P 99 st.current 0 hb
    · rw [hf]
      exact walkLoop_boundary m P 99 st.current 0 hb
  refine ⟨hcase, hw, ?_, by decide!, by decide!⟩
  intro ball hs
  exact findContainingTriangle_of_walkFrom m ball P ⟨st.current, st.found, 0⟩
    (by rw [hs]; exact hw)

/-- C33 on the built-in mesh: the walk for `(1.6, 0.5)` seeded at triangle 2 stops after
one neighbour step at a boundary entry of triangle 3; seeded at 3 it returns 3 at once. -/
theorem C33_walk_idempotent_before_bound_witness :
    walkFrom initializeTriangulation ⟨8 / 5, 1 / 2, 3 / 10⟩ 2 = .ok ⟨3, false, 1⟩ ∧
    walkFrom initializeTriangulation ⟨8 / 5, 1 / 2, 3 / 10⟩ 3 = .ok ⟨3, false, 0⟩ :=
  ⟨by decide!,
    (C33_walk_idempotent_before_bound initializeTriangulation ⟨8 / 5, 1 / 2, 3 / 10⟩ 2
      ⟨3, false, 1⟩ (by decide!) (by decide)).2.1⟩

/-- C34: for every velocity `v` and every unit vector `n`, the damped velocity
`v1 = v - n*dot(v, n)*0.5` has `|v1|^2 = |v|^2 - 0.75*dot(v, n)^2 <= |v|^2`. It is the
velocity the surface clamp of `updatePhysics` produces (for a unit normal that its
normalisation leaves unchanged) and the velocity the transition response of
`RollingBall::move` produces when `dot(v, n) < 0` for the normalised axis `n`; after either
response the squared speed is at most `|v|^2`. -/
theorem C34_damping_never_speeds_up (v n : Vec3) (hn : dot n n = 1) :
    dot (v.sub ((n.smul (dot v n)).smul (1 / 2))) (v.sub ((n.smul (dot v n)).smul (1 / 2)))
      = dot v v - 3 / 4 * dot v n ^ 2 ∧
    dot (v.sub ((n.smul (dot v n)).smul (1 / 2))) (v.sub ((n.smul (dot v n)).smul (1 / 2)))
      ≤ dot v v ∧
    (∀ (s : Integrated) (surfaceHeight : ℚ), s.normal = n → s.unitNormal = n →
      s.velocity = v →
      (s.position.z < surfaceHeight + BALL_RADIUS →
        (clampToSurface s surfaceHeight).velocity
          = v.sub ((n.smul (dot v n)).smul (1 / 2))) ∧
      dot (clampToSurface s surfaceHeight).velocity (clampToSurface s surfaceHeight).velocity
        ≤ dot v v) ∧
    (∀ (sqrtF : ℚ → ℚ) (oldNormal normal : Vec3),
      Vector3d.normalize sqrtF (cross oldNormal normal) = n →
      (dot v n < 0 →
        transitionResponse sqrtF oldNormal normal v
          = v.sub ((n.smul (dot v n)).smul (1 / 2))) ∧
      dot (transitionResponse sqrtF oldNormal normal v)
          (transitionResponse sqrtF oldNormal normal v) ≤ dot v v) := by
  have hle := damp_speed_le v n hn
  refine ⟨damp_speed v n hn, hle, ?_, ?_⟩
  · intro s sh hsn hsu hsv
    have hfire : s.position.z < sh + BALL_RADIUS →
        (clampToSurface s sh).velocity = v.sub ((n.smul (dot v n)).smul (1 / 2)) := by
      intro hlt
      unfold clampToSurface
      simp only [hlt, if_true, hsn, hsu, hsv]
    refine ⟨hfire, ?_⟩
    by_cases hlt : s.position.z < sh + BALL_RADIUS
    · rw [hfire hlt]
      exact hle
    · unfold clampToSurface
      simp only [hlt, if_false, hsv]
      exact le_refl _
  · intro sqrtF oldNormal normal hc
    have hfire : dot v n < 0 →
        transitionResponse sqrtF oldNormal normal v
          = v.sub ((n.smul (dot v n)).smul (1 / 2)) := by
      intro hlt
      unfold transitionResponse
      simp only [hc, hlt, if_true]
    refine ⟨hfire, ?_⟩
    by_cases hlt : dot v n < 0
    · rw [hfire hlt]
      exact hle
    · unfold transitionResponse
      simp only [hc, hlt, if_false]
      exact le_refl _

/-- C34 for `v = (1, 2, -3)` and `n = (0, 0, 1)`: the squared speed goes from 14 to
`14 - 0.75 * 9`. -/
theorem C34_damping_never_speeds_up_witness :
    dot (Vec3.sub ⟨1, 2, -3⟩ ((Vec3.smul ⟨0, 0, 1⟩ (dot ⟨1, 2, -3⟩ ⟨0, 0, 1⟩)).smul (1 / 2)))
        (Vec3.sub ⟨1, 2, -3⟩ ((Vec3.smul ⟨0, 0, 1⟩ (dot ⟨1, 2, -3⟩ ⟨0, 0, 1⟩)).smul (1 / 2)))
      = dot ⟨1, 2, -3⟩ ⟨1, 2, -3⟩ - 3 / 4 * dot ⟨1, 2, -3⟩ ⟨0, 0, 1⟩ ^ 2 :=
  (C34_damping_never_speeds_up ⟨1, 2, -3⟩ ⟨0, 0, 1⟩ (by decide!)).1

/-- C35: the edge index the walk chooses carries a smallest weight, and every weight with
a lower index is strictly larger (ties go to the lowest index); the walk leaves a rejecting
triangle through the neighbour entry with that index. In a triangle with `|denom| < 1e-8`
the weights are `(-1, -1, -1)`, the index is 0, and the loop body goes to `neighbors[0]`,
or stops when `neighbors[0] = -1`, the walk then returning that triangle. -/
theorem C35_ties_follow_lowest_index (m : Mesh) (P : Vec3) (c : Int) (tri : Triangle)
    (v0 v1 v2 : Vec3)
    (ht : m.triangleAt c = .ok tri)
    (hv : m.triangleVertices c = .ok (v0, v1, v2))
    (hdeg : |baryDenom v0 v1 v2| < DENOM_EPS) :
    (∀ b : Vec3, (∀ j : Fin 3, b.weight (nextEdgeOf b) ≤ b.weight j) ∧
      (∀ j : Fin 3, j < nextEdgeOf b → b.weight (nextEdgeOf b) < b.weight j)) ∧
    (∀ (m1 : Mesh) (Q : Vec3) (c1 : Int) (b : Vec3) (tri1 : Triangle),
      getBarycentricCoordinates m1 Q c1 = .ok b → baryAccepted b = false →
      m1.triangleAt c1 = .ok tri1 →
      walkBody m1 Q c1 =
        .ok (if tri1.neighbors (nextEdgeOf b) = -1 then WalkStep.boundary
          else WalkStep.moveTo (tri1.neighbors (nextEdgeOf b)))) ∧
    getBarycentricCoordinates m P c = .ok ⟨-1, -1, -1⟩ ∧
    nextEdgeOf ⟨-1, -1, -1⟩ = 0 ∧
    walkBody m P c =
      .ok (if tri.neighbors 0 = -1 then WalkStep.boundary
        else WalkStep.moveTo (tri.neighbors 0)) ∧
    (tri.neighbors 0 = -1 → walkFrom m P c = .ok ⟨c, false, 0⟩) ∧
    (tri.neighbors 0 ≠ -1 →
      walkFrom m P c = walkLoop m P 99 (tri.neighbors 0) 1) := by
  have hb : getBarycentricCoordinates m P c = .ok ⟨-1, -1, -1⟩ :=
    (getBarycentricCoordinates_eq m P c v0 v1 v2 hv).trans
      (baryOfVertices_degenerate P v0 v1 v2 hdeg)
  have he : nextEdgeOf ⟨-1, -1, -1⟩ = 0 := by decide!
  have hacc : baryAccepted ⟨-1, -1, -1⟩ = false := by decide!
  have hbody : walkBody m P c =
      .ok (if tri.neighbors 0 = -1 then WalkStep.boundary
        else WalkStep.moveTo (tri.neighbors 0)) := by
    have h := walkBody_rejected m P c ⟨-1, -1, -1⟩ tri hb hacc ht
    rw [he] at h
    exact h
  refine ⟨nextEdgeOf_min, ?_, hb, he, hbody, ?_, ?_⟩
  · intro m1 Q c1 b tri1 h1 h2 h3
    exact walkBody_rejected m1 Q c1 b tri1 h1 h2 h3
  · intro hn
    rw [if_pos hn] at hbody
    exact walkLoop_boundary m P 99 c 0 hbody
  · intro hn
    rw [if_neg hn] at hbody
    exact walkLoop_moveTo m P 99 c (tri.neighbors 0) 0 hbody

/-- C35 on `sliverMesh`: from triangle 0 the walk goes to `neighbors[0]`, triangle 1, whose
`neighbors[0]` is `-1`; the walk seeded at triangle 1 returns triangle 1 although its
other two neighbour entries name triangle 0. -/
theorem C35_ties_follow_lowest_index_witness :
    walkBody sliverMesh ⟨1, 0, 0⟩ 0 = .ok (WalkStep.moveTo 1) ∧
    walkFrom sliverMesh ⟨1, 0, 0⟩ 0 = .ok ⟨1, false, 1⟩ ∧
    walkFrom sliverMesh ⟨1, 0, 0⟩ 1 = .ok ⟨1, false, 0⟩ :=
  ⟨by decide!, by decide!,
    (C35_ties_follow_lowest_index sliverMesh ⟨1, 0, 0⟩ 1 ⟨0, 1, 2, -1, 0, 0⟩
      ⟨0, 0, 1⟩ ⟨1, 0, 2⟩ ⟨2, 0, 3⟩ (by decide!) (by decide!) (by decide!)).2.2.2.2.2.1
      (by decide)⟩

end PointCloud
